import Mathlib

/-!
# ESC spindle driver (g2core/device/esc_spindle/esc_spindle.cpp)

A shallow embedding of the spindle state machine, the speed admission checks, the
override control, the ramp tick and the PWM duty mapper.

Modelling conventions:
* `float` magnitudes are rationals (`ℚ`).  A floating-point quotient whose divisor is zero
  is not a finite number and is represented by `none` (see `fdiv`).
* the functions are given twice where the rounding of `float` arithmetic matters: with exact
  arithmetic, and (names ending in `_rounded`) with the result of every `float` operation
  rounded by a function `fl`; `binary32` is the rounding of IEEE 754 single precision, and
  the exact functions are the rounded ones at `fl = id`.
* a `float` argument handed in by the caller of an admission function (`spindle_set_speed`,
  `spindle_override_control`), and the field that stores it, is a number or NaN (see `float`):
  every comparison with NaN is false.
* enumeration values (`spControl`, `spDirection`) are their underlying natural numbers,
  so that corrupted (out-of-range) values can be represented.
* the global variables the driver touches are gathered in one record, `World`, and each
  C function is a function `World → World` (plus a status code where the C function
  returns one).  Calls into collaborators outside this file (`setValue` on a bound output,
  `pwm_set_freq`, `pwm_set_duty`, `mp_request_out_of_band_dwell`) are appended to
  `World.log` in the order they are made.
-/

namespace EscSpindle

/-! ## Enumerations and constants -/

/-!
The `spControl` and `spDirection` enumerations are declared in a header that is not among
the sources.  Their values are natural numbers here.  The numbering follows the column
order of the State/Control matrix (OFF, CW, CCW, PAUSE, RESUME), the `[0=OFF,1=CW,2=CCW]`
format string and the `1=CW, 2=CCW` comment on `spindle.direction`; NOP and REVERSE are
extra action codes above `SPINDLE_ACTION_MAX`.
-/

/-- Modelled from the spec: control/state code OFF (M5). -/
def SPINDLE_OFF : Nat := 0
/-- Modelled from the spec: control/state code CW (M3). -/
def SPINDLE_CW : Nat := 1
/-- Modelled from the spec: control/state code CCW (M4). -/
def SPINDLE_CCW : Nat := 2
/-- Modelled from the spec: control/state code PAUSE. -/
def SPINDLE_PAUSE : Nat := 3
/-- Modelled from the spec: control code RESUME. -/
def SPINDLE_RESUME : Nat := 4
/-- Modelled from the spec: action code NOP (no operation). -/
def SPINDLE_NOP : Nat := 5
/-- Modelled from the spec: action code REVERSE. -/
def SPINDLE_REV : Nat := 6
/-- Modelled from the spec: the largest control code, RESUME (4 states, 5 controls). -/
def SPINDLE_ACTION_MAX : Nat := SPINDLE_RESUME

/-- Lower bound of the override factor, `#define SPINDLE_OVERRIDE_MIN 0.05`. -/
def SPINDLE_OVERRIDE_MIN : ℚ := 5 / 100
/-- Upper bound of the override factor, `#define SPINDLE_OVERRIDE_MAX 2.00`. -/
def SPINDLE_OVERRIDE_MAX : ℚ := 2
/-- Override ramp time in seconds, `#define SPINDLE_OVERRIDE_RAMP_TIME 1`. -/
def SPINDLE_OVERRIDE_RAMP_TIME : ℚ := 1

/-- Modelled from the spec: the feedhold state "no hold", declared in a header that is not
among the sources. -/
def FEEDHOLD_OFF : Nat := 0

/-- Modelled from the spec: the status codes this driver returns; their numeric values are
declared in a header that is not among the sources. -/
inductive stat_t where
  | STAT_OK
  | STAT_SPINDLE_SPEED_BELOW_MINIMUM
  | STAT_SPINDLE_SPEED_MAX_EXCEEDED
  | STAT_INPUT_LESS_THAN_MIN_VALUE
  | STAT_INPUT_EXCEEDS_MAX_VALUE
  deriving DecidableEq, Repr

/-! ## Data model -/

/-- A `float` value handed in by a caller, or a field that stores such a value unchanged: a
number or NaN (not a number). -/
inductive float where
  | num (q : ℚ)
  | nan
  deriving DecidableEq

instance : Coe ℚ float := ⟨float.num⟩

instance (n : Nat) [OfNat ℚ n] : OfNat float n := ⟨float.num (OfNat.ofNat n)⟩

/-- The C comparison `a < b` of two `float` values: false when either is NaN. -/
def float.lt : float → float → Prop
  | float.num x, float.num y => x < y
  | _, _ => False

/-- The C comparison `a <= b` of two `float` values: false when either is NaN. -/
def float.le : float → float → Prop
  | float.num x, float.num y => x ≤ y
  | _, _ => False

instance : LT float := ⟨float.lt⟩

instance : LE float := ⟨float.le⟩

instance (a b : float) : Decidable (a < b) :=
  match a, b with
  | float.num x, float.num y => inferInstanceAs (Decidable (x < y))
  | float.num _, float.nan => isFalse (fun h => h)
  | float.nan, float.num _ => isFalse (fun h => h)
  | float.nan, float.nan => isFalse (fun h => h)

instance (a b : float) : Decidable (a ≤ b) :=
  match a, b with
  | float.num x, float.num y => inferInstanceAs (Decidable (x ≤ y))
  | float.num _, float.nan => isFalse (fun h => h)
  | float.nan, float.num _ => isFalse (fun h => h)
  | float.nan, float.nan => isFalse (fun h => h)

/-- The spindle control structure `spSpindle_t`. -/
structure spSpindle_t where
  state : Nat
  direction : Nat
  speed : ℚ
  speed_min : ℚ
  speed_max : ℚ
  speed_actual : ℚ
  speed_change_per_tick : ℚ
  enable_polarity : Nat
  dir_polarity : Nat
  pause_enable : Bool
  spinup_delay : ℚ
  override_enable : Bool
  override_factor : float
  deriving DecidableEq

/-- Modelled from the spec: the fields of the PWM channel record `pwm.c[PWM_1]` that the
driver reads (the record type is declared in a header that is not among the sources). -/
structure pwmChannel where
  frequency : ℚ
  cw_speed_lo : ℚ
  cw_speed_hi : ℚ
  cw_phase_lo : ℚ
  cw_phase_hi : ℚ
  ccw_speed_lo : ℚ
  ccw_speed_hi : ℚ
  ccw_phase_lo : ℚ
  ccw_phase_hi : ℚ
  phase_off : ℚ
  deriving DecidableEq

/-- Modelled from the spec: a digital output as seen through `setEnabled`, `setPolarity`
and `setValue` (the class is declared in a header that is not among the sources). -/
structure gpioDigitalOutput where
  enabled : Bool
  polarity : Nat
  value : Int
  deriving DecidableEq

/-- A call into a collaborator outside the driver. -/
inductive Event where
  | setDirection (bit : Int)
  | setEnable (bit : Int)
  | pwm_set_freq (freq : ℚ)
  | pwm_set_duty (duty : Option ℚ)
  | dwell (seconds : Option ℚ)
  deriving DecidableEq

/-- The global variables read and written by the driver.  `none` for an output stands for
`nullptr`.  `ENABLE_INTERLOCK_AND_ESTOP` tells whether that compile-time switch is defined
and `EPSILON` is the tolerance of the `fp_` comparison macros. -/
structure World where
  spindle : spSpindle_t
  pwm : pwmChannel
  spindle_enable_output : Option gpioDigitalOutput
  spindle_direction_output : Option gpioDigitalOutput
  gm_spindle_speed : float
  gm_spindle_direction : Nat
  m48_enable : Bool
  estop_state : Nat
  safety_state : Nat
  hold_state : Nat
  ENABLE_INTERLOCK_AND_ESTOP : Bool
  EPSILON : ℚ
  log : List Event
  deriving DecidableEq

/-! ## Floating-point helpers -/

/-- Floating-point quotient: with a zero divisor the result is not a finite number. -/
def fdiv (a b : ℚ) : Option ℚ :=
  if b = 0 then none else some (a / b)

/-- Modelled from the spec: `fp_ZERO(a)`, the epsilon comparison `fabs(a) < EPSILON`. -/
def fp_ZERO (eps a : ℚ) : Bool := decide (|a| < eps)

/-- Modelled from the spec: `fp_ZERO(a)` on a caller's argument: `fabs(NaN) < EPSILON` is
false. -/
def fp_ZERO_arg (eps : ℚ) : float → Bool
  | float.num q => fp_ZERO eps q
  | float.nan => false

/-- Modelled from the spec: `fp_NOT_ZERO(a)`, the epsilon comparison `fabs(a) > EPSILON`. -/
def fp_NOT_ZERO (eps a : ℚ) : Bool := decide (|a| > eps)

/-- Modelled from the spec: `fp_EQ(a,b)`, the epsilon comparison `fabs(a-b) < EPSILON`. -/
def fp_EQ (eps a b : ℚ) : Bool := decide (|a - b| < eps)

/-- Modelled from the spec: `fp_NE(a,b)`, the epsilon comparison `fabs(a-b) > EPSILON`. -/
def fp_NE (eps a b : ℚ) : Bool := decide (|a - b| > eps)

/-! ## Output and PWM primitives -/

/-- The call `out->setValue(bit)` guarded by `out != nullptr`. -/
def setValue (out : Option gpioDigitalOutput) (bit : Int) : Option gpioDigitalOutput :=
  out.map fun o => { o with value := bit }

/-- The call `pwm_set_duty(PWM_1, duty)`, recorded in the log. -/
def pwm_set_duty (w : World) (duty : Option ℚ) : World :=
  { w with log := w.log ++ [Event.pwm_set_duty duty] }

/-- The call `mp_request_out_of_band_dwell(seconds)`, recorded in the log. -/
def mp_request_out_of_band_dwell (w : World) (seconds : Option ℚ) : World :=
  { w with log := w.log ++ [Event.dwell seconds] }

/-- The macro `SPINDLE_DIRECTION_ASSERT`: an out-of-range direction becomes CW. -/
def SPINDLE_DIRECTION_ASSERT (w : World) : World :=
  if w.spindle.direction < SPINDLE_CW ∨ w.spindle.direction > SPINDLE_CCW then
    { w with spindle := { w.spindle with direction := SPINDLE_CW } }
  else w

/-! ## The duty mapper -/

/-- The function `_get_spindle_pwm`: the PWM phase for the direction and actual speed.  The
spindle record is passed by reference and its `speed_actual` is clamped to `speed_hi` in
a rotating state, so the updated record is returned with the phase. -/
def _get_spindle_pwm (s : spSpindle_t) (p : pwmChannel) : Option ℚ × spSpindle_t :=
  let speed_lo := if s.direction = SPINDLE_CW then p.cw_speed_lo else p.ccw_speed_lo
  let speed_hi := if s.direction = SPINDLE_CW then p.cw_speed_hi else p.ccw_speed_hi
  let phase_lo := if s.direction = SPINDLE_CW then p.cw_phase_lo else p.ccw_phase_lo
  let phase_hi := if s.direction = SPINDLE_CW then p.cw_phase_hi else p.ccw_phase_hi
  if s.state = SPINDLE_CW ∨ s.state = SPINDLE_CCW then
    let s1 := if s.speed_actual > speed_hi then { s with speed_actual := speed_hi } else s
    let speed := fdiv (max 0 (s1.speed_actual - speed_lo)) (speed_hi - speed_lo)
    (speed.map fun n => n * (phase_hi - phase_lo) + phase_lo, s1)
  else
    (some p.phase_off, s)

/-- The statement `pwm_set_duty(PWM_1, _get_spindle_pwm(spindle, pwm))`. -/
def set_duty_from_spindle (w : World) : World :=
  let r := _get_spindle_pwm w.spindle w.pwm
  pwm_set_duty { w with spindle := r.2 } r.1

/-! ## Speed application -/

/-- The function `_actually_set_spindle_speed`: clamp the target speed to the calibration
range of the current rotation, snap the actual speed when there is no ramp, send the duty
and request the spin-up dwell.  In OFF or PAUSE the actual speed is zeroed and only the
duty is sent. -/
def _actually_set_spindle_speed (w : World) : World :=
  if w.spindle.state = SPINDLE_CW ∨ w.spindle.state = SPINDLE_CCW then
    let speed_lo := if w.spindle.state = SPINDLE_CW then w.pwm.cw_speed_lo else w.pwm.ccw_speed_lo
    let speed_hi := if w.spindle.state = SPINDLE_CW then w.pwm.cw_speed_hi else w.pwm.ccw_speed_hi
    let s1 := if w.spindle.speed < speed_lo then { w.spindle with speed := speed_lo } else w.spindle
    let s2 := if s1.speed > speed_hi then { s1 with speed := speed_hi } else s1
    let s3 := if s2.speed_actual > speed_hi then { s2 with speed_actual := speed_hi } else s2
    let s4 := if fp_ZERO w.EPSILON s3.speed_change_per_tick then
        { s3 with speed_actual := s3.speed } else s3
    let w1 := set_duty_from_spindle { w with spindle := s4 }
    if fp_NE w1.EPSILON w1.spindle.speed_actual w1.spindle.speed then
      if fp_NOT_ZERO w1.EPSILON w1.spindle.speed_change_per_tick then
        mp_request_out_of_band_dwell w1
          ((fdiv (1 / 1000 * |w1.spindle.speed - w1.spindle.speed_actual|)
              w1.spindle.speed_change_per_tick).map fun t => w1.spindle.spinup_delay + t)
      else
        mp_request_out_of_band_dwell w1 (some w1.spindle.spinup_delay)
    else w1
  else
    set_duty_from_spindle { w with spindle := { w.spindle with speed_actual := 0 } }

/-! ## The state/control matrix and the control executor -/

/-- The table `matrix[20]` of `_exec_spindle_control`, rows are states, columns controls. -/
def matrix : List Nat := [
  SPINDLE_OFF, SPINDLE_CW,  SPINDLE_CCW, SPINDLE_NOP,   SPINDLE_NOP,
  SPINDLE_OFF, SPINDLE_NOP, SPINDLE_REV, SPINDLE_PAUSE, SPINDLE_NOP,
  SPINDLE_OFF, SPINDLE_REV, SPINDLE_NOP, SPINDLE_PAUSE, SPINDLE_NOP,
  SPINDLE_OFF, SPINDLE_CW,  SPINDLE_CCW, SPINDLE_NOP,   SPINDLE_RESUME ]

/-- The lookup `matrix[(state*5)+control]`; `none` is a read outside the array. -/
def matrix_lookup (state control : Nat) : Option Nat :=
  matrix[state * 5 + control]?

/-- The tail of `_exec_spindle_control`: write the direction bit unless it is negative,
write the enable bit, then apply the speed.  A `nullptr` output is skipped. -/
def apply_bits (enable_bit dir_bit : Int) (w : World) : World :=
  let w1 :=
    if dir_bit ≥ 0 then
      match w.spindle_direction_output with
      | some _ => { w with
          spindle_direction_output := setValue w.spindle_direction_output dir_bit
          log := w.log ++ [Event.setDirection dir_bit] }
      | none => w
    else w
  let w2 :=
    match w1.spindle_enable_output with
    | some _ => { w1 with
        spindle_enable_output := setValue w1.spindle_enable_output enable_bit
        log := w1.log ++ [Event.setEnable enable_bit] }
    | none => w1
  _actually_set_spindle_speed w2

/-- The function `_exec_spindle_control`.  The argument is the control code carried in
`value[0]`.  The two guards return early; the action is looked up in the matrix, the
direction is normalised, and the action is carried out. -/
def _exec_spindle_control (control : Nat) (w : World) : World :=
  if control > SPINDLE_ACTION_MAX then w
  else if w.spindle.state ≥ SPINDLE_ACTION_MAX then w
  else
    match matrix_lookup w.spindle.state control with
    | none => w
    | some action =>
      let w0 := SPINDLE_DIRECTION_ASSERT w
      if action = SPINDLE_NOP then w0
      else if action = SPINDLE_OFF then
        apply_bits 0 ((w0.spindle.direction : Int) - 1)
          { w0 with spindle := { w0.spindle with state := SPINDLE_OFF } }
      else if action = SPINDLE_CW ∨ action = SPINDLE_CCW ∨ action = SPINDLE_REV then
        apply_bits 1 ((control : Int) - 1)
          { w0 with spindle := { w0.spindle with direction := control, state := control } }
      else if action = SPINDLE_PAUSE then
        apply_bits 0 (-1) { w0 with spindle := { w0.spindle with state := SPINDLE_PAUSE } }
      else if action = SPINDLE_RESUME then
        apply_bits 1 ((w0.spindle.direction : Int) - 1)
          { w0 with spindle := { w0.spindle with state := w0.spindle.direction } }
      else
        apply_bits 0 (-1) w0

/-- The function `spindle_set_direction`. -/
def spindle_set_direction (direction : Nat) (w : World) : stat_t × World :=
  (stat_t.STAT_OK, { w with gm_spindle_direction := direction })

/-! ## Speed commands -/

/-- The function `_exec_spindle_speed`. -/
def _exec_spindle_speed (value : ℚ) (w : World) : World :=
  _actually_set_spindle_speed { w with spindle := { w.spindle with speed := value } }

/-- The function `_casey_jones`: the admission check of a target speed. -/
def _casey_jones (speed : float) (w : World) : stat_t :=
  if speed < w.spindle.speed_min then stat_t.STAT_SPINDLE_SPEED_BELOW_MINIMUM
  else if speed > w.spindle.speed_max then stat_t.STAT_SPINDLE_SPEED_MAX_EXCEEDED
  else stat_t.STAT_OK

/-- The function `spindle_set_speed`: `ritorno` returns the status of `_casey_jones` when it
is not `STAT_OK`; otherwise the speed is stored in the G-code model. -/
def spindle_set_speed (speed : float) (w : World) : stat_t × World :=
  if _casey_jones speed w ≠ stat_t.STAT_OK then (_casey_jones speed w, w)
  else (stat_t.STAT_OK, { w with gm_spindle_speed := speed })

/-- The function `is_spindle_ready_to_resume`. -/
def is_spindle_ready_to_resume (w : World) : Bool :=
  if w.ENABLE_INTERLOCK_AND_ESTOP ∧ (w.estop_state ≠ 0 ∨ w.safety_state ≠ 0) then false
  else true

/-- The function `is_spindle_on_or_paused`. -/
def is_spindle_on_or_paused (w : World) : Bool :=
  if w.spindle.state ≠ SPINDLE_OFF then true else false

/-! ## The ramp tick -/

/-- The function `do_spindle_speed_ramp_from_systick`: returns whether the ramp is done. -/
def do_spindle_speed_ramp_from_systick (w : World) : Bool × World :=
  if w.ENABLE_INTERLOCK_AND_ESTOP then
    if w.estop_state = 0 ∧ w.safety_state = 0 then
      if fp_EQ w.EPSILON w.spindle.speed_actual w.spindle.speed then (true, w)
      else if w.spindle.speed_actual < w.spindle.speed then
        let a := w.spindle.speed_actual + w.spindle.speed_change_per_tick
        if a > w.spindle.speed then
          (true, set_duty_from_spindle
            { w with spindle := { w.spindle with speed_actual := w.spindle.speed } })
        else
          (false, set_duty_from_spindle { w with spindle := { w.spindle with speed_actual := a } })
      else
        let a := w.spindle.speed_actual - w.spindle.speed_change_per_tick
        if a < w.spindle.speed then
          (true, set_duty_from_spindle
            { w with spindle := { w.spindle with speed_actual := w.spindle.speed } })
        else
          (false, set_duty_from_spindle { w with spindle := { w.spindle with speed_actual := a } })
    else
      (decide (w.hold_state ≠ FEEDHOLD_OFF), set_duty_from_spindle
        { w with spindle := { w.spindle with speed_actual := 0, state := SPINDLE_PAUSE } })
  else (true, w)

/-! ## Override control -/

/-- The function `spindle_start_override`, which only returns. -/
def spindle_start_override (_ramp_time : ℚ) (_override_factor : float) (w : World) : World := w

/-- The function `spindle_end_override`, which only returns. -/
def spindle_end_override (_ramp_time : ℚ) (w : World) : World := w

/-- The tail of `spindle_override_control` after the P word has been examined: start or end
the override ramp when the master enable `m48_enable` is on, then store the enable state. -/
def override_commit (new_enable new_override : Bool) (w : World) : stat_t × World :=
  let w2 :=
    if w.m48_enable then
      if new_enable ∧ (new_override ∨ ¬ w.spindle.override_enable) then
        spindle_start_override SPINDLE_OVERRIDE_RAMP_TIME w.spindle.override_factor w
      else if w.spindle.override_enable ∧ ¬ new_enable then
        spindle_end_override SPINDLE_OVERRIDE_RAMP_TIME w
      else w
    else w
  (stat_t.STAT_OK, { w2 with spindle := { w2.spindle with override_enable := new_enable } })

/-- The function `spindle_override_control` (M51).  With a P word present: P0 disables the
override, a P word outside the range returns an error at once, a P word inside the range is
stored.  Without a P word the override is enabled with the stored factor. -/
def spindle_override_control (P_word : float) (P_flag : Bool) (w : World) : stat_t × World :=
  if P_flag then
    if fp_ZERO_arg w.EPSILON P_word then
      override_commit false false w
    else if P_word < SPINDLE_OVERRIDE_MIN then
      (stat_t.STAT_INPUT_LESS_THAN_MIN_VALUE, w)
    else if P_word > SPINDLE_OVERRIDE_MAX then
      (stat_t.STAT_INPUT_EXCEEDS_MAX_VALUE, w)
    else
      override_commit true true { w with spindle := { w.spindle with override_factor := P_word } }
  else
    override_commit true false w

/-! ## The synchronized entry -/

/-- Modelled from the spec: `spindle_control_sync`, the synchronized entry of the command
dispatcher.  Its body is commented out in esc_spindle.cpp and its live definition is not
among the sources.  A PAUSE request is suppressed entirely, as a successful no-op, when
pause-on-hold (`pause_enable`) is false; any other request is enqueued for the motion
executor, which runs it when that point of the stream is reached.  The third component
lists the controls handed to the planner queue by this call. -/
def spindle_control_sync (control : Nat) (w : World) : stat_t × World × List Nat :=
  if control = SPINDLE_PAUSE ∧ w.spindle.pause_enable = false then (stat_t.STAT_OK, w, [])
  else (stat_t.STAT_OK, w, [control])

/-! ## Initialisation -/

/-- Modelled from the spec: the compile-time settings `spindle_init` reads and the digital
output table `d_out`, all declared in files that are not among the sources. -/
structure Settings where
  SPINDLE_ENABLE_OUTPUT_NUMBER : Nat
  SPINDLE_DIRECTION_OUTPUT_NUMBER : Nat
  SPINDLE_ENABLE_POLARITY : Nat
  SPINDLE_DIR_POLARITY : Nat
  SPINDLE_SPEED_CHANGE_PER_MS : ℚ
  d_out : Nat → gpioDigitalOutput

/-- The calls `out->setEnabled(IO_ENABLED)` and `out->setPolarity(polarity)`. -/
def bind_output (out : gpioDigitalOutput) (polarity : Nat) : gpioDigitalOutput :=
  { out with enabled := true, polarity := polarity }

/-- The function `spindle_init`. -/
def spindle_init (cfg : Settings) (w : World) : World :=
  let w0 := SPINDLE_DIRECTION_ASSERT w
  let w1 :=
    if cfg.SPINDLE_ENABLE_OUTPUT_NUMBER > 0 then
      let out := bind_output (cfg.d_out (cfg.SPINDLE_ENABLE_OUTPUT_NUMBER - 1))
        cfg.SPINDLE_ENABLE_POLARITY
      { w0 with spindle_enable_output := some out }
    else w0
  let w2 :=
    if cfg.SPINDLE_DIRECTION_OUTPUT_NUMBER > 0 then
      let out := bind_output (cfg.d_out (cfg.SPINDLE_DIRECTION_OUTPUT_NUMBER - 1))
        cfg.SPINDLE_DIR_POLARITY
      { w1 with spindle_direction_output := some out }
    else w1
  let w3 := if w2.pwm.frequency < 0 then { w2 with pwm := { w2.pwm with frequency := 0 } } else w2
  let w4 := { w3 with log := w3.log ++
    [Event.pwm_set_freq w3.pwm.frequency, Event.pwm_set_duty (some w3.pwm.phase_off)] }
  { w4 with spindle :=
      { w4.spindle with speed_change_per_tick := cfg.SPINDLE_SPEED_CHANGE_PER_MS } }

/-! ## Views used to state the properties -/

/-- The calibration curve `_get_spindle_pwm` selects: the CW curve for direction CW, the CCW
curve for every other direction value. -/
def curve_speed_lo (direction : Nat) (p : pwmChannel) : ℚ :=
  if direction = SPINDLE_CW then p.cw_speed_lo else p.ccw_speed_lo

/-- Upper speed of the curve selected by the direction. -/
def curve_speed_hi (direction : Nat) (p : pwmChannel) : ℚ :=
  if direction = SPINDLE_CW then p.cw_speed_hi else p.ccw_speed_hi

/-- Lower phase of the curve selected by the direction. -/
def curve_phase_lo (direction : Nat) (p : pwmChannel) : ℚ :=
  if direction = SPINDLE_CW then p.cw_phase_lo else p.ccw_phase_lo

/-- Upper phase of the curve selected by the direction. -/
def curve_phase_hi (direction : Nat) (p : pwmChannel) : ℚ :=
  if direction = SPINDLE_CW then p.cw_phase_hi else p.ccw_phase_hi

/-- The target speed after the two clamping statements of `_actually_set_spindle_speed`. -/
def clamp_target (speed_lo speed_hi speed : ℚ) : ℚ :=
  let s1 := if speed < speed_lo then speed_lo else speed
  if s1 > speed_hi then speed_hi else s1

/-- The actual speed after the stepping statements of `do_spindle_speed_ramp_from_systick`
(before the duty mapper sees it): one step of size `r` toward the target, stopped at the
target when the step would pass it. -/
def ramp_step (actual target r : ℚ) : ℚ :=
  if actual < target then
    if actual + r > target then target else actual + r
  else
    if actual - r < target then target else actual - r

/-- Whether the stepping statements of `do_spindle_speed_ramp_from_systick` set `done`: the
step would pass the target. -/
def ramp_overshoot (actual target r : ℚ) : Bool :=
  if actual < target then decide (actual + r > target) else decide (actual - r < target)

/-- The spindle record `_actually_set_spindle_speed` hands to the duty mapper in a rotating
state, after its clamping statements and the zero-step snap (`lo`, `hi` are the speeds of the
curve that belongs to the logical state). -/
def speeds_before_duty (eps lo hi : ℚ) (sp : spSpindle_t) : spSpindle_t :=
  let s1 := if sp.speed < lo then { sp with speed := lo } else sp
  let s2 := if s1.speed > hi then { s1 with speed := hi } else s1
  let s3 := if s2.speed_actual > hi then { s2 with speed_actual := hi } else s2
  if fp_ZERO eps s3.speed_change_per_tick then { s3 with speed_actual := s3.speed } else s3

/-- The dwell `_actually_set_spindle_speed` asks for after the duty was sent: none when the
actual speed is within epsilon of the target, the spin-up delay plus the ramp time for a
non-zero ramp step, the spin-up delay alone otherwise. -/
def request_dwell (w1 : World) : World :=
  if fp_NE w1.EPSILON w1.spindle.speed_actual w1.spindle.speed then
    if fp_NOT_ZERO w1.EPSILON w1.spindle.speed_change_per_tick then
      mp_request_out_of_band_dwell w1
        ((fdiv (1 / 1000 * |w1.spindle.speed - w1.spindle.speed_actual|)
            w1.spindle.speed_change_per_tick).map fun t => w1.spindle.spinup_delay + t)
    else
      mp_request_out_of_band_dwell w1 (some w1.spindle.spinup_delay)
  else w1

/-- The output writes made by the tail of `_exec_spindle_control`: the direction bit (unless
negative) and the enable bit, each on a bound output only, before the speed is applied. -/
def write_bits (enable_bit dir_bit : Int) (w : World) : World :=
  { w with
    spindle_direction_output :=
      if dir_bit ≥ 0 then setValue w.spindle_direction_output dir_bit
      else w.spindle_direction_output
    spindle_enable_output := setValue w.spindle_enable_output enable_bit
    log := w.log
      ++ (if dir_bit ≥ 0 ∧ w.spindle_direction_output.isSome then [Event.setDirection dir_bit]
          else [])
      ++ (if w.spindle_enable_output.isSome then [Event.setEnable enable_bit] else []) }

/-- Whether an event is a dwell request. -/
def Event.isDwell : Event → Bool
  | Event.dwell _ => true
  | _ => false

/-- The state/control pairs whose entry in the State/Control matrix is NOP. -/
def nop_pairs : List (Nat × Nat) :=
  [(SPINDLE_OFF, SPINDLE_PAUSE), (SPINDLE_OFF, SPINDLE_RESUME), (SPINDLE_CW, SPINDLE_CW),
   (SPINDLE_CW, SPINDLE_RESUME), (SPINDLE_CCW, SPINDLE_CCW), (SPINDLE_CCW, SPINDLE_RESUME),
   (SPINDLE_PAUSE, SPINDLE_PAUSE)]

/-- The two commands of the spin-up scenario: the speed command `v`, then the CW control. -/
def run_speed_then_cw (v : ℚ) (w : World) : World :=
  _exec_spindle_control SPINDLE_CW (_exec_spindle_speed v w)

/-- The world with its call log emptied: the persistent actuator state. -/
def World.persistent (w : World) : World := { w with log := [] }

/-! ## Sample data -/

/-- A spindle record: stopped, direction CW, target 3000, ramp step 1000 per tick. -/
def sample_spindle : spSpindle_t :=
  { state := SPINDLE_OFF, direction := SPINDLE_CW, speed := 3000, speed_min := 0,
    speed_max := 10000, speed_actual := 0, speed_change_per_tick := 1000,
    enable_polarity := 1, dir_polarity := 0, pause_enable := true, spinup_delay := 1,
    override_enable := false, override_factor := 1 }

/-- A PWM channel with a CW curve from 1000 to 10000 and a CCW curve from 2000 to 8000. -/
def sample_pwm : pwmChannel :=
  { frequency := 100, cw_speed_lo := 1000, cw_speed_hi := 10000, cw_phase_lo := 1 / 8,
    cw_phase_hi := 1 / 5, ccw_speed_lo := 2000, ccw_speed_hi := 8000, ccw_phase_lo := 1 / 8,
    ccw_phase_hi := 1 / 10, phase_off := 1 / 10 }

/-- A world with both outputs bound, the safety gate safe and epsilon 0.00001. -/
def sample_world : World :=
  { spindle := sample_spindle, pwm := sample_pwm,
    spindle_enable_output := some { enabled := true, polarity := 1, value := 0 },
    spindle_direction_output := some { enabled := true, polarity := 0, value := 0 },
    gm_spindle_speed := 0, gm_spindle_direction := SPINDLE_CW, m48_enable := true,
    estop_state := 0, safety_state := 0, hold_state := 0,
    ENABLE_INTERLOCK_AND_ESTOP := true, EPSILON := 1 / 100000, log := [] }

/-- A paused world whose target speed 500 lies below the CW curve, which starts at 1000. -/
def paused_low_world : World :=
  { sample_world with spindle := { sample_spindle with state := SPINDLE_PAUSE, speed := 500 } }

/-- A world running CW at its target speed 3000. -/
def rotating_world : World :=
  { sample_world with
    spindle := { sample_spindle with state := SPINDLE_CW, speed_actual := 3000 } }

/-- A paused world whose target speed 3000 lies inside the CW curve. -/
def paused_world : World :=
  { sample_world with spindle := { sample_spindle with state := SPINDLE_PAUSE } }

/-- A spindle record running CW with an actual speed 500 below the CW curve. -/
def slow_spindle : spSpindle_t :=
  { sample_spindle with state := SPINDLE_CW, speed_actual := 500 }

/-- The world after `n` calls of `do_spindle_speed_ramp_from_systick`. -/
def ticks : Nat → World → World
  | 0, w => w
  | n + 1, w => (do_spindle_speed_ramp_from_systick (ticks n w)).2

/-- A spindle record running CCW, for the CCW curve of `sample_pwm`, whose phase falls from
1/8 at speed 2000 to 1/10 at speed 8000. -/
def ccw_spindle : spSpindle_t :=
  { sample_spindle with state := SPINDLE_CCW, direction := SPINDLE_CCW }

/-- A PWM channel whose CW curve is degenerate: `cw_speed_lo = cw_speed_hi = 1000`. -/
def flat_pwm : pwmChannel :=
  { sample_pwm with cw_speed_lo := 1000, cw_speed_hi := 1000 }

/-- A spindle record running CW with target 20000 and actual speed 12000, both above the
upper speed 10000 of the CW curve. -/
def hot_spindle : spSpindle_t :=
  { sample_spindle with state := SPINDLE_CW, speed := 20000, speed_actual := 12000 }

/-- The sample world with the record `hot_spindle`. -/
def hot_world : World := { sample_world with spindle := hot_spindle }

/-- A world running CW from actual speed 0 toward the target 1 + 2^-20 with ramp step 1, on
a CW curve from 0 to 10000.  One step lands at 1, within epsilon 0.00001 of the target. -/
def near_world : World :=
  { sample_world with
    pwm := { sample_pwm with cw_speed_lo := 0 }
    spindle := { sample_spindle with
      state := SPINDLE_CW, speed := 1 + 1 / 1048576, speed_change_per_tick := 1 } }

/-- A world running CW at actual speed 2000 toward the target 3000 with ramp step 1000: the
next step lands exactly on the target. -/
def landing_world : World :=
  { sample_world with
    spindle := { sample_spindle with state := SPINDLE_CW, speed_actual := 2000 } }

/-- A stopped world with ramp step 0, actual speed 0 and target 3000. -/
def stepless_world : World :=
  { sample_world with spindle := { sample_spindle with speed_change_per_tick := 0 } }

/-- A world just switched to CW: actual speed 0, target 3000, ramp step 1000, spin-up
delay 1 second. -/
def spinup_world : World :=
  { sample_world with spindle := { sample_spindle with state := SPINDLE_CW } }

/-- A world with the safety gate unsafe (`estop_state` 1) while running CW at 3000. -/
def estop_world : World := { rotating_world with estop_state := 1 }

/-- A stopped world (state OFF, actual speed 0) with the safety gate tripped. -/
def idle_estop_world : World := { sample_world with estop_state := 1 }

/-- A world whose logical state 7 and stored direction 0 are both out of range. -/
def corrupt_world : World :=
  { sample_world with spindle := { sample_spindle with state := 7, direction := 0 } }

/-- A world running CW at 3000 with pause-on-hold switched off. -/
def no_pause_world : World :=
  { rotating_world with spindle := { rotating_world.spindle with pause_enable := false } }

/-! ## Views and sample data for the frame and invariant properties -/

/-- The world with its logical state and stored direction set to fixed values: two worlds
differ only in logical state and stored direction exactly when this view of them agrees. -/
def forget_rotation (w : World) : World :=
  { w with spindle := { w.spindle with state := SPINDLE_OFF, direction := SPINDLE_CW } }

/-- The predicate "if the logical state is CW or CCW then the stored direction equals the
logical state". -/
def rotation_coherent (w : World) : Prop :=
  (w.spindle.state = SPINDLE_CW ∨ w.spindle.state = SPINDLE_CCW) →
    w.spindle.direction = w.spindle.state

instance (w : World) : Decidable (rotation_coherent w) :=
  inferInstanceAs (Decidable ((w.spindle.state = SPINDLE_CW ∨ w.spindle.state = SPINDLE_CCW) →
    w.spindle.direction = w.spindle.state))

/-- One call into the driver by the motion executor or the timer: a control executed, a
speed executed, or a tick. -/
inductive Call where
  | control (c : Nat)
  | speed (v : ℚ)
  | tick

/-- The world after one call. -/
def Call.run : Call → World → World
  | Call.control c, w => _exec_spindle_control c w
  | Call.speed v, w => _exec_spindle_speed v w
  | Call.tick, w => (do_spindle_speed_ramp_from_systick w).2

/-- The world after a sequence of calls, the first call of the list made first. -/
def run_calls : List Call → World → World
  | [], w => w
  | c :: cs, w => run_calls cs (c.run w)

/-- A world stopped (state OFF) with stored direction CCW that agrees with `rotating_world`
in every other field, the actual speed 3000 included. -/
def stopped_twin_world : World :=
  { rotating_world with
    spindle := { rotating_world.spindle with state := SPINDLE_OFF, direction := SPINDLE_CCW } }

/-- A world running CW at its target 3000 with ramp step 0. -/
def rotating_stepless_world : World :=
  { sample_world with
    spindle := { sample_spindle with
      state := SPINDLE_CW, speed_actual := 3000, speed_change_per_tick := 0 } }

/-! ## Rounding of `float` arithmetic -/

/-- Rounding of a rational to the nearest integer, a tie going to the even integer. -/
def round_half_even (x : ℚ) : ℤ :=
  if x - ⌊x⌋ < 1 / 2 then ⌊x⌋
  else if 1 / 2 < x - ⌊x⌋ then ⌊x⌋ + 1
  else if ⌊x⌋ % 2 = 0 then ⌊x⌋ else ⌊x⌋ + 1

/-- Rounding of a positive rational to a significand of 24 bits (round to nearest, ties to
even): with `2^k <= x < 2^(k+1)` the result is a multiple of `2^(k-23)`. -/
def binary32_pos (x : ℚ) : ℚ :=
  (round_half_even (x / 2 ^ (Int.log 2 x - 23)) : ℚ) * 2 ^ (Int.log 2 x - 23)

/-- The rounding of IEEE 754 single precision (`float`), round to nearest with ties to even.
The exponent range is taken as unbounded: overflow and subnormal numbers are not
represented. -/
def binary32 (x : ℚ) : ℚ :=
  if x = 0 then 0 else if 0 < x then binary32_pos x else - binary32_pos (-x)

/-- Modelled from the spec: `fp_EQ(a,b)`, the comparison `fabs(a-b) < EPSILON`, with the
`float` subtraction rounded by `fl`. -/
def fp_EQ_rounded (fl : ℚ → ℚ) (eps a b : ℚ) : Bool := decide (|fl (a - b)| < eps)

/-- The function `_get_spindle_pwm` with the result of every `float` operation (the two
subtractions of speeds, the quotient, the subtraction of phases, the product and the sum)
rounded by `fl`. -/
def _get_spindle_pwm_rounded (fl : ℚ → ℚ) (s : spSpindle_t) (p : pwmChannel) :
    Option ℚ × spSpindle_t :=
  let speed_lo := if s.direction = SPINDLE_CW then p.cw_speed_lo else p.ccw_speed_lo
  let speed_hi := if s.direction = SPINDLE_CW then p.cw_speed_hi else p.ccw_speed_hi
  let phase_lo := if s.direction = SPINDLE_CW then p.cw_phase_lo else p.ccw_phase_lo
  let phase_hi := if s.direction = SPINDLE_CW then p.cw_phase_hi else p.ccw_phase_hi
  if s.state = SPINDLE_CW ∨ s.state = SPINDLE_CCW then
    let s1 := if s.speed_actual > speed_hi then { s with speed_actual := speed_hi } else s
    let speed :=
      (fdiv (max 0 (fl (s1.speed_actual - speed_lo))) (fl (speed_hi - speed_lo))).map fl
    (speed.map fun n => fl (fl (n * fl (phase_hi - phase_lo)) + phase_lo), s1)
  else
    (some p.phase_off, s)

/-- The statement `pwm_set_duty(PWM_1, _get_spindle_pwm(spindle, pwm))` with rounded
arithmetic. -/
def set_duty_from_spindle_rounded (fl : ℚ → ℚ) (w : World) : World :=
  let r := _get_spindle_pwm_rounded fl w.spindle w.pwm
  pwm_set_duty { w with spindle := r.2 } r.1

/-- The function `do_spindle_speed_ramp_from_systick` with the result of every `float`
operation (the addition or subtraction of the ramp step, the subtraction inside `fp_EQ`, the
arithmetic of the duty mapper) rounded by `fl`. -/
def do_spindle_speed_ramp_from_systick_rounded (fl : ℚ → ℚ) (w : World) : Bool × World :=
  if w.ENABLE_INTERLOCK_AND_ESTOP then
    if w.estop_state = 0 ∧ w.safety_state = 0 then
      if fp_EQ_rounded fl w.EPSILON w.spindle.speed_actual w.spindle.speed then (true, w)
      else if w.spindle.speed_actual < w.spindle.speed then
        let a := fl (w.spindle.speed_actual + w.spindle.speed_change_per_tick)
        if a > w.spindle.speed then
          (true, set_duty_from_spindle_rounded fl
            { w with spindle := { w.spindle with speed_actual := w.spindle.speed } })
        else
          (false, set_duty_from_spindle_rounded fl
            { w with spindle := { w.spindle with speed_actual := a } })
      else
        let a := fl (w.spindle.speed_actual - w.spindle.speed_change_per_tick)
        if a < w.spindle.speed then
          (true, set_duty_from_spindle_rounded fl
            { w with spindle := { w.spindle with speed_actual := w.spindle.speed } })
        else
          (false, set_duty_from_spindle_rounded fl
            { w with spindle := { w.spindle with speed_actual := a } })
    else
      (decide (w.hold_state ≠ FEEDHOLD_OFF), set_duty_from_spindle_rounded fl
        { w with spindle := { w.spindle with speed_actual := 0, state := SPINDLE_PAUSE } })
  else (true, w)

/-- The world after `n` calls of `do_spindle_speed_ramp_from_systick` with rounded
arithmetic. -/
def ticks_rounded (fl : ℚ → ℚ) : Nat → World → World
  | 0, w => w
  | n + 1, w => (do_spindle_speed_ramp_from_systick_rounded fl (ticks_rounded fl n w)).2

/-- The actual speed after the stepping statements of the tick with rounded arithmetic (before
the duty mapper sees it): the rounded step toward the target, stopped at the target when it
passes it. -/
def ramp_step_rounded (fl : ℚ → ℚ) (actual target r : ℚ) : ℚ :=
  if actual < target then
    if fl (actual + r) > target then target else fl (actual + r)
  else
    if fl (actual - r) < target then target else fl (actual - r)

/-- A PWM channel whose CW phases are the `float` values nearest to 0.09 and 0.7, on the CW
curve from 1000 to 10000. -/
def float_pwm : pwmChannel :=
  { sample_pwm with cw_phase_lo := 3019899 / 33554432, cw_phase_hi := 11744051 / 16777216 }

/-- A spindle record running CW at 10000, the upper speed of the CW curve. -/
def fast_spindle : spSpindle_t :=
  { sample_spindle with state := SPINDLE_CW, speed := 10000, speed_actual := 10000 }

/-- A world running CW at actual speed 2048 toward the target 3000 with the ramp step
0.100000001490116, the `float` value nearest to 0.1. -/
def fine_step_world : World :=
  { sample_world with
    spindle := { sample_spindle with
      state := SPINDLE_CW, speed_actual := 2048,
      speed_change_per_tick := 13421773 / 134217728 } }

/-- The sample world with the speed override switched on. -/
def override_on_world : World :=
  { sample_world with spindle := { sample_spindle with override_enable := true } }

/-! ## Properties of the state/control matrix -/

/-- C1: for each of the four logical states and each of the five controls, the action that
`_exec_spindle_control` looks up as `matrix[state*5+control]` is the entry of the specified
table, row by row: OFF, CW, CCW, PAUSED. -/
theorem C1_matrix_is_the_specified_table :
    [SPINDLE_OFF, SPINDLE_CW, SPINDLE_CCW, SPINDLE_PAUSE, SPINDLE_RESUME].map
        (matrix_lookup SPINDLE_OFF)
      = [some SPINDLE_OFF, some SPINDLE_CW, some SPINDLE_CCW, some SPINDLE_NOP, some SPINDLE_NOP]
    ∧ [SPINDLE_OFF, SPINDLE_CW, SPINDLE_CCW, SPINDLE_PAUSE, SPINDLE_RESUME].map
        (matrix_lookup SPINDLE_CW)
      = [some SPINDLE_OFF, some SPINDLE_NOP, some SPINDLE_REV, some SPINDLE_PAUSE, some SPINDLE_NOP]
    ∧ [SPINDLE_OFF, SPINDLE_CW, SPINDLE_CCW, SPINDLE_PAUSE, SPINDLE_RESUME].map
        (matrix_lookup SPINDLE_CCW)
      = [some SPINDLE_OFF, some SPINDLE_REV, some SPINDLE_NOP, some SPINDLE_PAUSE, some SPINDLE_NOP]
    ∧ [SPINDLE_OFF, SPINDLE_CW, SPINDLE_CCW, SPINDLE_PAUSE, SPINDLE_RESUME].map
        (matrix_lookup SPINDLE_PAUSE)
      = [some SPINDLE_OFF, some SPINDLE_CW, some SPINDLE_CCW, some SPINDLE_NOP,
          some SPINDLE_RESUME] := by
  refine ⟨rfl, rfl, rfl, rfl⟩

/-- C2: for every state and control that pass the two guards of `_exec_spindle_control`
(not `control > SPINDLE_ACTION_MAX`, not `state >= SPINDLE_ACTION_MAX`), the index
`state*5+control` is below 20, the length of the table, and the lookup returns a defined
action. -/
theorem C2_lookup_in_bounds (state control : Nat)
    (hc : ¬ control > SPINDLE_ACTION_MAX) (hs : ¬ state ≥ SPINDLE_ACTION_MAX) :
    state * 5 + control < 20 ∧ matrix.length = 20 ∧
      ∃ action, matrix_lookup state control = some action ∧
        action ∈ [SPINDLE_OFF, SPINDLE_CW, SPINDLE_CCW, SPINDLE_PAUSE, SPINDLE_RESUME,
          SPINDLE_NOP, SPINDLE_REV] := by
  simp only [SPINDLE_ACTION_MAX, SPINDLE_RESUME, gt_iff_lt, ge_iff_le, not_lt, not_le] at hc hs
  refine ⟨by omega, rfl, ?_⟩
  interval_cases state <;> interval_cases control <;> exact ⟨_, rfl, by decide⟩

/-- Witness of C2 at state PAUSE and control RESUME, the last cell of the table. -/
theorem C2_lookup_in_bounds_witness :
    SPINDLE_PAUSE * 5 + SPINDLE_RESUME < 20 ∧ matrix.length = 20 ∧
      ∃ action, matrix_lookup SPINDLE_PAUSE SPINDLE_RESUME = some action ∧
        action ∈ [SPINDLE_OFF, SPINDLE_CW, SPINDLE_CCW, SPINDLE_PAUSE, SPINDLE_RESUME,
          SPINDLE_NOP, SPINDLE_REV] :=
  C2_lookup_in_bounds SPINDLE_PAUSE SPINDLE_RESUME (by decide) (by decide)

/-! ## Properties of the control executor -/

/-- Every state below `SPINDLE_ACTION_MAX` is one of OFF, CW, CCW, PAUSE. -/
theorem state_cases (n : Nat) (h : n < SPINDLE_ACTION_MAX) :
    n = SPINDLE_OFF ∨ n = SPINDLE_CW ∨ n = SPINDLE_CCW ∨ n = SPINDLE_PAUSE := by
  simp only [SPINDLE_ACTION_MAX, SPINDLE_RESUME, SPINDLE_OFF, SPINDLE_CW, SPINDLE_CCW,
    SPINDLE_PAUSE] at *
  omega

/-- After the direction assertion the stored direction is CW or CCW. -/
theorem direction_assert_valid (w : World) :
    (SPINDLE_DIRECTION_ASSERT w).spindle.direction = SPINDLE_CW ∨
      (SPINDLE_DIRECTION_ASSERT w).spindle.direction = SPINDLE_CCW := by
  unfold SPINDLE_DIRECTION_ASSERT
  split
  · left; rfl
  · rename_i h
    simp only [SPINDLE_CW, SPINDLE_CCW] at *
    omega

/-- The direction assertion touches nothing but the stored direction. -/
theorem direction_assert_frame (w : World) :
    SPINDLE_DIRECTION_ASSERT w =
      { w with spindle := { w.spindle with
          direction := (SPINDLE_DIRECTION_ASSERT w).spindle.direction } } := by
  unfold SPINDLE_DIRECTION_ASSERT
  split <;> rfl

/-- The OFF control in a valid state: the direction is normalised, the state becomes OFF
and the bits 0 (enable) and direction-1 are applied. -/
theorem exec_off_eq (w : World) (hs : w.spindle.state < SPINDLE_ACTION_MAX) :
    _exec_spindle_control SPINDLE_OFF w =
      apply_bits 0 (((SPINDLE_DIRECTION_ASSERT w).spindle.direction : Int) - 1)
        { SPINDLE_DIRECTION_ASSERT w with
          spindle := { (SPINDLE_DIRECTION_ASSERT w).spindle with state := SPINDLE_OFF } } := by
  rcases state_cases _ hs with h | h | h | h <;>
    simp [_exec_spindle_control, h, matrix_lookup, matrix, SPINDLE_ACTION_MAX, SPINDLE_RESUME,
      SPINDLE_OFF, SPINDLE_CW, SPINDLE_CCW, SPINDLE_PAUSE, SPINDLE_NOP, SPINDLE_REV]

/-- The duty mapper outside a rotating state: the off phase, the record untouched. -/
theorem get_pwm_stopped (s : spSpindle_t) (p : pwmChannel)
    (h1 : s.state ≠ SPINDLE_CW) (h2 : s.state ≠ SPINDLE_CCW) :
    _get_spindle_pwm s p = (some p.phase_off, s) := by
  simp [_get_spindle_pwm, h1, h2]

/-- Applying the enable and direction bits while the logical state is not rotating: the
outputs take the bits, the actual speed is zeroed and the off phase is sent. -/
theorem apply_bits_stopped (e d : Int) (w : World)
    (h1 : w.spindle.state ≠ SPINDLE_CW) (h2 : w.spindle.state ≠ SPINDLE_CCW) :
    apply_bits e d w =
      { w with
        spindle := { w.spindle with speed_actual := 0 }
        spindle_direction_output :=
          if d ≥ 0 then setValue w.spindle_direction_output d else w.spindle_direction_output
        spindle_enable_output := setValue w.spindle_enable_output e
        log := w.log
          ++ (if d ≥ 0 ∧ w.spindle_direction_output.isSome then [Event.setDirection d] else [])
          ++ (if w.spindle_enable_output.isSome then [Event.setEnable e] else [])
          ++ [Event.pwm_set_duty (some w.pwm.phase_off)] } := by
  obtain ⟨sp, pw, eo, dout, a, b, c, f, g, i, j, k, l⟩ := w
  simp only at h1 h2
  by_cases hd : d ≥ 0 <;> cases eo <;> cases dout <;>
    simp [apply_bits, _actually_set_spindle_speed, set_duty_from_spindle, pwm_set_duty,
      _get_spindle_pwm, setValue, h1, h2, hd]

/-- The OFF control in a valid state, in closed form. -/
theorem exec_off_closed (w : World) (hs : w.spindle.state < SPINDLE_ACTION_MAX) :
    _exec_spindle_control SPINDLE_OFF w =
      { w with
        spindle := { w.spindle with
          direction := (SPINDLE_DIRECTION_ASSERT w).spindle.direction
          state := SPINDLE_OFF
          speed_actual := 0 }
        spindle_direction_output := setValue w.spindle_direction_output
          (((SPINDLE_DIRECTION_ASSERT w).spindle.direction : Int) - 1)
        spindle_enable_output := setValue w.spindle_enable_output 0
        log := w.log
          ++ (if w.spindle_direction_output.isSome then
                [Event.setDirection (((SPINDLE_DIRECTION_ASSERT w).spindle.direction : Int) - 1)]
              else [])
          ++ (if w.spindle_enable_output.isSome then [Event.setEnable 0] else [])
          ++ [Event.pwm_set_duty (some w.pwm.phase_off)] } := by
  rw [exec_off_eq w hs, apply_bits_stopped _ _ _ (by simp [SPINDLE_OFF, SPINDLE_CW])
    (by simp [SPINDLE_OFF, SPINDLE_CCW])]
  have hd : (0 : Int) ≤ ((SPINDLE_DIRECTION_ASSERT w).spindle.direction : Int) - 1 := by
    rcases direction_assert_valid w with h | h <;> simp [h, SPINDLE_CW, SPINDLE_CCW]
  conv_lhs => rw [direction_assert_frame w]
  simp [hd]

/-- A stored direction that is already CW or CCW passes the direction assertion unchanged. -/
theorem direction_assert_of_valid (w : World)
    (h : w.spindle.direction = SPINDLE_CW ∨ w.spindle.direction = SPINDLE_CCW) :
    SPINDLE_DIRECTION_ASSERT w = w := by
  unfold SPINDLE_DIRECTION_ASSERT
  rw [if_neg]
  simp only [SPINDLE_CW, SPINDLE_CCW] at *
  omega

/-- C3: from each of the four logical states the OFF control ends in logical state OFF with
the enable output (when one is bound) driven to 0, recorded as a `setValue(0)` call; a
second OFF yields the same actuator state as the first. -/
theorem C3_off_idempotent (w : World) (hs : w.spindle.state < SPINDLE_ACTION_MAX) :
    (_exec_spindle_control SPINDLE_OFF w).spindle.state = SPINDLE_OFF ∧
    (_exec_spindle_control SPINDLE_OFF w).spindle_enable_output
      = setValue w.spindle_enable_output 0 ∧
    (∀ o ∈ (_exec_spindle_control SPINDLE_OFF w).spindle_enable_output, o.value = 0) ∧
    (w.spindle_enable_output.isSome → ∃ pre post,
      (_exec_spindle_control SPINDLE_OFF w).log = w.log ++ pre ++ Event.setEnable 0 :: post) ∧
    (_exec_spindle_control SPINDLE_OFF (_exec_spindle_control SPINDLE_OFF w)).persistent
      = (_exec_spindle_control SPINDLE_OFF w).persistent := by
  have h1 := exec_off_closed w hs
  have hv := direction_assert_valid w
  generalize (SPINDLE_DIRECTION_ASSERT w).spindle.direction = d at h1 hv
  have hs2 : (_exec_spindle_control SPINDLE_OFF w).spindle.state < SPINDLE_ACTION_MAX := by
    rw [h1]; show SPINDLE_OFF < SPINDLE_ACTION_MAX; decide
  have h2 := exec_off_closed _ hs2
  have hd2 : (_exec_spindle_control SPINDLE_OFF w).spindle.direction = d := by rw [h1]
  rw [direction_assert_of_valid _ (by rw [hd2]; exact hv), hd2] at h2
  refine ⟨by rw [h1], by rw [h1], ?_, ?_, ?_⟩
  · rw [h1]
    intro o ho
    cases hv : w.spindle_enable_output with
    | none => simp [setValue, hv] at ho
    | some v =>
      simp only [setValue, hv, Option.map_some', Option.mem_def, Option.some.injEq] at ho
      rw [← ho]
  · intro hsome
    rw [h1]
    refine ⟨if w.spindle_direction_output.isSome then [Event.setDirection ((d : Int) - 1)]
      else [], [Event.pwm_set_duty (some w.pwm.phase_off)], ?_⟩
    simp only [hsome, if_true, List.append_assoc, List.singleton_append]
  · rw [h2, h1]
    cases w.spindle_enable_output <;> cases w.spindle_direction_output <;>
      simp [World.persistent, setValue]

/-- A bound output holds the value last written. -/
theorem setValue_value (o : Option gpioDigitalOutput) (b : Int) :
    ∀ x ∈ setValue o b, x.value = b := by
  intro x hx
  cases o with
  | none => simp [setValue] at hx
  | some v =>
    simp only [setValue, Option.map_some', Option.mem_def, Option.some.injEq] at hx
    rw [← hx]

/-- Sending the duty changes at most the actual speed and the log. -/
theorem set_duty_frame (w : World) :
    ∃ sa lg, set_duty_from_spindle w =
      { w with spindle := { w.spindle with speed_actual := sa }, log := lg } := by
  unfold set_duty_from_spindle pwm_set_duty _get_spindle_pwm
  simp only
  split_ifs <;> exact ⟨_, _, rfl⟩

/-- Applying the speed changes at most the target speed, the actual speed and the log. -/
theorem actually_set_frame (w : World) :
    ∃ sp sa lg, _actually_set_spindle_speed w =
      { w with spindle := { w.spindle with speed := sp, speed_actual := sa }, log := lg } := by
  unfold _actually_set_spindle_speed
  split
  · simp only
    generalize hs4 : (if fp_ZERO w.EPSILON _ = true then _ else _ : spSpindle_t) = s4
    have hs4f : ∃ sp sa, s4 = { w.spindle with speed := sp, speed_actual := sa } := by
      rw [← hs4]
      split_ifs <;> exact ⟨_, _, rfl⟩
    obtain ⟨sp, sa, rfl⟩ := hs4f
    obtain ⟨sa1, lg1, h1⟩ := set_duty_frame
      { w with spindle := { w.spindle with speed := sp, speed_actual := sa } }
    rw [h1]
    unfold mp_request_out_of_band_dwell
    split_ifs <;> exact ⟨_, _, _, rfl⟩
  · obtain ⟨sa1, lg1, h1⟩ := set_duty_frame
      { w with spindle := { w.spindle with speed_actual := 0 } }
    rw [h1]
    exact ⟨_, _, _, rfl⟩

/-- Applying the bits: the outputs take the bits (the direction output only for a
non-negative bit); of the spindle record at most the two speeds change. -/
theorem apply_bits_frame (e d : Int) (w : World) :
    ∃ sp sa lg, apply_bits e d w =
      { w with
        spindle := { w.spindle with speed := sp, speed_actual := sa }
        spindle_direction_output :=
          if d ≥ 0 then setValue w.spindle_direction_output d else w.spindle_direction_output
        spindle_enable_output := setValue w.spindle_enable_output e
        log := lg } := by
  unfold apply_bits
  simp only
  generalize hw2 : (match (if d ≥ 0 then _ else w : World).spindle_enable_output with
    | some _ => _ | none => _ : World) = w2
  have hw2f : ∃ lg, w2 = { w with
      spindle_direction_output :=
        if d ≥ 0 then setValue w.spindle_direction_output d else w.spindle_direction_output
      spindle_enable_output := setValue w.spindle_enable_output e
      log := lg } := by
    rw [← hw2]
    obtain ⟨sp, pw, eo, dout, a, b, c, f, g, i, j, k, l⟩ := w
    by_cases hd : d ≥ 0 <;> cases eo <;> cases dout <;> simp [hd, setValue]
  obtain ⟨lg, rfl⟩ := hw2f
  obtain ⟨sp, sa, lg1, h1⟩ := actually_set_frame { w with
      spindle_direction_output :=
        if d ≥ 0 then setValue w.spindle_direction_output d else w.spindle_direction_output
      spindle_enable_output := setValue w.spindle_enable_output e
      log := lg }
  rw [h1]
  exact ⟨_, _, _, rfl⟩

/-- A rotation control in a valid state other than that rotation (table entries CW, CCW and
REVERSE): direction and state become the control, enable 1 and direction bit control-1. -/
theorem exec_rotation_eq (w : World) (R : Nat) (hs : w.spindle.state < SPINDLE_ACTION_MAX)
    (hR : R = SPINDLE_CW ∨ R = SPINDLE_CCW) (hne : w.spindle.state ≠ R) :
    _exec_spindle_control R w =
      apply_bits 1 ((R : Int) - 1)
        { SPINDLE_DIRECTION_ASSERT w with
          spindle := { (SPINDLE_DIRECTION_ASSERT w).spindle with direction := R, state := R } } := by
  rcases hR with rfl | rfl <;> rcases state_cases _ hs with h | h | h | h <;>
    first
    | exact absurd h hne
    | simp [_exec_spindle_control, h, matrix_lookup, matrix, SPINDLE_ACTION_MAX, SPINDLE_RESUME,
        SPINDLE_OFF, SPINDLE_CW, SPINDLE_CCW, SPINDLE_PAUSE, SPINDLE_NOP, SPINDLE_REV]

/-- A rotation control in that same rotation (table entry NOP): only the direction
assertion has run. -/
theorem exec_same_rotation_eq (w : World) (R : Nat)
    (hR : R = SPINDLE_CW ∨ R = SPINDLE_CCW) (he : w.spindle.state = R) :
    _exec_spindle_control R w = SPINDLE_DIRECTION_ASSERT w := by
  rcases hR with rfl | rfl <;>
    simp [_exec_spindle_control, he, matrix_lookup, matrix, SPINDLE_ACTION_MAX, SPINDLE_RESUME,
      SPINDLE_OFF, SPINDLE_CW, SPINDLE_CCW, SPINDLE_PAUSE, SPINDLE_NOP, SPINDLE_REV]

/-- The PAUSE control in a rotating state: the state becomes PAUSE, enable 0, and the
direction bit -1 skips the direction output. -/
theorem exec_pause_eq (w : World)
    (h : w.spindle.state = SPINDLE_CW ∨ w.spindle.state = SPINDLE_CCW) :
    _exec_spindle_control SPINDLE_PAUSE w =
      apply_bits 0 (-1)
        { SPINDLE_DIRECTION_ASSERT w with
          spindle := { (SPINDLE_DIRECTION_ASSERT w).spindle with state := SPINDLE_PAUSE } } := by
  rcases h with h | h <;>
    simp [_exec_spindle_control, h, matrix_lookup, matrix, SPINDLE_ACTION_MAX, SPINDLE_RESUME,
      SPINDLE_OFF, SPINDLE_CW, SPINDLE_CCW, SPINDLE_PAUSE, SPINDLE_NOP, SPINDLE_REV]

/-- The RESUME control in state PAUSE: the state becomes the stored (normalised) direction,
enable 1 and direction bit direction-1. -/
theorem exec_resume_eq (w : World) (h : w.spindle.state = SPINDLE_PAUSE) :
    _exec_spindle_control SPINDLE_RESUME w =
      apply_bits 1 (((SPINDLE_DIRECTION_ASSERT w).spindle.direction : Int) - 1)
        { SPINDLE_DIRECTION_ASSERT w with
          spindle := { (SPINDLE_DIRECTION_ASSERT w).spindle with
            state := (SPINDLE_DIRECTION_ASSERT w).spindle.direction } } := by
  simp [_exec_spindle_control, h, matrix_lookup, matrix, SPINDLE_ACTION_MAX, SPINDLE_RESUME,
    SPINDLE_OFF, SPINDLE_CW, SPINDLE_CCW, SPINDLE_PAUSE, SPINDLE_NOP, SPINDLE_REV]

/-- What applying the bits leaves of the state, the direction and the two outputs. -/
theorem apply_bits_view (e d : Int) (w : World) :
    (apply_bits e d w).spindle.state = w.spindle.state ∧
    (apply_bits e d w).spindle.direction = w.spindle.direction ∧
    (apply_bits e d w).spindle_enable_output = setValue w.spindle_enable_output e ∧
    (apply_bits e d w).spindle_direction_output =
      (if d ≥ 0 then setValue w.spindle_direction_output d else w.spindle_direction_output) := by
  obtain ⟨sp, sa, lg, h⟩ := apply_bits_frame e d w
  rw [h]
  exact ⟨rfl, rfl, rfl, rfl⟩

/-- The direction assertion leaves the logical state and the outputs alone. -/
theorem direction_assert_view (w : World) :
    (SPINDLE_DIRECTION_ASSERT w).spindle.state = w.spindle.state ∧
    (SPINDLE_DIRECTION_ASSERT w).spindle_enable_output = w.spindle_enable_output ∧
    (SPINDLE_DIRECTION_ASSERT w).spindle_direction_output = w.spindle_direction_output := by
  rw [direction_assert_frame w]
  exact ⟨rfl, rfl, rfl⟩

/-- In a rotating state, applying the speed leaves the target speed clamped to the range of
the curve that belongs to the logical state. -/
theorem actually_set_target (w : World)
    (h : w.spindle.state = SPINDLE_CW ∨ w.spindle.state = SPINDLE_CCW) :
    (_actually_set_spindle_speed w).spindle.speed =
      clamp_target (curve_speed_lo w.spindle.state w.pwm) (curve_speed_hi w.spindle.state w.pwm)
        w.spindle.speed := by
  unfold _actually_set_spindle_speed
  rw [if_pos h]
  simp only
  generalize hs4 : (if fp_ZERO w.EPSILON _ = true then _ else _ : spSpindle_t) = s4
  have hs4f : s4.speed = clamp_target (curve_speed_lo w.spindle.state w.pwm)
      (curve_speed_hi w.spindle.state w.pwm) w.spindle.speed := by
    rw [← hs4]
    unfold clamp_target curve_speed_lo curve_speed_hi
    simp only
    split_ifs <;> rfl
  obtain ⟨sa1, lg1, h1⟩ := set_duty_frame { w with spindle := s4 }
  rw [h1]
  unfold mp_request_out_of_band_dwell
  split_ifs <;> exact hs4f

/-- Applying the bits in a rotating state clamps the target speed like
`_actually_set_spindle_speed`, which it ends with. -/
theorem apply_bits_target (e d : Int) (w : World)
    (h : w.spindle.state = SPINDLE_CW ∨ w.spindle.state = SPINDLE_CCW) :
    (apply_bits e d w).spindle.speed =
      clamp_target (curve_speed_lo w.spindle.state w.pwm) (curve_speed_hi w.spindle.state w.pwm)
        w.spindle.speed := by
  unfold apply_bits
  simp only
  generalize hw2 : (match (if d ≥ 0 then _ else w : World).spindle_enable_output with
    | some _ => _ | none => _ : World) = w2
  have hw2f : w2.spindle = w.spindle ∧ w2.pwm = w.pwm := by
    rw [← hw2]
    obtain ⟨sp, pw, eo, dout, a, b, c, f, g, i, j, k, l⟩ := w
    by_cases hd : d ≥ 0 <;> cases eo <;> cases dout <;> simp [hd]
  rw [actually_set_target w2 (by rw [hw2f.1]; exact h), hw2f.1, hw2f.2]

/-- Inside the calibration range the two clamping statements change nothing. -/
theorem clamp_target_inside (lo hi x : ℚ) (h1 : lo ≤ x) (h2 : x ≤ hi) :
    clamp_target lo hi x = x := by
  unfold clamp_target
  simp only
  rw [if_neg (not_lt.mpr h1), if_neg (not_lt.mpr h2)]

/-- C5 (amended): in logical state PAUSED the RESUME control leaves the target speed equal to
its value before the RESUME clamped into the calibration range of the resumed direction
(raised to speed_lo when below it, then lowered to speed_hi when above it); the target speed
is exactly unchanged when it already lies in that range. -/
theorem C5_resume_clamps_target (w : World) (h : w.spindle.state = SPINDLE_PAUSE) :
    (_exec_spindle_control SPINDLE_RESUME w).spindle.speed =
      clamp_target (curve_speed_lo (SPINDLE_DIRECTION_ASSERT w).spindle.direction w.pwm)
        (curve_speed_hi (SPINDLE_DIRECTION_ASSERT w).spindle.direction w.pwm) w.spindle.speed ∧
    (curve_speed_lo (SPINDLE_DIRECTION_ASSERT w).spindle.direction w.pwm ≤ w.spindle.speed →
      w.spindle.speed ≤ curve_speed_hi (SPINDLE_DIRECTION_ASSERT w).spindle.direction w.pwm →
      (_exec_spindle_control SPINDLE_RESUME w).spindle.speed = w.spindle.speed) := by
  have key : (_exec_spindle_control SPINDLE_RESUME w).spindle.speed =
      clamp_target (curve_speed_lo (SPINDLE_DIRECTION_ASSERT w).spindle.direction w.pwm)
        (curve_speed_hi (SPINDLE_DIRECTION_ASSERT w).spindle.direction w.pwm)
        w.spindle.speed := by
    rw [exec_resume_eq w h, apply_bits_target _ _ _ (direction_assert_valid w)]
    conv_lhs => rw [direction_assert_frame w]
  exact ⟨key, fun h1 h2 => by rw [key, clamp_target_inside _ _ _ h1 h2]⟩

/-! ## Properties of the admission checks -/

/-- The comparison `<` of two numbers as `float` values is the comparison of the numbers. -/
theorem float.num_lt_num (x y : ℚ) : float.num x < float.num y ↔ x < y := Iff.rfl

/-- The comparison `<=` of two numbers as `float` values is the comparison of the numbers. -/
theorem float.num_le_num (x y : ℚ) : float.num x ≤ float.num y ↔ x ≤ y := Iff.rfl

/-- NaN is below nothing. -/
theorem float.not_nan_lt (a : float) : ¬ float.nan < a := by
  cases a <;> exact fun h => h

/-- Nothing is below NaN. -/
theorem float.not_lt_nan (a : float) : ¬ a < float.nan := by
  cases a <;> exact fun h => h

/-- NaN is at most nothing. -/
theorem float.not_nan_le (a : float) : ¬ float.nan ≤ a := by
  cases a <;> exact fun h => h

/-- Nothing is at most NaN. -/
theorem float.not_le_nan (a : float) : ¬ a ≤ float.nan := by
  cases a <;> exact fun h => h

/-- The admission check of a speed that is a number. -/
theorem casey_jones_num (speed : ℚ) (w : World) :
    _casey_jones speed w =
      if speed < w.spindle.speed_min then stat_t.STAT_SPINDLE_SPEED_BELOW_MINIMUM
      else if speed > w.spindle.speed_max then stat_t.STAT_SPINDLE_SPEED_MAX_EXCEEDED
      else stat_t.STAT_OK := by
  unfold _casey_jones
  simp only [gt_iff_lt, float.num_lt_num]

/-- The admission check of NaN: both comparisons fail and the speed is accepted. -/
theorem casey_jones_nan (w : World) : _casey_jones float.nan w = stat_t.STAT_OK := by
  unfold _casey_jones
  rw [if_neg (float.not_nan_lt _), if_neg (float.not_lt_nan _)]

/-- C6 (amended): for every speed that is a number, `spindle_set_speed` returns the
below-minimum error when the speed is below `speed_min`, the maximum-exceeded error when it
is at least `speed_min` and above `speed_max`, and `STAT_OK` exactly when
`speed_min <= speed <= speed_max`; on an error the whole world, the target speed included, is
unchanged.  A speed that is NaN fails both comparisons: it is accepted with `STAT_OK` and
recorded in the G-code model. -/
theorem C6_set_speed_admission (speed : ℚ) (w : World) :
    (speed < w.spindle.speed_min →
      (spindle_set_speed speed w).1 = stat_t.STAT_SPINDLE_SPEED_BELOW_MINIMUM) ∧
    (w.spindle.speed_min ≤ speed → speed > w.spindle.speed_max →
      (spindle_set_speed speed w).1 = stat_t.STAT_SPINDLE_SPEED_MAX_EXCEEDED) ∧
    ((spindle_set_speed speed w).1 = stat_t.STAT_OK ↔
      w.spindle.speed_min ≤ speed ∧ speed ≤ w.spindle.speed_max) ∧
    ((spindle_set_speed speed w).1 ≠ stat_t.STAT_OK → (spindle_set_speed speed w).2 = w) ∧
    spindle_set_speed float.nan w
      = (stat_t.STAT_OK, { w with gm_spindle_speed := float.nan }) := by
  have hnan : spindle_set_speed float.nan w
      = (stat_t.STAT_OK, { w with gm_spindle_speed := float.nan }) := by
    unfold spindle_set_speed
    rw [casey_jones_nan, if_neg (by simp)]
  refine ⟨?_, ?_, ?_, ?_, hnan⟩ <;> unfold spindle_set_speed <;> rw [casey_jones_num]
  · intro h1
    simp [h1]
  · intro h1 h2
    simp [not_lt.mpr h1, h2]
  · by_cases h1 : speed < w.spindle.speed_min
    · simp [h1, not_le.mpr h1]
    · by_cases h2 : speed > w.spindle.speed_max
      · simp [h1, h2, not_le.mpr h2]
      · simp [h1, h2, not_lt.mp h1, not_lt.mp h2]
  · by_cases h1 : speed < w.spindle.speed_min
    · simp [h1]
    · by_cases h2 : speed > w.spindle.speed_max
      · simp [h1, h2]
      · simp [h1, h2]

/-- The P word test of a number is the zero test of the number. -/
theorem fp_ZERO_arg_num (eps q : ℚ) : fp_ZERO_arg eps (float.num q) = fp_ZERO eps q := rfl

/-- C7 (amended): for a P word that is present and not zero by the driver's own zero test
`fp_ZERO` (its magnitude is at least epsilon), `spindle_override_control` returns
`STAT_INPUT_LESS_THAN_MIN_VALUE` when P < 0.05 and `STAT_INPUT_EXCEEDS_MAX_VALUE` when
P > 2.00, and in both cases the whole world, the override factor and the override enable
included, is unchanged. -/
theorem C7_override_rejects_out_of_range (P_word : ℚ) (w : World)
    (hz : fp_ZERO w.EPSILON P_word = false) :
    (P_word < 5 / 100 → spindle_override_control P_word true w
      = (stat_t.STAT_INPUT_LESS_THAN_MIN_VALUE, w)) ∧
    (P_word > 2 → spindle_override_control P_word true w
      = (stat_t.STAT_INPUT_EXCEEDS_MAX_VALUE, w)) := by
  constructor
  · intro h
    simp [spindle_override_control, fp_ZERO_arg_num, hz, SPINDLE_OVERRIDE_MIN,
      float.num_lt_num, h]
  · intro h
    have h' : ¬ P_word < 5 / 100 := by
      have : (5 : ℚ) / 100 < 2 := by norm_num
      exact not_lt.mpr (le_of_lt (lt_trans this h))
    simp [spindle_override_control, fp_ZERO_arg_num, hz, SPINDLE_OVERRIDE_MIN,
      SPINDLE_OVERRIDE_MAX, float.num_lt_num, h, h']

/-- The tail of the override control leaves the override factor alone. -/
theorem override_commit_factor (e o : Bool) (w : World) :
    (override_commit e o w).2.spindle.override_factor = w.spindle.override_factor := by
  unfold override_commit spindle_start_override spindle_end_override
  simp only
  split_ifs <;> rfl

/-- C8 (amended): the bound `SPINDLE_OVERRIDE_MIN <= override_factor <= SPINDLE_OVERRIDE_MAX`
is preserved by `spindle_override_control` for every P word that is a number and every P
flag, whether the call succeeds or returns an error. -/
theorem C8_override_factor_bounded (P_word : ℚ) (P_flag : Bool) (w : World)
    (h : SPINDLE_OVERRIDE_MIN ≤ w.spindle.override_factor ∧
      w.spindle.override_factor ≤ SPINDLE_OVERRIDE_MAX) :
    SPINDLE_OVERRIDE_MIN ≤ (spindle_override_control P_word P_flag w).2.spindle.override_factor ∧
      (spindle_override_control P_word P_flag w).2.spindle.override_factor
        ≤ SPINDLE_OVERRIDE_MAX := by
  unfold spindle_override_control
  split_ifs with hf hz h1 h2
  · rw [override_commit_factor]; exact h
  · exact h
  · exact h
  · rw [override_commit_factor]
    rw [float.num_lt_num] at h1
    rw [gt_iff_lt, float.num_lt_num] at h2
    exact ⟨(float.num_le_num _ _).mpr (not_lt.mp h1), (float.num_le_num _ _).mpr (not_lt.mp h2)⟩
  · rw [override_commit_factor]; exact h

/-! ## Properties of the duty mapper -/

/-- C9: for every direction, actual speed and calibration, when the logical state is not CW
or CCW the duty mapper returns the configured off phase. -/
theorem C9_off_phase_when_not_rotating (s : spSpindle_t) (p : pwmChannel)
    (h1 : s.state ≠ SPINDLE_CW) (h2 : s.state ≠ SPINDLE_CCW) :
    (_get_spindle_pwm s p).1 = some p.phase_off := by
  rw [get_pwm_stopped s p h1 h2]

/-- The phase returned in a rotating state, as a function of the selected curve. -/
theorem get_pwm_rotating (s : spSpindle_t) (p : pwmChannel)
    (h : s.state = SPINDLE_CW ∨ s.state = SPINDLE_CCW) :
    (_get_spindle_pwm s p).1 =
      (fdiv (max 0 ((if s.speed_actual > curve_speed_hi s.direction p
            then curve_speed_hi s.direction p else s.speed_actual) - curve_speed_lo s.direction p))
          (curve_speed_hi s.direction p - curve_speed_lo s.direction p)).map
        fun n => n * (curve_phase_hi s.direction p - curve_phase_lo s.direction p)
          + curve_phase_lo s.direction p := by
  unfold _get_spindle_pwm curve_speed_lo curve_speed_hi curve_phase_lo curve_phase_hi
  simp only [if_pos h]
  split_ifs <;> rfl

/-- Witness of C3 on a world running CW: the OFF control stops it and a second OFF changes
nothing more. -/
theorem C3_off_idempotent_witness :
    rotating_world.spindle.state < SPINDLE_ACTION_MAX ∧
    (_exec_spindle_control SPINDLE_OFF rotating_world).spindle.state = SPINDLE_OFF ∧
    (∀ o ∈ (_exec_spindle_control SPINDLE_OFF rotating_world).spindle_enable_output,
      o.value = 0) ∧
    (_exec_spindle_control SPINDLE_OFF
        (_exec_spindle_control SPINDLE_OFF rotating_world)).persistent
      = (_exec_spindle_control SPINDLE_OFF rotating_world).persistent :=
  ⟨by decide, (C3_off_idempotent rotating_world (by decide)).1,
    (C3_off_idempotent rotating_world (by decide)).2.2.1,
    (C3_off_idempotent rotating_world (by decide)).2.2.2.2⟩

/-- Counterexample to C5 as stated: paused with target speed 500 and a CW curve that starts
at 1000, the RESUME control raises the target speed to 1000. -/
theorem C5_counterexample :
    paused_low_world.spindle.state = SPINDLE_PAUSE ∧
    paused_low_world.spindle.speed = 500 ∧
    (_exec_spindle_control SPINDLE_RESUME paused_low_world).spindle.speed = 1000 ∧
    (_exec_spindle_control SPINDLE_RESUME paused_low_world).spindle.speed
      ≠ paused_low_world.spindle.speed := by
  norm_num [_exec_spindle_control, paused_low_world, sample_world, sample_spindle, sample_pwm,
    matrix_lookup, matrix, SPINDLE_DIRECTION_ASSERT, apply_bits, _actually_set_spindle_speed,
    set_duty_from_spindle, pwm_set_duty, _get_spindle_pwm, setValue, fp_ZERO, fp_NE,
    fp_NOT_ZERO, fdiv, mp_request_out_of_band_dwell, SPINDLE_ACTION_MAX, SPINDLE_RESUME,
    SPINDLE_OFF, SPINDLE_CW, SPINDLE_CCW, SPINDLE_PAUSE, SPINDLE_NOP, SPINDLE_REV]

/-- Witness of C5 (amended) on a paused world whose target speed 3000 lies inside the CW
curve from 1000 to 10000: the RESUME control leaves it at 3000. -/
theorem C5_resume_clamps_target_witness :
    paused_world.spindle.state = SPINDLE_PAUSE ∧
    (_exec_spindle_control SPINDLE_RESUME paused_world).spindle.speed
      = paused_world.spindle.speed :=
  ⟨rfl, (C5_resume_clamps_target paused_world rfl).2
    (by norm_num [curve_speed_lo, SPINDLE_DIRECTION_ASSERT, paused_world, sample_world,
      sample_spindle, sample_pwm, SPINDLE_CW, SPINDLE_CCW])
    (by norm_num [curve_speed_hi, SPINDLE_DIRECTION_ASSERT, paused_world, sample_world,
      sample_spindle, sample_pwm, SPINDLE_CW, SPINDLE_CCW])⟩

/-- Witness of C7: the P word 0.01 is not zero for epsilon 0.00001 and is rejected as too
small, the world unchanged. -/
theorem C7_override_rejects_out_of_range_witness :
    fp_ZERO sample_world.EPSILON (1 / 100) = false ∧
    spindle_override_control ((1 / 100 : ℚ) : float) true sample_world
      = (stat_t.STAT_INPUT_LESS_THAN_MIN_VALUE, sample_world) :=
  ⟨by norm_num [fp_ZERO, sample_world, abs_of_pos],
    (C7_override_rejects_out_of_range (1 / 100) sample_world
      (by norm_num [fp_ZERO, sample_world, abs_of_pos])).1 (by norm_num)⟩

/-- The override factor 1 of the sample world lies within the bound. -/
theorem sample_factor_bounded :
    SPINDLE_OVERRIDE_MIN ≤ sample_world.spindle.override_factor ∧
      sample_world.spindle.override_factor ≤ SPINDLE_OVERRIDE_MAX := by
  constructor
  · show float.num SPINDLE_OVERRIDE_MIN ≤ float.num 1
    rw [float.num_le_num]
    norm_num [SPINDLE_OVERRIDE_MIN]
  · show float.num 1 ≤ float.num SPINDLE_OVERRIDE_MAX
    rw [float.num_le_num]
    norm_num [SPINDLE_OVERRIDE_MAX]

/-- Witness of C8 (amended): from the override factor 1 an accepted P word 1.5 keeps the
bound. -/
theorem C8_override_factor_bounded_witness :
    (SPINDLE_OVERRIDE_MIN ≤ sample_world.spindle.override_factor ∧
      sample_world.spindle.override_factor ≤ SPINDLE_OVERRIDE_MAX) ∧
    SPINDLE_OVERRIDE_MIN
      ≤ (spindle_override_control ((3 / 2 : ℚ) : float) true
          sample_world).2.spindle.override_factor ∧
    (spindle_override_control ((3 / 2 : ℚ) : float) true
        sample_world).2.spindle.override_factor
      ≤ SPINDLE_OVERRIDE_MAX :=
  ⟨sample_factor_bounded,
    C8_override_factor_bounded (3 / 2) true sample_world sample_factor_bounded⟩

/-- Witness of C9: the stopped sample spindle maps to the off phase. -/
theorem C9_off_phase_when_not_rotating_witness :
    sample_spindle.state ≠ SPINDLE_CW ∧ sample_spindle.state ≠ SPINDLE_CCW ∧
    (_get_spindle_pwm sample_spindle sample_pwm).1 = some sample_pwm.phase_off :=
  ⟨by decide, by decide,
    C9_off_phase_when_not_rotating sample_spindle sample_pwm (by decide) (by decide)⟩

/-- The record the duty mapper hands back: only the actual speed can differ, lowered to the
upper speed of the selected curve when the state is rotating and the speed exceeds it. -/
theorem get_pwm_record (s : spSpindle_t) (p : pwmChannel) :
    (_get_spindle_pwm s p).2 =
      { s with speed_actual :=
          if (s.state = SPINDLE_CW ∨ s.state = SPINDLE_CCW) ∧
              s.speed_actual > curve_speed_hi s.direction p
          then curve_speed_hi s.direction p else s.speed_actual } := by
  unfold _get_spindle_pwm curve_speed_hi
  simp only
  split_ifs <;> first | rfl | (exfalso; tauto)

/-- An actual speed of at most the upper speed of the selected curve passes the duty mapper
unchanged, with the rest of the record. -/
theorem get_pwm_record_same (s : spSpindle_t) (p : pwmChannel)
    (h : s.speed_actual ≤ curve_speed_hi s.direction p) : (_get_spindle_pwm s p).2 = s := by
  rw [get_pwm_record, if_neg (fun hc => absurd hc.2 (not_lt.mpr h))]

/-- On a curve with distinct end speeds the phase in a rotating state is a finite number,
the interpolation at the actual speed clamped from above. -/
theorem get_pwm_nondegenerate (s : spSpindle_t) (p : pwmChannel)
    (h : s.state = SPINDLE_CW ∨ s.state = SPINDLE_CCW)
    (hne : curve_speed_lo s.direction p ≠ curve_speed_hi s.direction p) :
    (_get_spindle_pwm s p).1 =
      some (max 0 (min s.speed_actual (curve_speed_hi s.direction p)
            - curve_speed_lo s.direction p)
          / (curve_speed_hi s.direction p - curve_speed_lo s.direction p)
          * (curve_phase_hi s.direction p - curve_phase_lo s.direction p)
        + curve_phase_lo s.direction p) := by
  rw [get_pwm_rotating s p h]
  have hd : curve_speed_hi s.direction p - curve_speed_lo s.direction p ≠ 0 :=
    sub_ne_zero.mpr (Ne.symm hne)
  have hmin : (if s.speed_actual > curve_speed_hi s.direction p
      then curve_speed_hi s.direction p else s.speed_actual)
      = min s.speed_actual (curve_speed_hi s.direction p) := by
    rw [min_def]
    split_ifs <;> first | rfl | (exfalso; linarith)
  simp [fdiv, hd, hmin]

/-- C11 (amended): for a fixed direction, a rotating state and a calibration curve with
`speed_lo < speed_hi` and `phase_lo ≤ phase_hi`, the duty is monotonically non-decreasing in
the actual speed: for all `a ≤ b`, in particular for all `a ≤ b` in `[speed_lo, speed_hi]`,
the duty at `a` is at most the duty at `b`. -/
theorem C11_duty_monotone (s : spSpindle_t) (p : pwmChannel) (a b : ℚ)
    (h : s.state = SPINDLE_CW ∨ s.state = SPINDLE_CCW)
    (hlt : curve_speed_lo s.direction p < curve_speed_hi s.direction p)
    (hph : curve_phase_lo s.direction p ≤ curve_phase_hi s.direction p)
    (hab : a ≤ b) :
    ∃ da db, (_get_spindle_pwm { s with speed_actual := a } p).1 = some da ∧
      (_get_spindle_pwm { s with speed_actual := b } p).1 = some db ∧ da ≤ db := by
  refine ⟨_, _, get_pwm_nondegenerate { s with speed_actual := a } p h (ne_of_lt hlt),
    get_pwm_nondegenerate { s with speed_actual := b } p h (ne_of_lt hlt), ?_⟩
  simp only
  generalize curve_speed_lo s.direction p = lo at *
  generalize curve_speed_hi s.direction p = hi at *
  generalize curve_phase_lo s.direction p = plo at *
  generalize curve_phase_hi s.direction p = phi at *
  have hd : 0 < hi - lo := sub_pos.mpr hlt
  have hnum : max 0 (min a hi - lo) ≤ max 0 (min b hi - lo) :=
    max_le_max (le_refl 0) (sub_le_sub_right (min_le_min hab (le_refl hi)) lo)
  have hq : max 0 (min a hi - lo) / (hi - lo) ≤ max 0 (min b hi - lo) / (hi - lo) :=
    div_le_div_of_nonneg_right hnum (le_of_lt hd)
  have hmul := mul_le_mul_of_nonneg_right hq (sub_nonneg.mpr hph)
  linarith

/-- C13 (amended): for a rotating state and a degenerate calibration curve with
`speed_hi = speed_lo` the duty mapper has no guard: the quotient is taken with a zero
divisor and, for every actual speed, the result is not a finite phase. -/
theorem C13_degenerate_curve_divides_by_zero (s : spSpindle_t) (p : pwmChannel)
    (h : s.state = SPINDLE_CW ∨ s.state = SPINDLE_CCW)
    (heq : curve_speed_hi s.direction p = curve_speed_lo s.direction p) :
    curve_speed_hi s.direction p - curve_speed_lo s.direction p = 0 ∧
    (_get_spindle_pwm s p).1 = none := by
  refine ⟨sub_eq_zero.mpr heq, ?_⟩
  rw [get_pwm_rotating s p h, heq]
  simp [fdiv]

/-- C14 (amended): the duty mapper leaves every field of the spindle record unchanged except
the actual speed, which it lowers to `speed_hi` of the selected curve when the state is
rotating and the actual speed exceeds `speed_hi`; outside a rotating state, and for an
actual speed of at most `speed_hi`, the whole record is unchanged. -/
theorem C14_duty_mapper_clamps_actual_speed (s : spSpindle_t) (p : pwmChannel) :
    (_get_spindle_pwm s p).2 =
      { s with speed_actual :=
          if (s.state = SPINDLE_CW ∨ s.state = SPINDLE_CCW) ∧
              s.speed_actual > curve_speed_hi s.direction p
          then curve_speed_hi s.direction p else s.speed_actual } ∧
    (¬ (s.state = SPINDLE_CW ∨ s.state = SPINDLE_CCW) → (_get_spindle_pwm s p).2 = s) ∧
    (s.speed_actual ≤ curve_speed_hi s.direction p → (_get_spindle_pwm s p).2 = s) := by
  refine ⟨get_pwm_record s p, ?_, ?_⟩
  · intro hn
    rw [get_pwm_record, if_neg (fun hc => hn hc.1)]
  · intro hle
    rw [get_pwm_record, if_neg (fun hc => absurd hc.2 (not_lt.mpr hle))]

/-! ## Properties of the ramp tick -/

/-- Sending the duty: the record is the one the duty mapper hands back and the phase is
appended to the log. -/
theorem set_duty_eq (w : World) :
    set_duty_from_spindle w =
      { w with
        spindle := (_get_spindle_pwm w.spindle w.pwm).2
        log := w.log ++ [Event.pwm_set_duty (_get_spindle_pwm w.spindle w.pwm).1] } := rfl

/-- A tick with the gate compiled in and safe, when the actual speed is already within
epsilon of the target: done, nothing changes. -/
theorem tick_safe_equal (w : World) (hf : w.ENABLE_INTERLOCK_AND_ESTOP = true)
    (he : w.estop_state = 0) (hs : w.safety_state = 0)
    (heq : fp_EQ w.EPSILON w.spindle.speed_actual w.spindle.speed = true) :
    do_spindle_speed_ramp_from_systick w = (true, w) := by
  simp [do_spindle_speed_ramp_from_systick, hf, he, hs, heq]

/-- A tick with the gate compiled in and safe, when the actual speed is not within epsilon
of the target: one step toward the target, then the duty is sent. -/
theorem tick_safe_step (w : World) (hf : w.ENABLE_INTERLOCK_AND_ESTOP = true)
    (he : w.estop_state = 0) (hs : w.safety_state = 0)
    (hne : fp_EQ w.EPSILON w.spindle.speed_actual w.spindle.speed = false) :
    do_spindle_speed_ramp_from_systick w =
      (ramp_overshoot w.spindle.speed_actual w.spindle.speed w.spindle.speed_change_per_tick,
        set_duty_from_spindle { w with spindle := { w.spindle with
          speed_actual := ramp_step w.spindle.speed_actual w.spindle.speed
            w.spindle.speed_change_per_tick } }) := by
  unfold do_spindle_speed_ramp_from_systick ramp_step ramp_overshoot
  simp only [hf, he, hs, hne, if_true, and_self]
  split_ifs <;> simp_all

/-- One step of positive size moves by at most the step, toward the target and not past
it. -/
theorem ramp_step_bounds (a t r : ℚ) (hr : 0 < r) :
    |ramp_step a t r - a| ≤ r ∧ min a t ≤ ramp_step a t r ∧ ramp_step a t r ≤ max a t := by
  unfold ramp_step
  split_ifs with h1 h2 h3
  · refine ⟨?_, ?_, ?_⟩
    · rw [abs_of_nonneg (by linarith)]; linarith
    · exact le_trans (min_le_right _ _) (le_refl t)
    · exact le_max_right _ _
  · refine ⟨?_, ?_, ?_⟩
    · rw [abs_of_nonneg (by linarith)]; linarith
    · exact le_trans (min_le_left _ _) (by linarith)
    · exact le_trans (not_lt.mp h2) (le_max_right _ _)
  · refine ⟨?_, ?_, ?_⟩
    · rw [abs_of_nonpos (by linarith)]; linarith
    · exact min_le_right _ _
    · exact le_trans (not_lt.mp h1) (le_max_left _ _)
  · refine ⟨?_, ?_, ?_⟩
    · rw [abs_of_nonpos (by linarith)]; linarith
    · exact le_trans (min_le_right _ _) (not_lt.mp h3)
    · exact le_trans (by linarith) (le_max_left _ _)

/-- The actual speed after a stepping tick: the step, lowered by the duty mapper to the
upper speed of the selected curve when the state is rotating and the step exceeds it. -/
theorem tick_safe_step_actual (w : World) (hf : w.ENABLE_INTERLOCK_AND_ESTOP = true)
    (he : w.estop_state = 0) (hs : w.safety_state = 0)
    (hne : fp_EQ w.EPSILON w.spindle.speed_actual w.spindle.speed = false) :
    (do_spindle_speed_ramp_from_systick w).2.spindle.speed_actual =
      if (w.spindle.state = SPINDLE_CW ∨ w.spindle.state = SPINDLE_CCW) ∧
          ramp_step w.spindle.speed_actual w.spindle.speed w.spindle.speed_change_per_tick
            > curve_speed_hi w.spindle.direction w.pwm
      then curve_speed_hi w.spindle.direction w.pwm
      else ramp_step w.spindle.speed_actual w.spindle.speed w.spindle.speed_change_per_tick := by
  rw [tick_safe_step w hf he hs hne, set_duty_eq]
  simp only
  rw [get_pwm_record]

/-- One upward step from below the target is the smaller of the stepped speed and the
target. -/
theorem ramp_step_up (a t r : ℚ) (h : a < t) : ramp_step a t r = min (a + r) t := by
  unfold ramp_step
  rw [if_pos h, min_def]
  split_ifs <;> first | rfl | (exfalso; linarith)

/-- One tick below the target with the gate safe, from a world that differs from `w` in the
actual speed `x` and the log only: when `x` is at least epsilon below the target and the
step stays within the curve, the actual speed becomes the smaller of `x + r` and the
target. -/
theorem tick_up_frame (w : World) (x : ℚ) (lg : List Event)
    (hf : w.ENABLE_INTERLOCK_AND_ESTOP = true)
    (he : w.estop_state = 0) (hs : w.safety_state = 0)
    (hx : x < w.spindle.speed) (hfar : w.EPSILON ≤ w.spindle.speed - x)
    (hstep : min (x + w.spindle.speed_change_per_tick) w.spindle.speed
      ≤ curve_speed_hi w.spindle.direction w.pwm) :
    ∃ lg1, (do_spindle_speed_ramp_from_systick
        { w with spindle := { w.spindle with speed_actual := x }, log := lg }).2 =
      { w with
        spindle := { w.spindle with
          speed_actual := min (x + w.spindle.speed_change_per_tick) w.spindle.speed }
        log := lg1 } := by
  have hne : fp_EQ w.EPSILON x w.spindle.speed = false := by
    unfold fp_EQ
    rw [decide_eq_false_iff_not, not_lt, abs_of_neg (by linarith)]
    linarith
  have hrec := get_pwm_record_same
    { w.spindle with
      speed_actual := min (x + w.spindle.speed_change_per_tick) w.spindle.speed } w.pwm hstep
  refine ⟨lg ++ [Event.pwm_set_duty (_get_spindle_pwm { w.spindle with
      speed_actual := min (x + w.spindle.speed_change_per_tick) w.spindle.speed } w.pwm).1], ?_⟩
  rw [tick_safe_step { w with spindle := { w.spindle with speed_actual := x }, log := lg }
    hf he hs hne, set_duty_eq]
  simp only
  rw [ramp_step_up _ _ _ hx, hrec]

/-- The ramp from actual speed 0 in closed form: while no step lands within epsilon of the
target, after `k` ticks (up to the number of ticks the ramp needs) the actual speed is the
smaller of `k` steps and the target, and nothing but the actual speed and the log has
changed. -/
theorem ramp_closed_form (w : World) (hf : w.ENABLE_INTERLOCK_AND_ESTOP = true)
    (he : w.estop_state = 0) (hs : w.safety_state = 0)
    (hr : 0 < w.spindle.speed_change_per_tick) (hT : 0 < w.spindle.speed)
    (hThi : w.spindle.speed ≤ curve_speed_hi w.spindle.direction w.pwm)
    (h0 : w.spindle.speed_actual = 0)
    (heps : w.EPSILON ≤ w.spindle.speed
      - ((⌈w.spindle.speed / w.spindle.speed_change_per_tick⌉₊ : ℚ) - 1)
        * w.spindle.speed_change_per_tick)
    (k : Nat) (hk : k ≤ ⌈w.spindle.speed / w.spindle.speed_change_per_tick⌉₊) :
    ∃ lg, ticks k w =
      { w with
        spindle := { w.spindle with
          speed_actual := min ((k : ℚ) * w.spindle.speed_change_per_tick) w.spindle.speed }
        log := lg } := by
  induction k with
  | zero =>
    refine ⟨w.log, ?_⟩
    have hmin : min (((0 : ℕ) : ℚ) * w.spindle.speed_change_per_tick) w.spindle.speed
        = w.spindle.speed_actual := by
      rw [h0, Nat.cast_zero, zero_mul, min_eq_left (le_of_lt hT)]
    rw [hmin]
    rfl
  | succ k ih =>
    obtain ⟨lg, hk1⟩ := ih (Nat.le_of_succ_le hk)
    have hklt : (k : ℚ) < w.spindle.speed / w.spindle.speed_change_per_tick :=
      Nat.lt_ceil.mp (Nat.lt_of_succ_le hk)
    have hkr : (k : ℚ) * w.spindle.speed_change_per_tick < w.spindle.speed :=
      (lt_div_iff₀ hr).mp hklt
    have hkN : (k : ℚ) ≤ (⌈w.spindle.speed / w.spindle.speed_change_per_tick⌉₊ : ℚ) - 1 := by
      have : ((k + 1 : ℕ) : ℚ) ≤ (⌈w.spindle.speed / w.spindle.speed_change_per_tick⌉₊ : ℚ) :=
        Nat.cast_le.mpr hk
      push_cast at this
      linarith
    have hfar : w.EPSILON ≤ w.spindle.speed - (k : ℚ) * w.spindle.speed_change_per_tick := by
      have := mul_le_mul_of_nonneg_right hkN (le_of_lt hr)
      linarith
    have hcast : (k : ℚ) * w.spindle.speed_change_per_tick + w.spindle.speed_change_per_tick
        = ((k + 1 : ℕ) : ℚ) * w.spindle.speed_change_per_tick := by
      push_cast; ring
    obtain ⟨lg1, h1⟩ := tick_up_frame w ((k : ℚ) * w.spindle.speed_change_per_tick) lg hf he hs
      hkr hfar (le_trans (min_le_right _ _) hThi)
    refine ⟨lg1, ?_⟩
    show (do_spindle_speed_ramp_from_systick (ticks k w)).2 = _
    rw [hk1, min_eq_left (le_of_lt hkr), h1, hcast]

/-- The two clamping statements never leave the target above the upper speed. -/
theorem clamp_target_le (lo hi x : ℚ) : clamp_target lo hi x ≤ hi := by
  unfold clamp_target
  simp only
  split_ifs <;> linarith

/-- In a rotating state `_actually_set_spindle_speed` is: clamp and snap the speeds, send
the duty, request the dwell. -/
theorem actually_set_rotating (w : World)
    (h : w.spindle.state = SPINDLE_CW ∨ w.spindle.state = SPINDLE_CCW) :
    _actually_set_spindle_speed w =
      request_dwell (set_duty_from_spindle { w with
        spindle := speeds_before_duty w.EPSILON (curve_speed_lo w.spindle.state w.pwm)
          (curve_speed_hi w.spindle.state w.pwm) w.spindle }) := by
  unfold _actually_set_spindle_speed
  rw [if_pos h]
  rfl

/-- The clamped and snapped speeds in closed form. -/
theorem speeds_before_duty_eq (eps lo hi : ℚ) (sp : spSpindle_t) :
    speeds_before_duty eps lo hi sp =
      { sp with
        speed := clamp_target lo hi sp.speed
        speed_actual :=
          if fp_ZERO eps sp.speed_change_per_tick = true then clamp_target lo hi sp.speed
          else if sp.speed_actual > hi then hi else sp.speed_actual } := by
  unfold speeds_before_duty clamp_target
  by_cases c1 : sp.speed < lo <;> by_cases c2 : sp.speed > hi <;> by_cases c2' : lo > hi <;>
    by_cases c3 : sp.speed_actual > hi <;>
    cases c4 : fp_ZERO eps sp.speed_change_per_tick <;>
    simp [c1, c2, c2', c3, c4]

/-- Requesting the dwell leaves the spindle record alone. -/
theorem request_dwell_spindle (w1 : World) : (request_dwell w1).spindle = w1.spindle := by
  unfold request_dwell mp_request_out_of_band_dwell
  split_ifs <;> rfl

/-- With a ramp step that passes the zero test, in a rotating state whose stored direction
agrees with the logical state, applying the speed snaps the actual speed to the (clamped)
target. -/
theorem actually_set_snaps (w : World)
    (h : w.spindle.state = SPINDLE_CW ∨ w.spindle.state = SPINDLE_CCW)
    (hdir : w.spindle.direction = w.spindle.state)
    (hz : fp_ZERO w.EPSILON w.spindle.speed_change_per_tick = true) :
    (_actually_set_spindle_speed w).spindle.speed_actual
      = (_actually_set_spindle_speed w).spindle.speed := by
  rw [actually_set_rotating w h, request_dwell_spindle, set_duty_eq, speeds_before_duty_eq]
  simp only [hz, if_true]
  rw [get_pwm_record_same]
  simp only
  rw [hdir]
  exact clamp_target_le _ _ _

/-- A tick with the gate compiled in and unsafe: the actual speed is zeroed, the state
becomes PAUSE, the off phase is sent, and the result tells whether a feedhold is on. -/
theorem tick_gate_tripped (w : World) (hf : w.ENABLE_INTERLOCK_AND_ESTOP = true)
    (hu : w.estop_state ≠ 0 ∨ w.safety_state ≠ 0) :
    do_spindle_speed_ramp_from_systick w =
      (decide (w.hold_state ≠ FEEDHOLD_OFF),
        { w with
          spindle := { w.spindle with speed_actual := 0, state := SPINDLE_PAUSE }
          log := w.log ++ [Event.pwm_set_duty (some w.pwm.phase_off)] }) := by
  have hn : ¬ (w.estop_state = 0 ∧ w.safety_state = 0) := by
    rintro ⟨h1, h2⟩
    rcases hu with h | h
    · exact h h1
    · exact h h2
  unfold do_spindle_speed_ramp_from_systick
  rw [if_pos hf, if_neg hn, set_duty_eq,
    get_pwm_stopped _ _ (by simp [SPINDLE_PAUSE, SPINDLE_CW]) (by simp [SPINDLE_PAUSE, SPINDLE_CCW])]

/-- While the gate stays unsafe, after any positive number of ticks the world differs from
the start only in the zeroed actual speed, the state PAUSE and one off-phase duty per
tick. -/
theorem ticks_gate_tripped (w : World) (hf : w.ENABLE_INTERLOCK_AND_ESTOP = true)
    (hu : w.estop_state ≠ 0 ∨ w.safety_state ≠ 0) (n : Nat) :
    ticks (n + 1) w =
      { w with
        spindle := { w.spindle with speed_actual := 0, state := SPINDLE_PAUSE }
        log := w.log ++ List.replicate (n + 1) (Event.pwm_set_duty (some w.pwm.phase_off)) } := by
  induction n with
  | zero =>
    show (do_spindle_speed_ramp_from_systick w).2 = _
    rw [tick_gate_tripped w hf hu]
    rfl
  | succ n ih =>
    have ht := tick_gate_tripped (ticks (n + 1) w) (by rw [ih]; exact hf) (by rw [ih]; exact hu)
    show (do_spindle_speed_ramp_from_systick (ticks (n + 1) w)).2 = _
    rw [ht]
    simp only
    rw [ih, List.replicate_succ' (n + 1)]
    simp only [List.append_assoc]

/-- C19: with the safety gate unsafe (`estop_state` or `safety_state` non-zero), for every
prior logical state, actual speed and target speed, after one tick and after every further
tick the actual speed is 0 and the logical state is PAUSE, the tick has sent the off phase
as duty, and the target speed is the one before the first tick. -/
theorem C19_tripped_gate_forces_pause (w : World) (hf : w.ENABLE_INTERLOCK_AND_ESTOP = true)
    (hu : w.estop_state ≠ 0 ∨ w.safety_state ≠ 0) (n : Nat) :
    (ticks (n + 1) w).spindle.speed_actual = 0 ∧
    (ticks (n + 1) w).spindle.state = SPINDLE_PAUSE ∧
    (ticks (n + 1) w).spindle.speed = w.spindle.speed ∧
    (ticks (n + 1) w).log = (ticks n w).log ++ [Event.pwm_set_duty (some w.pwm.phase_off)] ∧
    (ticks (n + 1) w).estop_state = w.estop_state ∧
    (ticks (n + 1) w).safety_state = w.safety_state := by
  refine ⟨by rw [ticks_gate_tripped w hf hu n], by rw [ticks_gate_tripped w hf hu n],
    by rw [ticks_gate_tripped w hf hu n], ?_, by rw [ticks_gate_tripped w hf hu n],
    by rw [ticks_gate_tripped w hf hu n]⟩
  cases n with
  | zero =>
    rw [ticks_gate_tripped w hf hu 0]
    rfl
  | succ m =>
    rw [ticks_gate_tripped w hf hu (m + 1), ticks_gate_tripped w hf hu m]
    simp only [List.append_assoc, List.append_cancel_left_eq]
    exact List.replicate_succ' (m + 1) _

/-- A step of size zero goes nowhere. -/
theorem ramp_step_zero (a t : ℚ) : ramp_step a t 0 = a := by
  unfold ramp_step
  simp only [add_zero, sub_zero]
  split_ifs <;> first | rfl | (exfalso; linarith)

/-- A step of size zero never passes the target. -/
theorem ramp_overshoot_zero (a t : ℚ) : ramp_overshoot a t 0 = false := by
  unfold ramp_overshoot
  simp only [add_zero, sub_zero]
  split_ifs with h
  · exact decide_eq_false (not_lt.mpr (le_of_lt h))
  · exact decide_eq_false h

/-- C18 (amended): with the safety gate safe and ramp step equal to zero, a single tick
returns done exactly when the actual speed is already within epsilon of the target, leaves
the target speed unchanged and does not move the actual speed (for an actual speed of at
most `speed_hi` of the selected curve, or a state that is not rotating); the snap of the
actual speed to the target for a zero ramp step is made by `_actually_set_spindle_speed`
in a rotating state whose stored direction agrees with the state. -/
theorem C18_zero_step_tick_does_not_snap (w : World)
    (hf : w.ENABLE_INTERLOCK_AND_ESTOP = true)
    (he : w.estop_state = 0) (hs : w.safety_state = 0)
    (hr0 : w.spindle.speed_change_per_tick = 0) :
    (do_spindle_speed_ramp_from_systick w).1
      = fp_EQ w.EPSILON w.spindle.speed_actual w.spindle.speed ∧
    (do_spindle_speed_ramp_from_systick w).2.spindle.speed = w.spindle.speed ∧
    ((w.spindle.state = SPINDLE_CW ∨ w.spindle.state = SPINDLE_CCW →
        w.spindle.speed_actual ≤ curve_speed_hi w.spindle.direction w.pwm) →
      (do_spindle_speed_ramp_from_systick w).2.spindle.speed_actual = w.spindle.speed_actual) ∧
    (w.spindle.state = SPINDLE_CW ∨ w.spindle.state = SPINDLE_CCW →
      w.spindle.direction = w.spindle.state → 0 < w.EPSILON →
      (_actually_set_spindle_speed w).spindle.speed_actual
        = (_actually_set_spindle_speed w).spindle.speed) := by
  have hsnap : w.spindle.state = SPINDLE_CW ∨ w.spindle.state = SPINDLE_CCW →
      w.spindle.direction = w.spindle.state → 0 < w.EPSILON →
      (_actually_set_spindle_speed w).spindle.speed_actual
        = (_actually_set_spindle_speed w).spindle.speed := by
    intro hrot hdir hpos
    exact actually_set_snaps w hrot hdir (by simp [fp_ZERO, hr0, hpos])
  cases hq : fp_EQ w.EPSILON w.spindle.speed_actual w.spindle.speed with
  | true =>
    rw [tick_safe_equal w hf he hs hq]
    exact ⟨rfl, rfl, fun _ => rfl, hsnap⟩
  | false =>
    have hact := tick_safe_step_actual w hf he hs hq
    rw [hr0, ramp_step_zero] at hact
    refine ⟨?_, ?_, ?_, hsnap⟩
    · rw [tick_safe_step w hf he hs hq, hr0, ramp_overshoot_zero]
    · rw [tick_safe_step w hf he hs hq, set_duty_eq]
      simp only
      rw [get_pwm_record]
    · intro hle
      rw [hact, if_neg (fun hc => absurd hc.2 (not_lt.mpr (hle hc.1)))]

/-! ## Further concrete instances -/

/-- Counterexample to C11 as stated: on the CCW curve of the sample channel, from speed 2000
to 8000 with phase 1/8 falling to 1/10, the duty at 2000 is 1/8 and the duty at 8000 is
1/10, which is smaller. -/
theorem C11_counterexample :
    (ccw_spindle.state = SPINDLE_CW ∨ ccw_spindle.state = SPINDLE_CCW) ∧
    curve_speed_lo ccw_spindle.direction sample_pwm = 2000 ∧
    curve_speed_hi ccw_spindle.direction sample_pwm = 8000 ∧
    (_get_spindle_pwm { ccw_spindle with speed_actual := 2000 } sample_pwm).1 = some (1 / 8) ∧
    (_get_spindle_pwm { ccw_spindle with speed_actual := 8000 } sample_pwm).1 = some (1 / 10) ∧
    ¬ ((1 / 8 : ℚ) ≤ 1 / 10) := by
  norm_num [_get_spindle_pwm, ccw_spindle, sample_spindle, sample_pwm, curve_speed_lo,
    curve_speed_hi, fdiv, SPINDLE_CW, SPINDLE_CCW, SPINDLE_OFF]

/-- Counterexample to C13 as stated: on the degenerate CW curve with both speeds 1000 the
duty mapper, running CW at 500, returns no finite phase, not the lower phase 1/8. -/
theorem C13_counterexample :
    (slow_spindle.state = SPINDLE_CW ∨ slow_spindle.state = SPINDLE_CCW) ∧
    curve_speed_hi slow_spindle.direction flat_pwm
      = curve_speed_lo slow_spindle.direction flat_pwm ∧
    (_get_spindle_pwm slow_spindle flat_pwm).1 = none ∧
    (_get_spindle_pwm slow_spindle flat_pwm).1
      ≠ some (curve_phase_lo slow_spindle.direction flat_pwm) := by
  have h : (_get_spindle_pwm slow_spindle flat_pwm).1 = none := by
    norm_num [_get_spindle_pwm, slow_spindle, sample_spindle, flat_pwm, sample_pwm, fdiv,
      SPINDLE_CW, SPINDLE_CCW, SPINDLE_OFF]
  refine ⟨Or.inl rfl, ?_, h, ?_⟩
  · norm_num [slow_spindle, sample_spindle, flat_pwm, sample_pwm, curve_speed_lo,
      curve_speed_hi, SPINDLE_CW, SPINDLE_OFF]
  · rw [h]
    exact fun hc => Option.noConfusion hc

/-- Counterexample to C14 as stated: running CW at actual speed 12000 on a CW curve that
ends at 10000, the duty mapper hands back the record with actual speed 10000. -/
theorem C14_counterexample :
    hot_spindle.speed_actual = 12000 ∧
    (_get_spindle_pwm hot_spindle sample_pwm).2.speed_actual = 10000 ∧
    (_get_spindle_pwm hot_spindle sample_pwm).2 ≠ hot_spindle := by
  have h : (_get_spindle_pwm hot_spindle sample_pwm).2.speed_actual = 10000 := by
    norm_num [_get_spindle_pwm, hot_spindle, sample_spindle, sample_pwm, SPINDLE_CW,
      SPINDLE_CCW, SPINDLE_OFF]
  refine ⟨rfl, h, fun hc => ?_⟩
  rw [hc] at h
  norm_num [hot_spindle] at h

/-- C17, the failing input evaluated: gate safe, ramp step 1000, actual speed 2000, target
3000.  The tick lands exactly on the target and returns false (not done), although the
actual speed equals the target when the call returns. -/
theorem C17_exact_landing_reports_not_done :
    landing_world.ENABLE_INTERLOCK_AND_ESTOP = true ∧
    landing_world.estop_state = 0 ∧ landing_world.safety_state = 0 ∧
    (do_spindle_speed_ramp_from_systick landing_world).1 = false ∧
    (do_spindle_speed_ramp_from_systick landing_world).2.spindle.speed_actual = 3000 ∧
    (do_spindle_speed_ramp_from_systick landing_world).2.spindle.speed = 3000 ∧
    fp_EQ (do_spindle_speed_ramp_from_systick landing_world).2.EPSILON
      (do_spindle_speed_ramp_from_systick landing_world).2.spindle.speed_actual
      (do_spindle_speed_ramp_from_systick landing_world).2.spindle.speed = true := by
  norm_num [do_spindle_speed_ramp_from_systick, set_duty_from_spindle, pwm_set_duty,
    _get_spindle_pwm, fp_EQ, fdiv, landing_world, sample_world, sample_spindle, sample_pwm,
    SPINDLE_CW, SPINDLE_CCW, SPINDLE_OFF, abs_of_neg, abs_of_pos]

/-- Counterexample to C18 as stated: gate safe, ramp step 0, stopped with actual speed 0 and
target 3000: a tick returns false and leaves the actual speed at 0. -/
theorem C18_counterexample :
    stepless_world.ENABLE_INTERLOCK_AND_ESTOP = true ∧
    stepless_world.estop_state = 0 ∧ stepless_world.safety_state = 0 ∧
    stepless_world.spindle.speed_change_per_tick = 0 ∧
    stepless_world.spindle.speed = 3000 ∧
    (do_spindle_speed_ramp_from_systick stepless_world).1 = false ∧
    (do_spindle_speed_ramp_from_systick stepless_world).2.spindle.speed_actual = 0 ∧
    (do_spindle_speed_ramp_from_systick stepless_world).2.spindle.speed_actual
      ≠ (do_spindle_speed_ramp_from_systick stepless_world).2.spindle.speed := by
  norm_num [do_spindle_speed_ramp_from_systick, set_duty_from_spindle, pwm_set_duty,
    _get_spindle_pwm, fp_EQ, fdiv, stepless_world, sample_world, sample_spindle, sample_pwm,
    SPINDLE_CW, SPINDLE_CCW, SPINDLE_OFF, abs_of_neg, abs_of_pos]

/-- C20, the failing input evaluated: just switched to CW with actual speed 0, target 3000,
ramp step 1000 and spin-up delay 1.  The dwell requested is the sum 1 + 0.003 seconds, not
the larger of 1 and 0.003. -/
theorem C20_dwell_is_the_sum :
    spinup_world.spindle.spinup_delay = 1 ∧
    (1 / 1000 * |spinup_world.spindle.speed - spinup_world.spindle.speed_actual|
      / spinup_world.spindle.speed_change_per_tick : ℚ) = 3 / 1000 ∧
    (_actually_set_spindle_speed spinup_world).log
      = [Event.pwm_set_duty (some (1 / 8)), Event.dwell (some (1 + 3 / 1000))] ∧
    (1 + 3 / 1000 : ℚ) ≠ max 1 (3 / 1000) := by
  norm_num [_actually_set_spindle_speed, mp_request_out_of_band_dwell, set_duty_from_spindle,
    pwm_set_duty, _get_spindle_pwm, fp_ZERO, fp_NE, fp_NOT_ZERO, fdiv, spinup_world,
    sample_world, sample_spindle, sample_pwm, SPINDLE_CW, SPINDLE_CCW, SPINDLE_OFF,
    abs_of_neg, abs_of_pos]

/-- Witness of C11 (amended) on the CW curve of the sample channel, whose phase rises from
1/8 to 1/5: the duty at 2000 is at most the duty at 5000. -/
theorem C11_duty_monotone_witness :
    (slow_spindle.state = SPINDLE_CW ∨ slow_spindle.state = SPINDLE_CCW) ∧
    curve_speed_lo slow_spindle.direction sample_pwm
      < curve_speed_hi slow_spindle.direction sample_pwm ∧
    curve_phase_lo slow_spindle.direction sample_pwm
      ≤ curve_phase_hi slow_spindle.direction sample_pwm ∧
    ∃ da db, (_get_spindle_pwm { slow_spindle with speed_actual := 2000 } sample_pwm).1
        = some da ∧
      (_get_spindle_pwm { slow_spindle with speed_actual := 5000 } sample_pwm).1 = some db ∧
      da ≤ db :=
  ⟨Or.inl rfl,
    by norm_num [curve_speed_lo, curve_speed_hi, slow_spindle, sample_spindle, sample_pwm],
    by norm_num [curve_phase_lo, curve_phase_hi, slow_spindle, sample_spindle, sample_pwm],
    C11_duty_monotone slow_spindle sample_pwm 2000 5000 (Or.inl rfl)
      (by norm_num [curve_speed_lo, curve_speed_hi, slow_spindle, sample_spindle, sample_pwm])
      (by norm_num [curve_phase_lo, curve_phase_hi, slow_spindle, sample_spindle, sample_pwm])
      (by norm_num)⟩

/-- Witness of C13 (amended) on the degenerate CW curve of `flat_pwm`. -/
theorem C13_degenerate_curve_divides_by_zero_witness :
    (slow_spindle.state = SPINDLE_CW ∨ slow_spindle.state = SPINDLE_CCW) ∧
    curve_speed_hi slow_spindle.direction flat_pwm
      = curve_speed_lo slow_spindle.direction flat_pwm ∧
    (_get_spindle_pwm slow_spindle flat_pwm).1 = none :=
  ⟨Or.inl rfl,
    by norm_num [curve_speed_lo, curve_speed_hi, slow_spindle, sample_spindle, flat_pwm,
      sample_pwm],
    (C13_degenerate_curve_divides_by_zero slow_spindle flat_pwm (Or.inl rfl)
      (by norm_num [curve_speed_lo, curve_speed_hi, slow_spindle, sample_spindle, flat_pwm,
        sample_pwm])).2⟩

/-- Witness of C18 (amended) on the stopped world with ramp step 0: the tick reports the
epsilon comparison and leaves the target speed unchanged. -/
theorem C18_zero_step_tick_does_not_snap_witness :
    stepless_world.spindle.speed_change_per_tick = 0 ∧
    (do_spindle_speed_ramp_from_systick stepless_world).1
      = fp_EQ stepless_world.EPSILON stepless_world.spindle.speed_actual
          stepless_world.spindle.speed ∧
    (do_spindle_speed_ramp_from_systick stepless_world).2.spindle.speed
      = stepless_world.spindle.speed :=
  ⟨rfl, (C18_zero_step_tick_does_not_snap stepless_world rfl rfl rfl rfl).1,
    (C18_zero_step_tick_does_not_snap stepless_world rfl rfl rfl rfl).2.1⟩

/-- Witness of C19: running CW at 3000 with `estop_state` 1, after three ticks. -/
theorem C19_tripped_gate_forces_pause_witness :
    estop_world.ENABLE_INTERLOCK_AND_ESTOP = true ∧
    (estop_world.estop_state ≠ 0 ∨ estop_world.safety_state ≠ 0) ∧
    (ticks 3 estop_world).spindle.speed_actual = 0 ∧
    (ticks 3 estop_world).spindle.state = SPINDLE_PAUSE ∧
    (ticks 3 estop_world).spindle.speed = estop_world.spindle.speed :=
  ⟨rfl, Or.inl (by decide),
    (C19_tripped_gate_forces_pause estop_world rfl (Or.inl (by decide)) 2).1,
    (C19_tripped_gate_forces_pause estop_world rfl (Or.inl (by decide)) 2).2.1,
    (C19_tripped_gate_forces_pause estop_world rfl (Or.inl (by decide)) 2).2.2.1⟩

/-! ## The tail of the control executor in closed form -/

/-- Applying the bits is writing the outputs, then applying the speed. -/
theorem apply_bits_eq (e d : Int) (w : World) :
    apply_bits e d w = _actually_set_spindle_speed (write_bits e d w) := by
  unfold apply_bits write_bits
  obtain ⟨sp, pw, eo, dout, a, b, c, f, g, i, j, k, l⟩ := w
  by_cases hd : d ≥ 0 <;> cases eo <;> cases dout <;> simp [hd, setValue]

/-! ## Dwell requests -/

/-- No dwell is requested when the actual speed equals the target (epsilon not negative). -/
theorem request_dwell_quiet (w1 : World) (heps : 0 ≤ w1.EPSILON)
    (h : w1.spindle.speed_actual = w1.spindle.speed) : request_dwell w1 = w1 := by
  unfold request_dwell
  rw [if_neg]
  simp [fp_NE, h, heps]

/-- C21: in every rotating state (stored direction equal to the logical state, as in every
world the driver reaches) whose actual speed equals the clamped target of the speed `v`,
executing the speed command `v` through `_exec_spindle_speed` sends the duty and requests no
dwell; executing the rotation control of the current rotation again makes no call at all. -/
theorem C21_same_speed_no_dwell (w : World) (v : ℚ)
    (hrot : w.spindle.state = SPINDLE_CW ∨ w.spindle.state = SPINDLE_CCW)
    (hco : rotation_coherent w)
    (heq : w.spindle.speed_actual
      = clamp_target (curve_speed_lo w.spindle.state w.pwm)
          (curve_speed_hi w.spindle.state w.pwm) v)
    (heps : 0 ≤ w.EPSILON) :
    (_exec_spindle_speed v w).log
      = w.log ++ [Event.pwm_set_duty (_get_spindle_pwm w.spindle w.pwm).1] ∧
    (∀ e ∈ (_exec_spindle_speed v w).log, e.isDwell = true → e ∈ w.log) ∧
    (_exec_spindle_control w.spindle.state w).log = w.log := by
  have hdir : w.spindle.speed_actual ≤ curve_speed_hi w.spindle.direction w.pwm := by
    rw [hco hrot, heq]
    exact clamp_target_le _ _ _
  have hrec : speeds_before_duty w.EPSILON (curve_speed_lo w.spindle.state w.pwm)
      (curve_speed_hi w.spindle.state w.pwm) { w.spindle with speed := v }
      = { w.spindle with speed := w.spindle.speed_actual } := by
    rw [speeds_before_duty_eq]
    simp only
    have hle : w.spindle.speed_actual ≤ curve_speed_hi w.spindle.state w.pwm := by
      rw [heq]; exact clamp_target_le _ _ _
    rw [← heq, if_neg (not_lt.mpr hle)]
    simp
  have hpwm : _get_spindle_pwm { w.spindle with speed := w.spindle.speed_actual } w.pwm
      = ((_get_spindle_pwm w.spindle w.pwm).1,
          { w.spindle with speed := w.spindle.speed_actual }) := by
    unfold _get_spindle_pwm
    simp only
    split_ifs <;> first | rfl | (exfalso; unfold curve_speed_hi at hdir; simp_all; linarith)
  have hlog : (_exec_spindle_speed v w).log
      = w.log ++ [Event.pwm_set_duty (_get_spindle_pwm w.spindle w.pwm).1] := by
    unfold _exec_spindle_speed
    rw [actually_set_rotating { w with spindle := { w.spindle with speed := v } } hrot]
    simp only
    rw [hrec, set_duty_eq]
    simp only
    rw [hpwm]
    rw [request_dwell_quiet { w with
      spindle := { w.spindle with speed := w.spindle.speed_actual }
      log := w.log ++ [Event.pwm_set_duty (_get_spindle_pwm w.spindle w.pwm).1] } heps rfl]
  refine ⟨hlog, ?_, ?_⟩
  · intro e he hd
    rw [hlog, List.mem_append, List.mem_singleton] at he
    rcases he with he | he
    · exact he
    · rw [he] at hd
      exact absurd hd (by simp [Event.isDwell])
  · have hR : w.spindle.state = SPINDLE_CW ∨ w.spindle.state = SPINDLE_CCW := hrot
    rw [exec_same_rotation_eq w w.spindle.state hR rfl, direction_assert_frame w]

/-! ## The spin-up scenario -/

/-- Outside a rotating state `_actually_set_spindle_speed` zeroes the actual speed and sends
the off phase, nothing else. -/
theorem actually_set_stopped (w : World)
    (h1 : w.spindle.state ≠ SPINDLE_CW) (h2 : w.spindle.state ≠ SPINDLE_CCW) :
    _actually_set_spindle_speed w =
      { w with
        spindle := { w.spindle with speed_actual := 0 }
        log := w.log ++ [Event.pwm_set_duty (some w.pwm.phase_off)] } := by
  unfold _actually_set_spindle_speed
  rw [if_neg (by tauto), set_duty_eq]
  simp only
  rw [get_pwm_stopped { w.spindle with speed_actual := 0 } w.pwm h1 h2]

/-- A speed command outside a rotating state stores the target, zeroes the actual speed and
sends the off phase. -/
theorem exec_speed_stopped (w : World) (v : ℚ)
    (h1 : w.spindle.state ≠ SPINDLE_CW) (h2 : w.spindle.state ≠ SPINDLE_CCW) :
    _exec_spindle_speed v w =
      { w with
        spindle := { w.spindle with speed := v, speed_actual := 0 }
        log := w.log ++ [Event.pwm_set_duty (some w.pwm.phase_off)] } := by
  unfold _exec_spindle_speed
  rw [actually_set_stopped { w with spindle := { w.spindle with speed := v } } h1 h2]

/-- The dwell requested when the actual speed 0 is 3000 below the target and the ramp step
is 1000: the spin-up delay plus 0.003 seconds. -/
theorem request_dwell_spin_up (w1 : World) (heps : w1.EPSILON < 1000)
    (ha : w1.spindle.speed_actual = 0) (ht : w1.spindle.speed = 3000)
    (hr : w1.spindle.speed_change_per_tick = 1000) :
    request_dwell w1 =
      { w1 with log := w1.log ++ [Event.dwell (some (w1.spindle.spinup_delay + 3 / 1000))] } := by
  have h1 : fp_NE w1.EPSILON w1.spindle.speed_actual w1.spindle.speed = true := by
    rw [ha, ht]
    unfold fp_NE
    rw [decide_eq_true_iff, zero_sub, abs_neg, abs_of_pos (by norm_num)]
    linarith
  have h2 : fp_NOT_ZERO w1.EPSILON w1.spindle.speed_change_per_tick = true := by
    rw [hr]
    unfold fp_NOT_ZERO
    rw [decide_eq_true_iff, abs_of_pos (by norm_num)]
    exact heps
  unfold request_dwell mp_request_out_of_band_dwell
  rw [if_pos h1, if_pos h2, ha, ht, hr]
  norm_num [fdiv]

/-- The CW control from state OFF with actual speed 0, target 3000 inside the CW curve and
ramp step 1000: direction and state become CW, the direction output takes 0 and the enable
output 1, the duty for actual speed 0 is sent and a dwell of the spin-up delay plus 0.003
seconds is requested. -/
theorem exec_cw_spin_up (x : World) (hst : x.spindle.state = SPINDLE_OFF)
    (ha : x.spindle.speed_actual = 0) (ht : x.spindle.speed = 3000)
    (hr : x.spindle.speed_change_per_tick = 1000)
    (hlo : x.pwm.cw_speed_lo ≤ 3000) (hhi : 3000 ≤ x.pwm.cw_speed_hi)
    (heps : x.EPSILON < 1000) :
    _exec_spindle_control SPINDLE_CW x =
      { x with
        spindle := { x.spindle with direction := SPINDLE_CW, state := SPINDLE_CW }
        spindle_direction_output := setValue x.spindle_direction_output 0
        spindle_enable_output := setValue x.spindle_enable_output 1
        log := x.log
          ++ (if x.spindle_direction_output.isSome then [Event.setDirection 0] else [])
          ++ (if x.spindle_enable_output.isSome then [Event.setEnable 1] else [])
          ++ [Event.pwm_set_duty (_get_spindle_pwm
                { x.spindle with direction := SPINDLE_CW, state := SPINDLE_CW } x.pwm).1,
              Event.dwell (some (x.spindle.spinup_delay + 3 / 1000))] } := by
  have hs : x.spindle.state < SPINDLE_ACTION_MAX := by rw [hst]; decide
  have hne : x.spindle.state ≠ SPINDLE_CW := by rw [hst]; decide
  have hX : ({ SPINDLE_DIRECTION_ASSERT x with
      spindle := { (SPINDLE_DIRECTION_ASSERT x).spindle with
        direction := SPINDLE_CW, state := SPINDLE_CW } } : World)
      = { x with spindle := { x.spindle with direction := SPINDLE_CW, state := SPINDLE_CW } } := by
    rw [direction_assert_frame x]
  have hclo : curve_speed_lo SPINDLE_CW x.pwm = x.pwm.cw_speed_lo := by simp [curve_speed_lo]
  have hchi : curve_speed_hi SPINDLE_CW x.pwm = x.pwm.cw_speed_hi := by simp [curve_speed_hi]
  have hz : fp_ZERO x.EPSILON x.spindle.speed_change_per_tick = false := by
    rw [hr]
    unfold fp_ZERO
    rw [decide_eq_false_iff_not, abs_of_pos (by norm_num)]
    linarith
  have hsp : speeds_before_duty x.EPSILON (curve_speed_lo SPINDLE_CW x.pwm)
      (curve_speed_hi SPINDLE_CW x.pwm)
      { x.spindle with direction := SPINDLE_CW, state := SPINDLE_CW }
      = { x.spindle with direction := SPINDLE_CW, state := SPINDLE_CW } := by
    have e1 : clamp_target x.pwm.cw_speed_lo x.pwm.cw_speed_hi x.spindle.speed
        = x.spindle.speed := by
      rw [ht]; exact clamp_target_inside _ _ _ hlo hhi
    have e2 : ¬ x.spindle.speed_actual > x.pwm.cw_speed_hi := by
      rw [ha]; exact not_lt.mpr (by linarith)
    rw [speeds_before_duty_eq, hclo, hchi]
    simp only [hz, e1, e2, if_false, Bool.false_eq_true]
  have hrec : (_get_spindle_pwm { x.spindle with direction := SPINDLE_CW, state := SPINDLE_CW }
      x.pwm).2 = { x.spindle with direction := SPINDLE_CW, state := SPINDLE_CW } := by
    apply get_pwm_record_same
    show x.spindle.speed_actual ≤ curve_speed_hi SPINDLE_CW x.pwm
    rw [ha, hchi]
    linarith
  rw [exec_rotation_eq x SPINDLE_CW hs (Or.inl rfl) hne, apply_bits_eq, hX]
  rw [actually_set_rotating
    (write_bits 1 ((SPINDLE_CW : Int) - 1)
      { x with spindle := { x.spindle with direction := SPINDLE_CW, state := SPINDLE_CW } })
    (Or.inl rfl)]
  unfold write_bits
  simp only
  rw [hsp, set_duty_eq]
  simp only
  rw [hrec, request_dwell_spin_up]
  · simp [SPINDLE_CW]
  · exact heps
  · exact ha
  · exact ht
  · exact hr

/-- One tick below the target with the gate safe, with the log spelled out: the duty for the
new actual speed is appended. -/
theorem tick_up_exact (w : World) (x : ℚ) (lg : List Event)
    (hf : w.ENABLE_INTERLOCK_AND_ESTOP = true)
    (he : w.estop_state = 0) (hs : w.safety_state = 0)
    (hx : x < w.spindle.speed) (hfar : w.EPSILON ≤ w.spindle.speed - x)
    (hstep : min (x + w.spindle.speed_change_per_tick) w.spindle.speed
      ≤ curve_speed_hi w.spindle.direction w.pwm) :
    (do_spindle_speed_ramp_from_systick
        { w with spindle := { w.spindle with speed_actual := x }, log := lg }).2 =
      { w with
        spindle := { w.spindle with
          speed_actual := min (x + w.spindle.speed_change_per_tick) w.spindle.speed }
        log := lg ++ [Event.pwm_set_duty (_get_spindle_pwm { w.spindle with
          speed_actual := min (x + w.spindle.speed_change_per_tick) w.spindle.speed }
            w.pwm).1] } := by
  have hne : fp_EQ w.EPSILON x w.spindle.speed = false := by
    unfold fp_EQ
    rw [decide_eq_false_iff_not, not_lt, abs_of_neg (by linarith)]
    linarith
  have hrec := get_pwm_record_same
    { w.spindle with
      speed_actual := min (x + w.spindle.speed_change_per_tick) w.spindle.speed } w.pwm hstep
  rw [tick_safe_step { w with spindle := { w.spindle with speed_actual := x }, log := lg }
    hf he hs hne, set_duty_eq]
  simp only
  rw [ramp_step_up _ _ _ hx, hrec]

/-- Three ticks from actual speed 0 toward the target 3000 with ramp step 1000, gate safe:
1000, 2000, 3000, and the third tick sends the duty for 3000. -/
theorem ramp_three_steps (x : World) (hf : x.ENABLE_INTERLOCK_AND_ESTOP = true)
    (he : x.estop_state = 0) (hs : x.safety_state = 0)
    (hr : x.spindle.speed_change_per_tick = 1000) (ht : x.spindle.speed = 3000)
    (ha : x.spindle.speed_actual = 0)
    (hhi : (3000 : ℚ) ≤ curve_speed_hi x.spindle.direction x.pwm)
    (heps : x.EPSILON ≤ 1000) :
    (ticks 1 x).spindle.speed_actual = 1000 ∧
    (ticks 2 x).spindle.speed_actual = 2000 ∧
    (ticks 3 x).spindle.speed_actual = 3000 ∧
    (ticks 3 x).spindle.speed = 3000 ∧
    (ticks 3 x).log = (ticks 2 x).log ++
      [Event.pwm_set_duty (_get_spindle_pwm { x.spindle with speed_actual := 3000 } x.pwm).1] := by
  have hceil : ⌈x.spindle.speed / x.spindle.speed_change_per_tick⌉₊ = 3 := by
    rw [ht, hr, Nat.ceil_eq_iff (by norm_num)]
    norm_num
  have cf := ramp_closed_form x hf he hs (by rw [hr]; norm_num) (by rw [ht]; norm_num)
    (by rw [ht]; exact hhi) ha (by rw [hceil, ht, hr]; norm_num; linarith)
  rw [hceil, hr, ht] at cf
  obtain ⟨lg1, h1⟩ := cf 1 (by norm_num)
  obtain ⟨lg2, h2⟩ := cf 2 (by norm_num)
  have h3 : ticks 3 x = (do_spindle_speed_ramp_from_systick (ticks 2 x)).2 := rfl
  have m2 : min (((2 : ℕ) : ℚ) * 1000) 3000 = 2000 := by norm_num
  have m1 : min (((1 : ℕ) : ℚ) * 1000) 3000 = 1000 := by norm_num
  rw [m1] at h1
  rw [m2] at h2
  have hstep : min (2000 + x.spindle.speed_change_per_tick) x.spindle.speed
      ≤ curve_speed_hi x.spindle.direction x.pwm := by
    rw [hr, ht]; norm_num; exact hhi
  have hexact := tick_up_exact x 2000 lg2 hf he hs (by rw [ht]; norm_num)
    (by rw [ht]; norm_num; linarith) hstep
  have m3 : min (2000 + x.spindle.speed_change_per_tick) x.spindle.speed = 3000 := by
    rw [hr, ht]; norm_num
  rw [m3] at hexact
  rw [h3, h2, hexact, h1]
  exact ⟨rfl, rfl, rfl, ht, rfl⟩

/-- The world after the two commands of the spin-up scenario, in closed form. -/
theorem run_speed_then_cw_closed (w : World) (hst : w.spindle.state = SPINDLE_OFF)
    (hr : w.spindle.speed_change_per_tick = 1000)
    (hlo : w.pwm.cw_speed_lo ≤ 3000) (hhi : 3000 ≤ w.pwm.cw_speed_hi)
    (heps : w.EPSILON < 1000) :
    run_speed_then_cw 3000 w =
      { w with
        spindle := { w.spindle with
          state := SPINDLE_CW, direction := SPINDLE_CW, speed := 3000, speed_actual := 0 }
        spindle_direction_output := setValue w.spindle_direction_output 0
        spindle_enable_output := setValue w.spindle_enable_output 1
        log := w.log ++ [Event.pwm_set_duty (some w.pwm.phase_off)]
          ++ (if w.spindle_direction_output.isSome then [Event.setDirection 0] else [])
          ++ (if w.spindle_enable_output.isSome then [Event.setEnable 1] else [])
          ++ [Event.pwm_set_duty (_get_spindle_pwm
                { w.spindle with
                  state := SPINDLE_CW, direction := SPINDLE_CW, speed := 3000,
                  speed_actual := 0 } w.pwm).1,
              Event.dwell (some (w.spindle.spinup_delay + 3 / 1000))] } := by
  have h1 : w.spindle.state ≠ SPINDLE_CW := by rw [hst]; decide
  have h2 : w.spindle.state ≠ SPINDLE_CCW := by rw [hst]; decide
  unfold run_speed_then_cw
  rw [exec_speed_stopped w 3000 h1 h2, exec_cw_spin_up]
  · exact hst
  · rfl
  · rfl
  · exact hr
  · exact hlo
  · exact hhi
  · exact heps

/-- C22: the spin-up scenario.  From logical state OFF with `speed_min = 0`,
`speed_max = 10000`, ramp step 1000 per tick, a CW curve whose range contains 3000 and the
safety gate safe (epsilon below the ramp step, spin-up delay not negative): the speed 3000
is admitted; executing the speed 3000 and then the control CW requests one dwell, of the
spin-up delay plus 0.003 seconds, which is at least the 3 ticks of 0.001 seconds; then the
three ticks bring the actual speed to 1000, 2000 and 3000, the target; and the duty sent on
the third tick is the value of the CW curve at speed 3000.  The actual speed is zeroed by
the speed command in state OFF, whatever it was. -/
theorem C22_spin_up_scenario (w : World) (hst : w.spindle.state = SPINDLE_OFF)
    (hmin : w.spindle.speed_min = 0) (hmax : w.spindle.speed_max = 10000)
    (hr : w.spindle.speed_change_per_tick = 1000)
    (hlo : w.pwm.cw_speed_lo ≤ 3000) (hhi : 3000 ≤ w.pwm.cw_speed_hi)
    (hf : w.ENABLE_INTERLOCK_AND_ESTOP = true)
    (he : w.estop_state = 0) (hs : w.safety_state = 0)
    (heps : w.EPSILON < 1000) (hsd : 0 ≤ w.spindle.spinup_delay) :
    (spindle_set_speed 3000 w).1 = stat_t.STAT_OK ∧
    (run_speed_then_cw 3000 w).log =
      w.log ++ [Event.pwm_set_duty (some w.pwm.phase_off)]
        ++ (if w.spindle_direction_output.isSome then [Event.setDirection 0] else [])
        ++ (if w.spindle_enable_output.isSome then [Event.setEnable 1] else [])
        ++ [Event.pwm_set_duty (_get_spindle_pwm
              { w.spindle with
                state := SPINDLE_CW, direction := SPINDLE_CW, speed := 3000,
                speed_actual := 0 } w.pwm).1,
            Event.dwell (some (w.spindle.spinup_delay + 3 / 1000))] ∧
    (3 : ℚ) * (1 / 1000) ≤ w.spindle.spinup_delay + 3 / 1000 ∧
    (run_speed_then_cw 3000 w).spindle.speed_actual = 0 ∧
    (ticks 1 (run_speed_then_cw 3000 w)).spindle.speed_actual = 1000 ∧
    (ticks 2 (run_speed_then_cw 3000 w)).spindle.speed_actual = 2000 ∧
    (ticks 3 (run_speed_then_cw 3000 w)).spindle.speed_actual = 3000 ∧
    (ticks 3 (run_speed_then_cw 3000 w)).spindle.speed = 3000 ∧
    (ticks 3 (run_speed_then_cw 3000 w)).log = (ticks 2 (run_speed_then_cw 3000 w)).log ++
      [Event.pwm_set_duty (_get_spindle_pwm
        { w.spindle with
          state := SPINDLE_CW, direction := SPINDLE_CW, speed := 3000,
          speed_actual := 3000 } w.pwm).1] ∧
    (w.pwm.cw_speed_lo < w.pwm.cw_speed_hi →
      (_get_spindle_pwm
        { w.spindle with
          state := SPINDLE_CW, direction := SPINDLE_CW, speed := 3000,
          speed_actual := 3000 } w.pwm).1
        = some (w.pwm.cw_phase_lo + (3000 - w.pwm.cw_speed_lo)
            / (w.pwm.cw_speed_hi - w.pwm.cw_speed_lo)
            * (w.pwm.cw_phase_hi - w.pwm.cw_phase_lo))) := by
  have hW := run_speed_then_cw_closed w hst hr hlo hhi heps
  have hadm : (spindle_set_speed 3000 w).1 = stat_t.STAT_OK := by
    show (spindle_set_speed (float.num 3000) w).1 = stat_t.STAT_OK
    unfold spindle_set_speed
    rw [casey_jones_num, hmin, hmax]
    norm_num
  have hticks := ramp_three_steps (run_speed_then_cw 3000 w)
    (by rw [hW]; exact hf) (by rw [hW]; exact he) (by rw [hW]; exact hs)
    (by rw [hW]; exact hr) (by rw [hW]) (by rw [hW])
    (by rw [hW]; simp only [curve_speed_hi, if_true]; exact hhi)
    (by rw [hW]; exact le_of_lt heps)
  obtain ⟨t1, t2, t3, t4, t5⟩ := hticks
  refine ⟨hadm, by rw [hW], by linarith, by rw [hW], t1, t2, t3, t4, ?_, ?_⟩
  · rw [t5]
    congr 3
    rw [hW]
  · intro hlt
    have hnd := get_pwm_nondegenerate
      { w.spindle with
        state := SPINDLE_CW, direction := SPINDLE_CW, speed := 3000, speed_actual := 3000 }
      w.pwm (Or.inl rfl)
      (by simp only [curve_speed_lo, curve_speed_hi, if_true]; exact ne_of_lt hlt)
    rw [hnd]
    simp only [curve_speed_lo, curve_speed_hi, curve_phase_lo, curve_phase_hi, if_true]
    rw [min_eq_left hhi, max_eq_right (by linarith)]
    congr 1
    ring

/-! ## Direction normalisation, NOP entries and the guards -/

/-- A NOP entry of the matrix: only the direction assertion has run. -/
theorem exec_nop_eq (w : World) (control : Nat) (hc : ¬ control > SPINDLE_ACTION_MAX)
    (hs : ¬ w.spindle.state ≥ SPINDLE_ACTION_MAX)
    (hn : matrix_lookup w.spindle.state control = some SPINDLE_NOP) :
    _exec_spindle_control control w = SPINDLE_DIRECTION_ASSERT w := by
  unfold _exec_spindle_control
  rw [if_neg hc, if_neg hs, hn]
  simp

/-- A state at or above `SPINDLE_ACTION_MAX`, or a control above it, stops at the guards. -/
theorem exec_guarded_eq (w : World) (control : Nat)
    (h : control > SPINDLE_ACTION_MAX ∨ w.spindle.state ≥ SPINDLE_ACTION_MAX) :
    _exec_spindle_control control w = w := by
  unfold _exec_spindle_control
  rcases h with h | h
  · rw [if_pos h]
  · split_ifs <;> rfl

/-- The seven NOP pairs are entries NOP of the matrix, within the guards. -/
theorem nop_pairs_lookup (state control : Nat) (h : (state, control) ∈ nop_pairs) :
    matrix_lookup state control = some SPINDLE_NOP ∧ ¬ control > SPINDLE_ACTION_MAX ∧
      ¬ state ≥ SPINDLE_ACTION_MAX := by
  simp only [nop_pairs, List.mem_cons, Prod.mk.injEq, List.mem_singleton, List.not_mem_nil,
    or_false] at h
  rcases h with ⟨rfl, rfl⟩ | ⟨rfl, rfl⟩ | ⟨rfl, rfl⟩ | ⟨rfl, rfl⟩ | ⟨rfl, rfl⟩ | ⟨rfl, rfl⟩ |
    ⟨rfl, rfl⟩ <;> exact ⟨rfl, by decide, by decide⟩

/-- After a call that passes both guards the stored direction is CW or CCW. -/
theorem exec_direction_valid (w : World) (control : Nat)
    (hc : ¬ control > SPINDLE_ACTION_MAX) (hs : ¬ w.spindle.state ≥ SPINDLE_ACTION_MAX) :
    (_exec_spindle_control control w).spindle.direction = SPINDLE_CW ∨
      (_exec_spindle_control control w).spindle.direction = SPINDLE_CCW := by
  have hs4 : w.spindle.state < SPINDLE_ACTION_MAX := not_le.mp hs
  have hv := direction_assert_valid w
  have hcs : control = SPINDLE_OFF ∨ control = SPINDLE_CW ∨ control = SPINDLE_CCW ∨
      control = SPINDLE_PAUSE ∨ control = SPINDLE_RESUME := by
    simp only [SPINDLE_ACTION_MAX, SPINDLE_RESUME, SPINDLE_OFF, SPINDLE_CW, SPINDLE_CCW,
      SPINDLE_PAUSE] at *
    omega
  have hrot : ∀ R, R = SPINDLE_CW ∨ R = SPINDLE_CCW →
      (_exec_spindle_control R w).spindle.direction = SPINDLE_CW ∨
        (_exec_spindle_control R w).spindle.direction = SPINDLE_CCW := by
    intro R hR
    by_cases hst : w.spindle.state = R
    · rw [exec_same_rotation_eq w R hR hst]; exact hv
    · rw [exec_rotation_eq w R hs4 hR hst, (apply_bits_view _ _ _).2.1]
      exact hR
  rcases hcs with rfl | rfl | rfl | rfl | rfl
  · rw [exec_off_eq w hs4, (apply_bits_view _ _ _).2.1]
    exact hv
  · exact hrot _ (Or.inl rfl)
  · exact hrot _ (Or.inr rfl)
  · rcases state_cases _ hs4 with h | h | h | h
    · rw [exec_nop_eq w _ hc hs (by rw [h]; rfl)]; exact hv
    · rw [exec_pause_eq w (Or.inl h), (apply_bits_view _ _ _).2.1]; exact hv
    · rw [exec_pause_eq w (Or.inr h), (apply_bits_view _ _ _).2.1]; exact hv
    · rw [exec_nop_eq w _ hc hs (by rw [h]; rfl)]; exact hv
  · rcases state_cases _ hs4 with h | h | h | h
    · rw [exec_nop_eq w _ hc hs (by rw [h]; rfl)]; exact hv
    · rw [exec_nop_eq w _ hc hs (by rw [h]; rfl)]; exact hv
    · rw [exec_nop_eq w _ hc hs (by rw [h]; rfl)]; exact hv
    · rw [exec_resume_eq w h, (apply_bits_view _ _ _).2.1]; exact hv

/-- Counterexample to C23 as stated: stopped (state OFF) with the safety gate tripped, one
tick leaves the logical state PAUSE although the state before the tick was neither PAUSE nor
a rotation. -/
theorem C23_counterexample :
    idle_estop_world.ENABLE_INTERLOCK_AND_ESTOP = true ∧
    idle_estop_world.estop_state ≠ 0 ∧
    idle_estop_world.spindle.state = SPINDLE_OFF ∧
    idle_estop_world.spindle.state ≠ SPINDLE_PAUSE ∧
    ¬ (idle_estop_world.spindle.state = SPINDLE_CW ∨
        idle_estop_world.spindle.state = SPINDLE_CCW) ∧
    (do_spindle_speed_ramp_from_systick idle_estop_world).2.spindle.state = SPINDLE_PAUSE := by
  refine ⟨rfl, by decide, rfl, by decide, by decide, ?_⟩
  rw [tick_gate_tripped idle_estop_world rfl (Or.inl (by decide))]

/-- The direction after `spindle_init` is the normalised direction. -/
theorem spindle_init_direction (cfg : Settings) (w : World) :
    (spindle_init cfg w).spindle.direction = (SPINDLE_DIRECTION_ASSERT w).spindle.direction := by
  unfold spindle_init
  simp only
  split_ifs <;> rfl

/-- C24: after `spindle_init`, and after every `_exec_spindle_control` call that passes its
two guards, the stored direction is CW or CCW; the normalisation replaces a value outside
{CW, CCW} by CW and leaves a value in {CW, CCW} as it is. -/
theorem C24_direction_normalised (cfg : Settings) (w : World) (control : Nat) :
    ((spindle_init cfg w).spindle.direction = SPINDLE_CW ∨
      (spindle_init cfg w).spindle.direction = SPINDLE_CCW) ∧
    (¬ control > SPINDLE_ACTION_MAX → ¬ w.spindle.state ≥ SPINDLE_ACTION_MAX →
      ((_exec_spindle_control control w).spindle.direction = SPINDLE_CW ∨
        (_exec_spindle_control control w).spindle.direction = SPINDLE_CCW)) ∧
    (¬ (w.spindle.direction = SPINDLE_CW ∨ w.spindle.direction = SPINDLE_CCW) →
      (SPINDLE_DIRECTION_ASSERT w).spindle.direction = SPINDLE_CW ∧
      (spindle_init cfg w).spindle.direction = SPINDLE_CW) ∧
    (w.spindle.direction = SPINDLE_CW ∨ w.spindle.direction = SPINDLE_CCW →
      SPINDLE_DIRECTION_ASSERT w = w ∧
      (spindle_init cfg w).spindle.direction = w.spindle.direction) := by
  refine ⟨?_, exec_direction_valid w control, ?_, ?_⟩
  · rw [spindle_init_direction]; exact direction_assert_valid w
  · intro hn
    have h1 : (SPINDLE_DIRECTION_ASSERT w).spindle.direction = SPINDLE_CW := by
      unfold SPINDLE_DIRECTION_ASSERT
      rw [if_pos]
      simp only [SPINDLE_CW, SPINDLE_CCW] at *
      omega
    exact ⟨h1, by rw [spindle_init_direction, h1]⟩
  · intro hv
    have h1 := direction_assert_of_valid w hv
    exact ⟨h1, by rw [spindle_init_direction, h1]⟩

/-- C25: with a valid stored direction, for every state/control pair whose table entry is
NOP the call leaves the whole world unchanged, the call log included: no field of the
actuator state changes, neither output is written, no duty is set and no dwell is
requested; RESUME in any state other than PAUSE changes nothing. -/
theorem C25_nop_changes_nothing (w : World)
    (hdir : w.spindle.direction = SPINDLE_CW ∨ w.spindle.direction = SPINDLE_CCW) :
    (∀ control, (w.spindle.state, control) ∈ nop_pairs →
      _exec_spindle_control control w = w) ∧
    (w.spindle.state ≠ SPINDLE_PAUSE → _exec_spindle_control SPINDLE_RESUME w = w) := by
  constructor
  · intro control hp
    obtain ⟨hn, hc, hs⟩ := nop_pairs_lookup _ _ hp
    rw [exec_nop_eq w control hc hs hn, direction_assert_of_valid w hdir]
  · intro hne
    by_cases hs : w.spindle.state ≥ SPINDLE_ACTION_MAX
    · exact exec_guarded_eq w _ (Or.inr hs)
    · have hn : matrix_lookup w.spindle.state SPINDLE_RESUME = some SPINDLE_NOP := by
        rcases state_cases _ (not_le.mp hs) with h | h | h | h
        · rw [h]; rfl
        · rw [h]; rfl
        · rw [h]; rfl
        · exact absurd h hne
      rw [exec_nop_eq w _ (by decide) hs hn, direction_assert_of_valid w hdir]

/-- C26 (amended): when the logical state is outside the four valid values the call does not
index the transition table: it returns at the guard and leaves the whole world unchanged,
the logical state and the stored direction included, for every control. -/
theorem C26_out_of_range_state_returns (w : World) (control : Nat)
    (h : w.spindle.state ≥ SPINDLE_ACTION_MAX) :
    _exec_spindle_control control w = w :=
  exec_guarded_eq w control (Or.inr h)

/-- C27: with pause-on-hold (`pause_enable`) false, `spindle_control_sync(SPINDLE_PAUSE)`
returns `STAT_OK`, queues no command and leaves the world unchanged. -/
theorem C27_pause_suppressed (w : World) (h : w.spindle.pause_enable = false) :
    (spindle_control_sync SPINDLE_PAUSE w).1 = stat_t.STAT_OK ∧
    (spindle_control_sync SPINDLE_PAUSE w).2.1 = w ∧
    (spindle_control_sync SPINDLE_PAUSE w).2.2 = [] := by
  unfold spindle_control_sync
  rw [if_pos ⟨rfl, h⟩]
  exact ⟨rfl, rfl, rfl⟩

/-! ## Stopping, and the clamp of the target -/

/-- The PAUSE control in a rotating state, in closed form. -/
theorem exec_pause_closed (w : World)
    (h : w.spindle.state = SPINDLE_CW ∨ w.spindle.state = SPINDLE_CCW) :
    _exec_spindle_control SPINDLE_PAUSE w =
      { w with
        spindle := { w.spindle with
          direction := (SPINDLE_DIRECTION_ASSERT w).spindle.direction
          state := SPINDLE_PAUSE
          speed_actual := 0 }
        spindle_enable_output := setValue w.spindle_enable_output 0
        log := w.log
          ++ (if w.spindle_enable_output.isSome then [Event.setEnable 0] else [])
          ++ [Event.pwm_set_duty (some w.pwm.phase_off)] } := by
  rw [exec_pause_eq w h, apply_bits_stopped _ _ _ (by simp [SPINDLE_PAUSE, SPINDLE_CW])
    (by simp [SPINDLE_PAUSE, SPINDLE_CCW])]
  conv_lhs => rw [direction_assert_frame w]
  simp

/-- C28: for every valid starting state, after `_exec_spindle_control` applies an OFF action
(control OFF) or a PAUSE action (control PAUSE in CW or CCW) the actual speed is 0 and the
calls made are output writes followed by one duty, the off phase: no dwell is requested. -/
theorem C28_off_and_pause_zero_speed (w : World) (control : Nat)
    (h : (control = SPINDLE_OFF ∧ w.spindle.state < SPINDLE_ACTION_MAX) ∨
      (control = SPINDLE_PAUSE ∧
        (w.spindle.state = SPINDLE_CW ∨ w.spindle.state = SPINDLE_CCW))) :
    (_exec_spindle_control control w).spindle.speed_actual = 0 ∧
    ∃ outs, (_exec_spindle_control control w).log
        = w.log ++ outs ++ [Event.pwm_set_duty (some w.pwm.phase_off)] ∧
      ∀ e ∈ outs, e.isDwell = false := by
  rcases h with ⟨rfl, hs⟩ | ⟨rfl, hrot⟩
  · rw [exec_off_closed w hs]
    refine ⟨rfl, (if w.spindle_direction_output.isSome then
        [Event.setDirection (((SPINDLE_DIRECTION_ASSERT w).spindle.direction : Int) - 1)]
      else []) ++ (if w.spindle_enable_output.isSome then [Event.setEnable 0] else []), ?_, ?_⟩
    · simp only [List.append_assoc]
    · intro e he
      rw [List.mem_append] at he
      rcases he with he | he <;> split_ifs at he <;>
        first
        | (rw [List.mem_singleton] at he; rw [he]; rfl)
        | exact absurd he (List.not_mem_nil _)
  · rw [exec_pause_closed w hrot]
    refine ⟨rfl, if w.spindle_enable_output.isSome then [Event.setEnable 0] else [], rfl, ?_⟩
    intro e he
    split_ifs at he
    · rw [List.mem_singleton] at he; rw [he]; rfl
    · exact absurd he (List.not_mem_nil _)

/-- C29, the failing inputs evaluated: paused (state PAUSE), and likewise stopped (state
OFF), with actual speed 0, target 3000, ramp step 1000 and the gate safe, one tick moves the
actual speed to 1000 while the logical state stays PAUSE, respectively OFF. -/
theorem C29_tick_ramps_while_stopped :
    paused_world.spindle.state = SPINDLE_PAUSE ∧
    paused_world.ENABLE_INTERLOCK_AND_ESTOP = true ∧
    paused_world.estop_state = 0 ∧ paused_world.safety_state = 0 ∧
    paused_world.spindle.speed_actual = 0 ∧
    (do_spindle_speed_ramp_from_systick paused_world).2.spindle.state = SPINDLE_PAUSE ∧
    (do_spindle_speed_ramp_from_systick paused_world).2.spindle.speed_actual = 1000 ∧
    (do_spindle_speed_ramp_from_systick paused_world).2.spindle.speed_actual
      ≠ paused_world.spindle.speed_actual ∧
    sample_world.spindle.state = SPINDLE_OFF ∧
    sample_world.spindle.speed_actual = 0 ∧
    (do_spindle_speed_ramp_from_systick sample_world).2.spindle.state = SPINDLE_OFF ∧
    (do_spindle_speed_ramp_from_systick sample_world).2.spindle.speed_actual = 1000 := by
  norm_num [do_spindle_speed_ramp_from_systick, set_duty_from_spindle, pwm_set_duty,
    _get_spindle_pwm, fp_EQ, paused_world, sample_world, sample_spindle, sample_pwm,
    SPINDLE_CW, SPINDLE_CCW, SPINDLE_OFF, SPINDLE_PAUSE, abs_of_neg, abs_of_pos]

/-- With ordered end speeds the two clamping statements leave the target at or above the
lower speed. -/
theorem clamp_target_ge (lo hi x : ℚ) (h : lo ≤ hi) : lo ≤ clamp_target lo hi x := by
  unfold clamp_target
  simp only
  split_ifs <;> linarith

/-- Sending the duty never writes the target speed. -/
theorem set_duty_speed (w : World) :
    (set_duty_from_spindle w).spindle.speed = w.spindle.speed := by
  rw [set_duty_eq]
  simp only
  rw [get_pwm_record]

/-- A tick never writes the target speed. -/
theorem tick_speed (w : World) :
    (do_spindle_speed_ramp_from_systick w).2.spindle.speed = w.spindle.speed := by
  unfold do_spindle_speed_ramp_from_systick
  simp only
  split_ifs <;> first | rfl | exact set_duty_speed _

/-- No number of ticks writes the target speed. -/
theorem ticks_speed (w : World) (n : Nat) : (ticks n w).spindle.speed = w.spindle.speed := by
  induction n with
  | zero => rfl
  | succ n ih =>
    show (do_spindle_speed_ramp_from_systick (ticks n w)).2.spindle.speed = _
    rw [tick_speed, ih]

/-- In a rotating state `_actually_set_spindle_speed` leaves the actual speed at or below
the upper speed of the curve of the state. -/
theorem actually_set_actual_le (w : World)
    (h : w.spindle.state = SPINDLE_CW ∨ w.spindle.state = SPINDLE_CCW) :
    (_actually_set_spindle_speed w).spindle.speed_actual
      ≤ curve_speed_hi w.spindle.state w.pwm := by
  rw [actually_set_rotating w h, request_dwell_spindle, set_duty_eq]
  simp only
  rw [get_pwm_record, speeds_before_duty_eq]
  simp only
  have hc := clamp_target_le (curve_speed_lo w.spindle.state w.pwm)
    (curve_speed_hi w.spindle.state w.pwm) w.spindle.speed
  split_ifs <;> linarith

/-- C30: for every prior target speed and every curve with `speed_lo ≤ speed_hi`, after
`_actually_set_spindle_speed` runs in a rotating state the target speed lies in
`[speed_lo, speed_hi]` of the curve of that state and the actual speed is at most
`speed_hi`; the logical state is unchanged and no later tick writes the target, so every
later tick ramps toward a target inside that range, which is the range of the duty mapper's
curve when the stored direction equals the state. -/
theorem C30_target_clamped (w : World)
    (h : w.spindle.state = SPINDLE_CW ∨ w.spindle.state = SPINDLE_CCW)
    (hle : curve_speed_lo w.spindle.state w.pwm ≤ curve_speed_hi w.spindle.state w.pwm) :
    curve_speed_lo w.spindle.state w.pwm ≤ (_actually_set_spindle_speed w).spindle.speed ∧
    (_actually_set_spindle_speed w).spindle.speed ≤ curve_speed_hi w.spindle.state w.pwm ∧
    (_actually_set_spindle_speed w).spindle.speed_actual
      ≤ curve_speed_hi w.spindle.state w.pwm ∧
    (_actually_set_spindle_speed w).spindle.state = w.spindle.state ∧
    (_actually_set_spindle_speed w).pwm = w.pwm ∧
    (∀ n, (ticks n (_actually_set_spindle_speed w)).spindle.speed
      = (_actually_set_spindle_speed w).spindle.speed) ∧
    (w.spindle.direction = w.spindle.state →
      curve_speed_lo (_actually_set_spindle_speed w).spindle.direction
          (_actually_set_spindle_speed w).pwm
        ≤ (_actually_set_spindle_speed w).spindle.speed ∧
      (_actually_set_spindle_speed w).spindle.speed
        ≤ curve_speed_hi (_actually_set_spindle_speed w).spindle.direction
            (_actually_set_spindle_speed w).pwm) := by
  have ht := actually_set_target w h
  obtain ⟨sp, sa, lg, hfr⟩ := actually_set_frame w
  have hstate : (_actually_set_spindle_speed w).spindle.state = w.spindle.state := by rw [hfr]
  have hdirn : (_actually_set_spindle_speed w).spindle.direction = w.spindle.direction := by
    rw [hfr]
  have hpwm : (_actually_set_spindle_speed w).pwm = w.pwm := by rw [hfr]
  have h1 : curve_speed_lo w.spindle.state w.pwm
      ≤ (_actually_set_spindle_speed w).spindle.speed := by
    rw [ht]; exact clamp_target_ge _ _ _ hle
  have h2 : (_actually_set_spindle_speed w).spindle.speed
      ≤ curve_speed_hi w.spindle.state w.pwm := by
    rw [ht]; exact clamp_target_le _ _ _
  refine ⟨h1, h2, actually_set_actual_le w h, hstate, hpwm, fun n => ticks_speed _ n, ?_⟩
  intro hd
  rw [hdirn, hpwm, hd]
  exact ⟨h1, h2⟩

/-! ## Concrete instances for the dispatcher properties -/

/-- Witness of C21: running CW at 3000, the target, with stored direction CW. -/
theorem C21_same_speed_no_dwell_witness :
    (rotating_world.spindle.state = SPINDLE_CW ∨ rotating_world.spindle.state = SPINDLE_CCW) ∧
    rotation_coherent rotating_world ∧
    0 ≤ rotating_world.EPSILON ∧
    (_exec_spindle_speed 3000 rotating_world).log
      = rotating_world.log
        ++ [Event.pwm_set_duty (_get_spindle_pwm rotating_world.spindle rotating_world.pwm).1] :=
  ⟨Or.inl rfl, fun _ => rfl, by norm_num [rotating_world, sample_world],
    (C21_same_speed_no_dwell rotating_world 3000 (Or.inl rfl) (fun _ => rfl)
      (by norm_num [clamp_target, curve_speed_lo, curve_speed_hi, rotating_world, sample_world,
        sample_spindle, sample_pwm, SPINDLE_CW])
      (by norm_num [rotating_world, sample_world])).1⟩

/-- Witness of C22 on the sample world: CW curve from 1000 to 10000, spin-up delay 1 second,
epsilon 0.00001. -/
theorem C22_spin_up_scenario_witness :
    sample_world.spindle.state = SPINDLE_OFF ∧
    sample_world.spindle.speed_change_per_tick = 1000 ∧
    (ticks 3 (run_speed_then_cw 3000 sample_world)).spindle.speed_actual = 3000 ∧
    (ticks 3 (run_speed_then_cw 3000 sample_world)).spindle.speed = 3000 :=
  ⟨rfl, rfl,
    (C22_spin_up_scenario sample_world rfl rfl rfl rfl
      (by norm_num [sample_world, sample_pwm]) (by norm_num [sample_world, sample_pwm])
      rfl rfl rfl (by norm_num [sample_world])
      (by norm_num [sample_world, sample_spindle])).2.2.2.2.2.2.1,
    (C22_spin_up_scenario sample_world rfl rfl rfl rfl
      (by norm_num [sample_world, sample_pwm]) (by norm_num [sample_world, sample_pwm])
      rfl rfl rfl (by norm_num [sample_world])
      (by norm_num [sample_world, sample_spindle])).2.2.2.2.2.2.2.1⟩

/-- Witness of C25: the CW control while running CW with stored direction CW. -/
theorem C25_nop_changes_nothing_witness :
    (rotating_world.spindle.direction = SPINDLE_CW ∨
      rotating_world.spindle.direction = SPINDLE_CCW) ∧
    (rotating_world.spindle.state, SPINDLE_CW) ∈ nop_pairs ∧
    _exec_spindle_control SPINDLE_CW rotating_world = rotating_world :=
  ⟨Or.inl rfl, by decide,
    (C25_nop_changes_nothing rotating_world (Or.inl rfl)).1 SPINDLE_CW (by decide)⟩

/-- Counterexample to C26 as stated: with logical state 7 and stored direction 0 the OFF
control leaves the logical state 7, not OFF, and the direction 0, not a valid value. -/
theorem C26_counterexample :
    corrupt_world.spindle.state ≥ SPINDLE_ACTION_MAX ∧
    (_exec_spindle_control SPINDLE_OFF corrupt_world).spindle.state = 7 ∧
    (_exec_spindle_control SPINDLE_OFF corrupt_world).spindle.state ≠ SPINDLE_OFF ∧
    (_exec_spindle_control SPINDLE_OFF corrupt_world).spindle.direction = 0 ∧
    ¬ ((_exec_spindle_control SPINDLE_OFF corrupt_world).spindle.direction = SPINDLE_CW ∨
        (_exec_spindle_control SPINDLE_OFF corrupt_world).spindle.direction = SPINDLE_CCW) := by
  have h : _exec_spindle_control SPINDLE_OFF corrupt_world = corrupt_world := by
    unfold _exec_spindle_control
    rw [if_neg (by decide), if_pos (by decide)]
  rw [h]
  exact ⟨by decide, rfl, by decide, rfl, by decide⟩

/-- Witness of C26 (amended) on the world with logical state 7. -/
theorem C26_out_of_range_state_returns_witness :
    corrupt_world.spindle.state ≥ SPINDLE_ACTION_MAX ∧
    _exec_spindle_control SPINDLE_OFF corrupt_world = corrupt_world :=
  ⟨by decide, C26_out_of_range_state_returns corrupt_world SPINDLE_OFF (by decide)⟩

/-- Witness of C27 on a world running CW with pause-on-hold off. -/
theorem C27_pause_suppressed_witness :
    no_pause_world.spindle.pause_enable = false ∧
    (spindle_control_sync SPINDLE_PAUSE no_pause_world).1 = stat_t.STAT_OK ∧
    (spindle_control_sync SPINDLE_PAUSE no_pause_world).2.2 = [] :=
  ⟨rfl, (C27_pause_suppressed no_pause_world rfl).1, (C27_pause_suppressed no_pause_world rfl).2.2⟩

/-- Witness of C28: the PAUSE control while running CW at 3000. -/
theorem C28_off_and_pause_zero_speed_witness :
    (rotating_world.spindle.state = SPINDLE_CW ∨ rotating_world.spindle.state = SPINDLE_CCW) ∧
    (_exec_spindle_control SPINDLE_PAUSE rotating_world).spindle.speed_actual = 0 :=
  ⟨Or.inl rfl,
    (C28_off_and_pause_zero_speed rotating_world SPINDLE_PAUSE
      (Or.inr ⟨rfl, Or.inl rfl⟩)).1⟩

/-- Witness of C30: running CW with target 20000 and actual speed 12000 on the CW curve from
1000 to 10000, applying the speed leaves both at most 10000. -/
theorem C30_target_clamped_witness :
    (hot_world.spindle.state = SPINDLE_CW ∨ hot_world.spindle.state = SPINDLE_CCW) ∧
    curve_speed_lo hot_world.spindle.state hot_world.pwm
      ≤ curve_speed_hi hot_world.spindle.state hot_world.pwm ∧
    (_actually_set_spindle_speed hot_world).spindle.speed
      ≤ curve_speed_hi hot_world.spindle.state hot_world.pwm ∧
    (_actually_set_spindle_speed hot_world).spindle.speed_actual
      ≤ curve_speed_hi hot_world.spindle.state hot_world.pwm :=
  ⟨Or.inl rfl,
    by norm_num [curve_speed_lo, curve_speed_hi, hot_world, hot_spindle, sample_world,
      sample_spindle, sample_pwm, SPINDLE_CW],
    (C30_target_clamped hot_world (Or.inl rfl)
      (by norm_num [curve_speed_lo, curve_speed_hi, hot_world, hot_spindle, sample_world,
        sample_spindle, sample_pwm, SPINDLE_CW])).2.1,
    (C30_target_clamped hot_world (Or.inl rfl)
      (by norm_num [curve_speed_lo, curve_speed_hi, hot_world, hot_spindle, sample_world,
        sample_spindle, sample_pwm, SPINDLE_CW])).2.2.1⟩

/-! ## Actions of the control executor -/

/-- A table entry CW, CCW or REVERSE inside the guards belongs to a rotation control in a
state other than that rotation. -/
theorem rotation_entry_cases (state control : Nat) (hc : control ≤ SPINDLE_ACTION_MAX)
    (hs : state < SPINDLE_ACTION_MAX)
    (ha : matrix_lookup state control = some SPINDLE_CW ∨
      matrix_lookup state control = some SPINDLE_CCW ∨
      matrix_lookup state control = some SPINDLE_REV) :
    (control = SPINDLE_CW ∨ control = SPINDLE_CCW) ∧ state ≠ control := by
  have hcs : control = 0 ∨ control = 1 ∨ control = 2 ∨ control = 3 ∨ control = 4 := by
    simp only [SPINDLE_ACTION_MAX, SPINDLE_RESUME] at hc
    omega
  have hss : state = 0 ∨ state = 1 ∨ state = 2 ∨ state = 3 := by
    simp only [SPINDLE_ACTION_MAX, SPINDLE_RESUME] at hs
    omega
  rcases hss with rfl | rfl | rfl | rfl <;> rcases hcs with rfl | rfl | rfl | rfl | rfl <;>
    simp [matrix_lookup, matrix, SPINDLE_OFF, SPINDLE_CW, SPINDLE_CCW, SPINDLE_PAUSE,
      SPINDLE_RESUME, SPINDLE_NOP, SPINDLE_REV] at ha ⊢

/-- The log after `_actually_set_spindle_speed` extends the log before it. -/
theorem actually_set_log (w : World) :
    ∃ tail, (_actually_set_spindle_speed w).log = w.log ++ tail := by
  by_cases h : w.spindle.state = SPINDLE_CW ∨ w.spindle.state = SPINDLE_CCW
  · rw [actually_set_rotating w h]
    unfold request_dwell mp_request_out_of_band_dwell
    split_ifs
    · exact ⟨_, by rw [set_duty_eq]; simp only [List.append_assoc]; rfl⟩
    · exact ⟨_, by rw [set_duty_eq]; simp only [List.append_assoc]; rfl⟩
    · exact ⟨_, by rw [set_duty_eq]⟩
  · rw [actually_set_stopped w (fun hc => h (Or.inl hc)) (fun hc => h (Or.inr hc))]
    exact ⟨_, rfl⟩

/-- C31: for every valid starting state with a valid stored direction, the OFF action (control
OFF) sets the logical state OFF, drives the enable output to 0 and drives the direction output
with the stored direction minus 1; the PAUSE action (control PAUSE in CW or CCW) sets the
logical state PAUSE, drives the enable output to 0 and does not write the direction output;
both leave the stored direction and the target speed unchanged. -/
theorem C31_off_and_pause_actions (w : World) (hs : w.spindle.state < SPINDLE_ACTION_MAX)
    (hd : w.spindle.direction = SPINDLE_CW ∨ w.spindle.direction = SPINDLE_CCW) :
    _exec_spindle_control SPINDLE_OFF w =
      { w with
        spindle := { w.spindle with state := SPINDLE_OFF, speed_actual := 0 }
        spindle_direction_output :=
          setValue w.spindle_direction_output ((w.spindle.direction : Int) - 1)
        spindle_enable_output := setValue w.spindle_enable_output 0
        log := w.log
          ++ (if w.spindle_direction_output.isSome then
                [Event.setDirection ((w.spindle.direction : Int) - 1)]
              else [])
          ++ (if w.spindle_enable_output.isSome then [Event.setEnable 0] else [])
          ++ [Event.pwm_set_duty (some w.pwm.phase_off)] } ∧
    (_exec_spindle_control SPINDLE_OFF w).spindle.state = SPINDLE_OFF ∧
    (∀ o ∈ (_exec_spindle_control SPINDLE_OFF w).spindle_enable_output, o.value = 0) ∧
    (∀ o ∈ (_exec_spindle_control SPINDLE_OFF w).spindle_direction_output,
      o.value = (w.spindle.direction : Int) - 1) ∧
    (_exec_spindle_control SPINDLE_OFF w).spindle.direction = w.spindle.direction ∧
    (_exec_spindle_control SPINDLE_OFF w).spindle.speed = w.spindle.speed ∧
    (w.spindle.state = SPINDLE_CW ∨ w.spindle.state = SPINDLE_CCW →
      _exec_spindle_control SPINDLE_PAUSE w =
        { w with
          spindle := { w.spindle with state := SPINDLE_PAUSE, speed_actual := 0 }
          spindle_enable_output := setValue w.spindle_enable_output 0
          log := w.log
            ++ (if w.spindle_enable_output.isSome then [Event.setEnable 0] else [])
            ++ [Event.pwm_set_duty (some w.pwm.phase_off)] } ∧
      (_exec_spindle_control SPINDLE_PAUSE w).spindle.state = SPINDLE_PAUSE ∧
      (∀ o ∈ (_exec_spindle_control SPINDLE_PAUSE w).spindle_enable_output, o.value = 0) ∧
      (_exec_spindle_control SPINDLE_PAUSE w).spindle_direction_output
        = w.spindle_direction_output ∧
      (_exec_spindle_control SPINDLE_PAUSE w).spindle.direction = w.spindle.direction ∧
      (_exec_spindle_control SPINDLE_PAUSE w).spindle.speed = w.spindle.speed) := by
  have hoff := exec_off_closed w hs
  rw [direction_assert_of_valid w hd] at hoff
  refine ⟨hoff, by rw [hoff], ?_, ?_, by rw [hoff], by rw [hoff], ?_⟩
  · rw [hoff]; exact setValue_value _ _
  · rw [hoff]; exact setValue_value _ _
  · intro hrot
    have hp := exec_pause_closed w hrot
    rw [direction_assert_of_valid w hd] at hp
    refine ⟨hp, by rw [hp], ?_, by rw [hp], by rw [hp], by rw [hp]⟩
    rw [hp]; exact setValue_value _ _

/-- C32: for every state/control pair of the table whose entry is CW, CCW or REVERSE the
control C is CW or CCW, and `_exec_spindle_control` sets both the stored direction and the
logical state to C, drives the enable output to 1 and drives the direction output with C-1
(0 for CW, 1 for CCW); the two writes are the first calls it makes. -/
theorem C32_rotation_entries (w : World) (control : Nat)
    (hc : control ≤ SPINDLE_ACTION_MAX) (hs : w.spindle.state < SPINDLE_ACTION_MAX)
    (ha : matrix_lookup w.spindle.state control = some SPINDLE_CW ∨
      matrix_lookup w.spindle.state control = some SPINDLE_CCW ∨
      matrix_lookup w.spindle.state control = some SPINDLE_REV) :
    (control = SPINDLE_CW ∨ control = SPINDLE_CCW) ∧
    (_exec_spindle_control control w).spindle.direction = control ∧
    (_exec_spindle_control control w).spindle.state = control ∧
    (_exec_spindle_control control w).spindle_enable_output
      = setValue w.spindle_enable_output 1 ∧
    (_exec_spindle_control control w).spindle_direction_output
      = setValue w.spindle_direction_output ((control : Int) - 1) ∧
    (∀ o ∈ (_exec_spindle_control control w).spindle_enable_output, o.value = 1) ∧
    (∀ o ∈ (_exec_spindle_control control w).spindle_direction_output,
      o.value = if control = SPINDLE_CW then 0 else 1) ∧
    (∃ tail, (_exec_spindle_control control w).log = w.log
      ++ (if w.spindle_direction_output.isSome then
            [Event.setDirection (if control = SPINDLE_CW then 0 else 1)] else [])
      ++ (if w.spindle_enable_output.isSome then [Event.setEnable 1] else [])
      ++ tail) := by
  obtain ⟨hR, hne⟩ := rotation_entry_cases _ _ hc hs ha
  have hbit : ((control : Int) - 1) = if control = SPINDLE_CW then 0 else 1 := by
    rcases hR with rfl | rfl <;> simp [SPINDLE_CW, SPINDLE_CCW]
  have hnn : (control : Int) - 1 ≥ 0 := by
    rcases hR with rfl | rfl <;> simp [SPINDLE_CW, SPINDLE_CCW]
  have hX : ({ SPINDLE_DIRECTION_ASSERT w with
      spindle := { (SPINDLE_DIRECTION_ASSERT w).spindle with
        direction := control, state := control } } : World)
      = { w with spindle := { w.spindle with direction := control, state := control } } := by
    rw [direction_assert_frame w]
  have hex := exec_rotation_eq w control hs hR hne
  rw [hX] at hex
  obtain ⟨v1, v2, v3, v4⟩ := apply_bits_view 1 ((control : Int) - 1)
    { w with spindle := { w.spindle with direction := control, state := control } }
  rw [if_pos hnn] at v4
  rw [← hex] at v1 v2 v3 v4
  refine ⟨hR, v2, v1, v3, v4, ?_, ?_, ?_⟩
  · rw [v3]; exact setValue_value _ _
  · rw [v4, ← hbit]; exact setValue_value _ _
  · rw [hex, apply_bits_eq]
    obtain ⟨tail, ht⟩ := actually_set_log (write_bits 1 ((control : Int) - 1)
      { w with spindle := { w.spindle with direction := control, state := control } })
    refine ⟨tail, ?_⟩
    rw [ht, ← hbit]
    unfold write_bits
    simp [hnn]

/-- C33: REVERSE is carried out like a direct application.  For two worlds that differ only in
logical state and stored direction, the first rotating opposite to the rotation control R
(table entry REVERSE) and the second OFF (table entry R), executing R yields the same world:
the same actuator state, the same outputs and the same calls, duty and dwell request
included; it is the direct application of R to the first world. -/
theorem C33_reverse_is_direct_application (w1 w2 : World) (R : Nat)
    (hR : R = SPINDLE_CW ∨ R = SPINDLE_CCW)
    (h1 : w1.spindle.state = SPINDLE_CW ∨ w1.spindle.state = SPINDLE_CCW)
    (h1R : w1.spindle.state ≠ R)
    (h2 : w2.spindle.state = SPINDLE_OFF)
    (hsame : forget_rotation w1 = forget_rotation w2) :
    matrix_lookup w1.spindle.state R = some SPINDLE_REV ∧
    matrix_lookup w2.spindle.state R = some R ∧
    _exec_spindle_control R w1 = _exec_spindle_control R w2 ∧
    _exec_spindle_control R w1 =
      apply_bits 1 ((R : Int) - 1)
        { w1 with spindle := { w1.spindle with direction := R, state := R } } := by
  have hs1 : w1.spindle.state < SPINDLE_ACTION_MAX := by
    rcases h1 with h | h <;> rw [h] <;> decide
  have hs2 : w2.spindle.state < SPINDLE_ACTION_MAX := by rw [h2]; decide
  have h2R : w2.spindle.state ≠ R := by
    rw [h2]; rcases hR with rfl | rfl <;> decide
  have e1 : ({ SPINDLE_DIRECTION_ASSERT w1 with
      spindle := { (SPINDLE_DIRECTION_ASSERT w1).spindle with direction := R, state := R } } : World)
      = { forget_rotation w1 with
          spindle := { (forget_rotation w1).spindle with direction := R, state := R } } := by
    rw [direction_assert_frame w1]
    rfl
  have e2 : ({ SPINDLE_DIRECTION_ASSERT w2 with
      spindle := { (SPINDLE_DIRECTION_ASSERT w2).spindle with direction := R, state := R } } : World)
      = { forget_rotation w2 with
          spindle := { (forget_rotation w2).spindle with direction := R, state := R } } := by
    rw [direction_assert_frame w2]
    rfl
  have e3 : ({ SPINDLE_DIRECTION_ASSERT w1 with
      spindle := { (SPINDLE_DIRECTION_ASSERT w1).spindle with direction := R, state := R } } : World)
      = { w1 with spindle := { w1.spindle with direction := R, state := R } } := by
    rw [direction_assert_frame w1]
  refine ⟨?_, ?_, ?_, ?_⟩
  · rcases hR with rfl | rfl <;> rcases h1 with h | h <;>
      first
      | exact absurd h h1R
      | (rw [h]; rfl)
  · rw [h2]; rcases hR with rfl | rfl <;> rfl
  · rw [exec_rotation_eq w1 R hs1 hR h1R, exec_rotation_eq w2 R hs2 hR h2R, e1, e2, hsame]
  · rw [exec_rotation_eq w1 R hs1 hR h1R, e3]

/-! ## Override control and speed admission, in closed form -/

/-- The tail of the override control stores the enable state and nothing else. -/
theorem override_commit_eq (e o : Bool) (w : World) :
    override_commit e o w =
      (stat_t.STAT_OK, { w with spindle := { w.spindle with override_enable := e } }) := by
  unfold override_commit spindle_start_override spindle_end_override
  simp only
  split_ifs <;> rfl

/-- C34: the effects of a successful `spindle_override_control` call.  With no P word the
override enable becomes true and nothing else changes; with a P word that is zero (by the
driver's zero test, which the value 0 passes for a positive epsilon) the override enable
becomes false and nothing else changes; with a P word in [0.05, 2.00] (not zero by that
test, as is every such P for an epsilon of at most 0.05) the override enable becomes true,
the override factor becomes P and nothing else changes.  These are the only successful
calls; the target speed, the actual speed and the logical state are unchanged for every
world, whatever its master enable `m48_enable`. -/
theorem C34_override_success_effects (P_word : ℚ) (w : World) :
    spindle_override_control P_word false w =
      (stat_t.STAT_OK, { w with spindle := { w.spindle with override_enable := true } }) ∧
    (fp_ZERO w.EPSILON P_word = true →
      spindle_override_control P_word true w =
        (stat_t.STAT_OK, { w with spindle := { w.spindle with override_enable := false } })) ∧
    (0 < w.EPSILON →
      spindle_override_control 0 true w =
        (stat_t.STAT_OK, { w with spindle := { w.spindle with override_enable := false } })) ∧
    (fp_ZERO w.EPSILON P_word = false → 5 / 100 ≤ P_word → P_word ≤ 2 →
      spindle_override_control P_word true w =
        (stat_t.STAT_OK, { w with spindle := { w.spindle with
          override_factor := P_word, override_enable := true } })) ∧
    (w.EPSILON ≤ 5 / 100 → 5 / 100 ≤ P_word → P_word ≤ 2 →
      spindle_override_control P_word true w =
        (stat_t.STAT_OK, { w with spindle := { w.spindle with
          override_factor := P_word, override_enable := true } })) ∧
    (∀ P_flag, (spindle_override_control P_word P_flag w).1 = stat_t.STAT_OK →
      (P_flag = false ∨ fp_ZERO w.EPSILON P_word = true ∨
        (5 / 100 ≤ P_word ∧ P_word ≤ 2))) ∧
    (∀ P_flag,
      (spindle_override_control P_word P_flag w).2.spindle.speed = w.spindle.speed ∧
      (spindle_override_control P_word P_flag w).2.spindle.speed_actual
        = w.spindle.speed_actual ∧
      (spindle_override_control P_word P_flag w).2.spindle.state = w.spindle.state ∧
      (spindle_override_control P_word P_flag w).2.m48_enable = w.m48_enable ∧
      (spindle_override_control P_word P_flag w).2.log = w.log) := by
  have hrange : fp_ZERO w.EPSILON P_word = false → 5 / 100 ≤ P_word → P_word ≤ 2 →
      spindle_override_control P_word true w =
        (stat_t.STAT_OK, { w with spindle := { w.spindle with
          override_factor := P_word, override_enable := true } }) := by
    intro hz h1 h2
    unfold spindle_override_control
    rw [if_pos rfl, fp_ZERO_arg_num, hz, if_neg (by simp),
      if_neg (by rw [float.num_lt_num, SPINDLE_OVERRIDE_MIN]; exact not_lt.mpr h1),
      if_neg (by rw [gt_iff_lt, float.num_lt_num, SPINDLE_OVERRIDE_MAX]; exact not_lt.mpr h2),
      override_commit_eq]
  have hzero : ∀ P, fp_ZERO w.EPSILON P = true →
      spindle_override_control P true w =
        (stat_t.STAT_OK, { w with spindle := { w.spindle with override_enable := false } }) := by
    intro P hz
    unfold spindle_override_control
    rw [if_pos rfl, fp_ZERO_arg_num, if_pos hz, override_commit_eq]
  refine ⟨?_, hzero P_word, ?_, hrange, ?_, ?_, ?_⟩
  · unfold spindle_override_control
    rw [if_neg (by simp), override_commit_eq]
  · intro hpos
    exact hzero 0 (by simp [fp_ZERO, hpos])
  · intro he h1 h2
    refine hrange ?_ h1 h2
    unfold fp_ZERO
    rw [decide_eq_false_iff_not, not_lt, abs_of_pos (by linarith)]
    linarith
  · intro P_flag hok
    cases P_flag with
    | false => exact Or.inl rfl
    | true =>
      right
      cases hz : fp_ZERO w.EPSILON P_word with
      | true => exact Or.inl rfl
      | false =>
        right
        unfold spindle_override_control at hok
        rw [if_pos rfl, fp_ZERO_arg_num, hz, if_neg (by simp)] at hok
        simp only [gt_iff_lt, float.num_lt_num] at hok
        by_cases c1 : P_word < SPINDLE_OVERRIDE_MIN
        · rw [if_pos c1] at hok
          exact absurd hok (by simp)
        · rw [if_neg c1] at hok
          by_cases c2 : SPINDLE_OVERRIDE_MAX < P_word
          · rw [if_pos c2] at hok
            exact absurd hok (by simp)
          · rw [SPINDLE_OVERRIDE_MIN] at c1
            rw [SPINDLE_OVERRIDE_MAX] at c2
            exact ⟨not_lt.mp c1, not_lt.mp c2⟩
  · intro P_flag
    unfold spindle_override_control
    split_ifs <;> first | exact ⟨rfl, rfl, rfl, rfl, rfl⟩ | (rw [override_commit_eq]; exact ⟨rfl, rfl, rfl, rfl, rfl⟩)

/-- C35: for every accepted speed (`speed_min <= speed <= speed_max`) `spindle_set_speed`
returns `STAT_OK` and records the speed in the G-code model only: the spindle record, its
target speed, actual speed and logical state included, is unchanged and no call is made. -/
theorem C35_set_speed_records_in_gcode_model (speed : ℚ) (w : World)
    (h1 : w.spindle.speed_min ≤ speed) (h2 : speed ≤ w.spindle.speed_max) :
    spindle_set_speed speed w = (stat_t.STAT_OK, { w with gm_spindle_speed := speed }) ∧
    (spindle_set_speed speed w).2.gm_spindle_speed = speed ∧
    (spindle_set_speed speed w).2.spindle = w.spindle ∧
    (spindle_set_speed speed w).2.spindle.speed = w.spindle.speed ∧
    (spindle_set_speed speed w).2.spindle.speed_actual = w.spindle.speed_actual ∧
    (spindle_set_speed speed w).2.spindle.state = w.spindle.state ∧
    (spindle_set_speed speed w).2.log = w.log := by
  have hok : _casey_jones speed w = stat_t.STAT_OK := by
    rw [casey_jones_num, if_neg (not_lt.mpr h1), if_neg (not_lt.mpr h2)]
  have h : spindle_set_speed speed w
      = (stat_t.STAT_OK, { w with gm_spindle_speed := speed }) := by
    unfold spindle_set_speed
    rw [if_neg (by rw [hok]; simp)]
  rw [h]
  exact ⟨rfl, rfl, rfl, rfl, rfl, rfl, rfl⟩

/-! ## The zero ramp step, and the invariants of state and direction -/

/-- With a ramp step of zero, a positive epsilon and the stored direction equal to the state
when rotating, `_actually_set_spindle_speed` leaves the actual speed on the target (both the
clamped target in a rotating state; actual speed 0 otherwise) and only sends the duty. -/
theorem actually_set_stepless (w : World) (hr0 : w.spindle.speed_change_per_tick = 0)
    (heps : 0 < w.EPSILON) (hco : rotation_coherent w) :
    ∃ sp sa d, _actually_set_spindle_speed w =
      { w with
        spindle := { w.spindle with speed := sp, speed_actual := sa }
        log := w.log ++ [Event.pwm_set_duty d] } ∧
      (w.spindle.state = SPINDLE_CW ∨ w.spindle.state = SPINDLE_CCW → sa = sp) := by
  by_cases h : w.spindle.state = SPINDLE_CW ∨ w.spindle.state = SPINDLE_CCW
  · have hz : fp_ZERO w.EPSILON w.spindle.speed_change_per_tick = true := by
      simp [fp_ZERO, hr0, heps]
    have hrec : speeds_before_duty w.EPSILON (curve_speed_lo w.spindle.state w.pwm)
        (curve_speed_hi w.spindle.state w.pwm) w.spindle
        = { w.spindle with
            speed := clamp_target (curve_speed_lo w.spindle.state w.pwm)
              (curve_speed_hi w.spindle.state w.pwm) w.spindle.speed
            speed_actual := clamp_target (curve_speed_lo w.spindle.state w.pwm)
              (curve_speed_hi w.spindle.state w.pwm) w.spindle.speed } := by
      rw [speeds_before_duty_eq]
      simp only [hz, if_true]
    have hsame := get_pwm_record_same
      { w.spindle with
        speed := clamp_target (curve_speed_lo w.spindle.state w.pwm)
          (curve_speed_hi w.spindle.state w.pwm) w.spindle.speed
        speed_actual := clamp_target (curve_speed_lo w.spindle.state w.pwm)
          (curve_speed_hi w.spindle.state w.pwm) w.spindle.speed } w.pwm
      (by
        show clamp_target _ _ _ ≤ curve_speed_hi w.spindle.direction w.pwm
        rw [hco h]
        exact clamp_target_le _ _ _)
    refine ⟨clamp_target (curve_speed_lo w.spindle.state w.pwm)
        (curve_speed_hi w.spindle.state w.pwm) w.spindle.speed,
      clamp_target (curve_speed_lo w.spindle.state w.pwm)
        (curve_speed_hi w.spindle.state w.pwm) w.spindle.speed,
      (_get_spindle_pwm
        { w.spindle with
          speed := clamp_target (curve_speed_lo w.spindle.state w.pwm)
            (curve_speed_hi w.spindle.state w.pwm) w.spindle.speed
          speed_actual := clamp_target (curve_speed_lo w.spindle.state w.pwm)
            (curve_speed_hi w.spindle.state w.pwm) w.spindle.speed } w.pwm).1,
      ?_, fun _ => rfl⟩
    rw [actually_set_rotating w h, hrec, set_duty_eq]
    simp only
    rw [hsame, request_dwell_quiet]
    · exact le_of_lt heps
    · rfl
  · refine ⟨w.spindle.speed, 0, some w.pwm.phase_off, ?_, fun hc => absurd hc h⟩
    rw [actually_set_stopped w (fun hc => h (Or.inl hc)) (fun hc => h (Or.inr hc))]

/-- C36: for every actuator state whose ramp step is zero (stored direction equal to the
logical state when that state is a rotation, as in every world the driver reaches; epsilon
positive), `_actually_set_spindle_speed` sends one duty and requests no dwell, whatever the
spin-up delay: in a rotating state the actual speed is snapped to the target before the dwell
test.  The same holds for every transition into a rotation made by `_exec_spindle_control`,
from OFF with a non-zero target included. -/
theorem C36_zero_step_no_dwell (w : World) (hr0 : w.spindle.speed_change_per_tick = 0)
    (heps : 0 < w.EPSILON) (hco : rotation_coherent w) :
    (∃ d, (_actually_set_spindle_speed w).log = w.log ++ [Event.pwm_set_duty d]) ∧
    (∀ e ∈ (_actually_set_spindle_speed w).log, e.isDwell = true → e ∈ w.log) ∧
    (w.spindle.state = SPINDLE_CW ∨ w.spindle.state = SPINDLE_CCW →
      (_actually_set_spindle_speed w).spindle.speed_actual
        = (_actually_set_spindle_speed w).spindle.speed) ∧
    (∀ R, R = SPINDLE_CW ∨ R = SPINDLE_CCW → w.spindle.state < SPINDLE_ACTION_MAX →
      w.spindle.state ≠ R →
      ∀ e ∈ (_exec_spindle_control R w).log, e.isDwell = true → e ∈ w.log) := by
  obtain ⟨sp, sa, d, hw, hsnap⟩ := actually_set_stepless w hr0 heps hco
  refine ⟨⟨d, by rw [hw]⟩, ?_, ?_, ?_⟩
  · intro e he hd
    rw [hw] at he
    simp only [List.mem_append, List.mem_singleton] at he
    rcases he with he | he
    · exact he
    · rw [he] at hd
      exact absurd hd (by simp [Event.isDwell])
  · intro hrot
    rw [hw]
    exact hsnap hrot
  · intro R hR hs hne e he hd
    have hX : ({ SPINDLE_DIRECTION_ASSERT w with
        spindle := { (SPINDLE_DIRECTION_ASSERT w).spindle with direction := R, state := R } } : World)
        = { w with spindle := { w.spindle with direction := R, state := R } } := by
      rw [direction_assert_frame w]
    rw [exec_rotation_eq w R hs hR hne, hX, apply_bits_eq] at he
    obtain ⟨sp2, sa2, d2, hw2, _⟩ := actually_set_stepless
      (write_bits 1 ((R : Int) - 1)
        { w with spindle := { w.spindle with direction := R, state := R } })
      hr0 heps (fun _ => rfl)
    rw [hw2] at he
    unfold write_bits at he
    simp only [List.mem_append, List.mem_singleton] at he
    rcases he with ((he | he) | he) | he
    · exact he
    · split_ifs at he
      · rw [List.mem_singleton] at he
        rw [he] at hd
        exact absurd hd (by simp [Event.isDwell])
      · exact absurd he (List.not_mem_nil _)
    · split_ifs at he
      · rw [List.mem_singleton] at he
        rw [he] at hd
        exact absurd hd (by simp [Event.isDwell])
      · exact absurd he (List.not_mem_nil _)
    · rw [he] at hd
      exact absurd hd (by simp [Event.isDwell])

/-- Sending the duty leaves the logical state and the stored direction alone. -/
theorem set_duty_state (w : World) :
    (set_duty_from_spindle w).spindle.state = w.spindle.state ∧
    (set_duty_from_spindle w).spindle.direction = w.spindle.direction := by
  rw [set_duty_eq]
  simp only
  rw [get_pwm_record]
  exact ⟨rfl, rfl⟩

/-- A tick leaves the logical state as it is or sets it to PAUSE, and leaves the stored
direction alone. -/
theorem tick_state_direction (w : World) :
    ((do_spindle_speed_ramp_from_systick w).2.spindle.state = w.spindle.state ∨
      (do_spindle_speed_ramp_from_systick w).2.spindle.state = SPINDLE_PAUSE) ∧
    (do_spindle_speed_ramp_from_systick w).2.spindle.direction = w.spindle.direction := by
  unfold do_spindle_speed_ramp_from_systick
  simp only
  split_ifs <;>
    first
    | exact ⟨Or.inl rfl, rfl⟩
    | exact ⟨Or.inl (set_duty_state _).1, (set_duty_state _).2⟩
    | exact ⟨Or.inr (set_duty_state _).1, (set_duty_state _).2⟩

/-- A speed command leaves the logical state and the stored direction alone. -/
theorem exec_speed_state (v : ℚ) (w : World) :
    (_exec_spindle_speed v w).spindle.state = w.spindle.state ∧
    (_exec_spindle_speed v w).spindle.direction = w.spindle.direction := by
  unfold _exec_spindle_speed
  obtain ⟨sp, sa, lg, h⟩ := actually_set_frame
    { w with spindle := { w.spindle with speed := v } }
  rw [h]
  exact ⟨rfl, rfl⟩

/-- The logical state after a control that passes both guards: unchanged (with the stored
direction normalised), OFF, PAUSE, or equal to the stored direction. -/
theorem exec_state_view (w : World) (control : Nat)
    (hc : ¬ control > SPINDLE_ACTION_MAX) (hs : ¬ w.spindle.state ≥ SPINDLE_ACTION_MAX) :
    ((_exec_spindle_control control w).spindle.state = w.spindle.state ∧
      (_exec_spindle_control control w).spindle.direction
        = (SPINDLE_DIRECTION_ASSERT w).spindle.direction) ∨
    (_exec_spindle_control control w).spindle.state = SPINDLE_OFF ∨
    (_exec_spindle_control control w).spindle.state = SPINDLE_PAUSE ∨
    (_exec_spindle_control control w).spindle.state
      = (_exec_spindle_control control w).spindle.direction := by
  have hs4 : w.spindle.state < SPINDLE_ACTION_MAX := not_le.mp hs
  have hcs : control = SPINDLE_OFF ∨ control = SPINDLE_CW ∨ control = SPINDLE_CCW ∨
      control = SPINDLE_PAUSE ∨ control = SPINDLE_RESUME := by
    simp only [SPINDLE_ACTION_MAX, SPINDLE_RESUME, SPINDLE_OFF, SPINDLE_CW, SPINDLE_CCW,
      SPINDLE_PAUSE] at *
    omega
  have hnop : ∀ c, ¬ c > SPINDLE_ACTION_MAX →
      matrix_lookup w.spindle.state c = some SPINDLE_NOP →
      ((_exec_spindle_control c w).spindle.state = w.spindle.state ∧
        (_exec_spindle_control c w).spindle.direction
          = (SPINDLE_DIRECTION_ASSERT w).spindle.direction) := by
    intro c hc1 hn
    rw [exec_nop_eq w c hc1 hs hn]
    exact ⟨(direction_assert_view w).1, rfl⟩
  have hrot : ∀ R, R = SPINDLE_CW ∨ R = SPINDLE_CCW →
      ((_exec_spindle_control R w).spindle.state = w.spindle.state ∧
        (_exec_spindle_control R w).spindle.direction
          = (SPINDLE_DIRECTION_ASSERT w).spindle.direction) ∨
      (_exec_spindle_control R w).spindle.state = SPINDLE_OFF ∨
      (_exec_spindle_control R w).spindle.state = SPINDLE_PAUSE ∨
      (_exec_spindle_control R w).spindle.state
        = (_exec_spindle_control R w).spindle.direction := by
    intro R hR
    by_cases hst : w.spindle.state = R
    · rw [exec_same_rotation_eq w R hR hst]
      exact Or.inl ⟨(direction_assert_view w).1, rfl⟩
    · rw [exec_rotation_eq w R hs4 hR hst, (apply_bits_view _ _ _).1, (apply_bits_view _ _ _).2.1]
      exact Or.inr (Or.inr (Or.inr rfl))
  have hpause : ∀ x : World, (apply_bits 0 (-1)
      { x with spindle := { x.spindle with state := SPINDLE_PAUSE } }).spindle.state
        = SPINDLE_PAUSE := fun x => (apply_bits_view _ _ _).1
  rcases hcs with rfl | rfl | rfl | rfl | rfl
  · rw [exec_off_eq w hs4, (apply_bits_view _ _ _).1]
    exact Or.inr (Or.inl rfl)
  · exact hrot _ (Or.inl rfl)
  · exact hrot _ (Or.inr rfl)
  · rcases state_cases _ hs4 with h | h | h | h
    · exact Or.inl (hnop _ hc (by rw [h]; rfl))
    · rw [exec_pause_eq w (Or.inl h)]; exact Or.inr (Or.inr (Or.inl (hpause _)))
    · rw [exec_pause_eq w (Or.inr h)]; exact Or.inr (Or.inr (Or.inl (hpause _)))
    · exact Or.inl (hnop _ hc (by rw [h]; rfl))
  · rcases state_cases _ hs4 with h | h | h | h
    · exact Or.inl (hnop _ hc (by rw [h]; rfl))
    · exact Or.inl (hnop _ hc (by rw [h]; rfl))
    · exact Or.inl (hnop _ hc (by rw [h]; rfl))
    · rw [exec_resume_eq w h, (apply_bits_view _ _ _).1, (apply_bits_view _ _ _).2.1]
      exact Or.inr (Or.inr (Or.inr rfl))

/-- The control executor preserves the agreement of stored direction and rotating state. -/
theorem exec_coherent (w : World) (control : Nat) (hco : rotation_coherent w) :
    rotation_coherent (_exec_spindle_control control w) := by
  by_cases hg : control > SPINDLE_ACTION_MAX ∨ w.spindle.state ≥ SPINDLE_ACTION_MAX
  · rw [exec_guarded_eq w control hg]; exact hco
  · have hc : ¬ control > SPINDLE_ACTION_MAX := fun h => hg (Or.inl h)
    have hs : ¬ w.spindle.state ≥ SPINDLE_ACTION_MAX := fun h => hg (Or.inr h)
    intro hrot
    rcases exec_state_view w control hc hs with ⟨h1, h2⟩ | h | h | h
    · rw [h1] at hrot ⊢
      rw [h2, direction_assert_of_valid w (by rw [hco hrot]; exact hrot)]
      exact hco hrot
    · rw [h] at hrot
      rcases hrot with h' | h' <;> exact absurd h' (by decide)
    · rw [h] at hrot
      rcases hrot with h' | h' <;> exact absurd h' (by decide)
    · exact h.symm

/-- The function `spindle_init` leaves the logical state alone. -/
theorem spindle_init_state (cfg : Settings) (w : World) :
    (spindle_init cfg w).spindle.state = w.spindle.state := by
  have h : (spindle_init cfg w).spindle.state = (SPINDLE_DIRECTION_ASSERT w).spindle.state := by
    unfold spindle_init
    simp only
    split_ifs <;> rfl
  rw [h, (direction_assert_view w).1]

/-- C37: the predicate "if the logical state is CW or CCW then the stored direction equals the
logical state" is preserved by `_exec_spindle_control` for every control value, by
`_exec_spindle_speed` and by `do_spindle_speed_ramp_from_systick`, hence by every sequence of
such calls; in every world so reached the target clamp (curve of the logical state) and the
duty mapper (curve of the stored direction) use the same curve in a rotating state.  The
predicate holds after `spindle_init` from a stopped world. -/
theorem C37_direction_agrees_with_rotation (w : World) (hco : rotation_coherent w) :
    (∀ control, rotation_coherent (_exec_spindle_control control w)) ∧
    (∀ v, rotation_coherent (_exec_spindle_speed v w)) ∧
    rotation_coherent (do_spindle_speed_ramp_from_systick w).2 ∧
    (∀ calls, rotation_coherent (run_calls calls w) ∧
      ((run_calls calls w).spindle.state = SPINDLE_CW ∨
          (run_calls calls w).spindle.state = SPINDLE_CCW →
        curve_speed_lo (run_calls calls w).spindle.state (run_calls calls w).pwm
          = curve_speed_lo (run_calls calls w).spindle.direction (run_calls calls w).pwm ∧
        curve_speed_hi (run_calls calls w).spindle.state (run_calls calls w).pwm
          = curve_speed_hi (run_calls calls w).spindle.direction (run_calls calls w).pwm)) ∧
    (∀ (x : World) (cfg : Settings), x.spindle.state = SPINDLE_OFF →
      rotation_coherent (spindle_init cfg x)) := by
  have hspeed : ∀ (x : World) v, rotation_coherent x →
      rotation_coherent (_exec_spindle_speed v x) := by
    intro x v hx hrot
    rw [(exec_speed_state v x).1] at hrot ⊢
    rw [(exec_speed_state v x).2]
    exact hx hrot
  have htick : ∀ x : World, rotation_coherent x →
      rotation_coherent (do_spindle_speed_ramp_from_systick x).2 := by
    intro x hx hrot
    obtain ⟨hst, hdir⟩ := tick_state_direction x
    rcases hst with h | h
    · rw [h] at hrot ⊢
      rw [hdir]
      exact hx hrot
    · rw [h] at hrot
      rcases hrot with h' | h' <;> exact absurd h' (by decide)
  have hrun : ∀ calls (x : World), rotation_coherent x →
      rotation_coherent (run_calls calls x) := by
    intro calls
    induction calls with
    | nil => exact fun x hx => hx
    | cons c cs ih =>
      intro x hx
      show rotation_coherent (run_calls cs (c.run x))
      apply ih
      cases c with
      | control k => exact exec_coherent x k hx
      | speed v => exact hspeed x v hx
      | tick => exact htick x hx
  refine ⟨fun c => exec_coherent w c hco, fun v => hspeed w v hco, htick w hco, ?_, ?_⟩
  · intro calls
    refine ⟨hrun calls w hco, fun hrot => ?_⟩
    rw [hrun calls w hco hrot]
    exact ⟨rfl, rfl⟩
  · intro x cfg hx hrot
    rw [spindle_init_state, hx] at hrot
    rcases hrot with h' | h' <;> exact absurd h' (by decide)

/-- C38: if the logical state is one of OFF, CW, CCW, PAUSE, it is still one of these four
after `_exec_spindle_control` with any control value and after a tick of
`do_spindle_speed_ramp_from_systick`: RESUME, NOP and REVERSE are never stored as a logical
state, and a control above `SPINDLE_ACTION_MAX` changes nothing. -/
theorem C38_state_stays_valid (w : World) (control : Nat)
    (hs : w.spindle.state < SPINDLE_ACTION_MAX) :
    ((_exec_spindle_control control w).spindle.state = SPINDLE_OFF ∨
      (_exec_spindle_control control w).spindle.state = SPINDLE_CW ∨
      (_exec_spindle_control control w).spindle.state = SPINDLE_CCW ∨
      (_exec_spindle_control control w).spindle.state = SPINDLE_PAUSE) ∧
    ((do_spindle_speed_ramp_from_systick w).2.spindle.state = SPINDLE_OFF ∨
      (do_spindle_speed_ramp_from_systick w).2.spindle.state = SPINDLE_CW ∨
      (do_spindle_speed_ramp_from_systick w).2.spindle.state = SPINDLE_CCW ∨
      (do_spindle_speed_ramp_from_systick w).2.spindle.state = SPINDLE_PAUSE) ∧
    ((_exec_spindle_control control w).spindle.state ≠ SPINDLE_RESUME ∧
      (_exec_spindle_control control w).spindle.state ≠ SPINDLE_NOP ∧
      (_exec_spindle_control control w).spindle.state ≠ SPINDLE_REV) ∧
    ((do_spindle_speed_ramp_from_systick w).2.spindle.state ≠ SPINDLE_RESUME ∧
      (do_spindle_speed_ramp_from_systick w).2.spindle.state ≠ SPINDLE_NOP ∧
      (do_spindle_speed_ramp_from_systick w).2.spindle.state ≠ SPINDLE_REV) ∧
    (control > SPINDLE_ACTION_MAX → _exec_spindle_control control w = w) := by
  have hex : (_exec_spindle_control control w).spindle.state = SPINDLE_OFF ∨
      (_exec_spindle_control control w).spindle.state = SPINDLE_CW ∨
      (_exec_spindle_control control w).spindle.state = SPINDLE_CCW ∨
      (_exec_spindle_control control w).spindle.state = SPINDLE_PAUSE := by
    by_cases hc : control > SPINDLE_ACTION_MAX
    · rw [exec_guarded_eq w control (Or.inl hc)]
      exact state_cases _ hs
    · have hs' : ¬ w.spindle.state ≥ SPINDLE_ACTION_MAX := not_le.mpr hs
      rcases exec_state_view w control hc hs' with ⟨h1, _⟩ | h | h | h
      · rw [h1]; exact state_cases _ hs
      · exact Or.inl h
      · exact Or.inr (Or.inr (Or.inr h))
      · rw [h]
        rcases exec_direction_valid w control hc hs' with h' | h'
        · exact Or.inr (Or.inl h')
        · exact Or.inr (Or.inr (Or.inl h'))
  have htk : (do_spindle_speed_ramp_from_systick w).2.spindle.state = SPINDLE_OFF ∨
      (do_spindle_speed_ramp_from_systick w).2.spindle.state = SPINDLE_CW ∨
      (do_spindle_speed_ramp_from_systick w).2.spindle.state = SPINDLE_CCW ∨
      (do_spindle_speed_ramp_from_systick w).2.spindle.state = SPINDLE_PAUSE := by
    rcases (tick_state_direction w).1 with h | h
    · rw [h]; exact state_cases _ hs
    · exact Or.inr (Or.inr (Or.inr h))
  have hno : ∀ n : Nat, (n = SPINDLE_OFF ∨ n = SPINDLE_CW ∨ n = SPINDLE_CCW ∨ n = SPINDLE_PAUSE) →
      n ≠ SPINDLE_RESUME ∧ n ≠ SPINDLE_NOP ∧ n ≠ SPINDLE_REV := by
    intro n hn
    rcases hn with rfl | rfl | rfl | rfl <;> decide
  exact ⟨hex, htk, hno _ hex, hno _ htk, fun hc => exec_guarded_eq w control (Or.inl hc)⟩

/-! ## Concrete instances for the frame and invariant properties -/

/-- Witness of C31 on a world running CW with stored direction CW: OFF stops it and drives the
direction output with 0; PAUSE leaves the direction output alone. -/
theorem C31_off_and_pause_actions_witness :
    rotating_world.spindle.state < SPINDLE_ACTION_MAX ∧
    (rotating_world.spindle.direction = SPINDLE_CW ∨
      rotating_world.spindle.direction = SPINDLE_CCW) ∧
    (_exec_spindle_control SPINDLE_OFF rotating_world).spindle.state = SPINDLE_OFF ∧
    (_exec_spindle_control SPINDLE_OFF rotating_world).spindle.speed
      = rotating_world.spindle.speed ∧
    (_exec_spindle_control SPINDLE_PAUSE rotating_world).spindle.state = SPINDLE_PAUSE ∧
    (_exec_spindle_control SPINDLE_PAUSE rotating_world).spindle_direction_output
      = rotating_world.spindle_direction_output :=
  ⟨by decide, Or.inl rfl,
    (C31_off_and_pause_actions rotating_world (by decide) (Or.inl rfl)).2.1,
    (C31_off_and_pause_actions rotating_world (by decide) (Or.inl rfl)).2.2.2.2.2.1,
    ((C31_off_and_pause_actions rotating_world (by decide) (Or.inl rfl)).2.2.2.2.2.2
      (Or.inl rfl)).2.1,
    ((C31_off_and_pause_actions rotating_world (by decide) (Or.inl rfl)).2.2.2.2.2.2
      (Or.inl rfl)).2.2.2.1⟩

/-- Witness of C32: the CCW control while running CW, the table entry REVERSE. -/
theorem C32_rotation_entries_witness :
    SPINDLE_CCW ≤ SPINDLE_ACTION_MAX ∧
    rotating_world.spindle.state < SPINDLE_ACTION_MAX ∧
    matrix_lookup rotating_world.spindle.state SPINDLE_CCW = some SPINDLE_REV ∧
    (_exec_spindle_control SPINDLE_CCW rotating_world).spindle.direction = SPINDLE_CCW ∧
    (_exec_spindle_control SPINDLE_CCW rotating_world).spindle.state = SPINDLE_CCW ∧
    (_exec_spindle_control SPINDLE_CCW rotating_world).spindle_enable_output
      = setValue rotating_world.spindle_enable_output 1 :=
  ⟨by decide, by decide, rfl,
    (C32_rotation_entries rotating_world SPINDLE_CCW (by decide) (by decide)
      (Or.inr (Or.inr rfl))).2.1,
    (C32_rotation_entries rotating_world SPINDLE_CCW (by decide) (by decide)
      (Or.inr (Or.inr rfl))).2.2.1,
    (C32_rotation_entries rotating_world SPINDLE_CCW (by decide) (by decide)
      (Or.inr (Or.inr rfl))).2.2.2.1⟩

/-- Witness of C33: the CCW control on a world running CW and on its stopped twin. -/
theorem C33_reverse_is_direct_application_witness :
    rotating_world.spindle.state = SPINDLE_CW ∧
    stopped_twin_world.spindle.state = SPINDLE_OFF ∧
    forget_rotation rotating_world = forget_rotation stopped_twin_world ∧
    _exec_spindle_control SPINDLE_CCW rotating_world
      = _exec_spindle_control SPINDLE_CCW stopped_twin_world :=
  ⟨rfl, rfl, rfl,
    (C33_reverse_is_direct_application rotating_world stopped_twin_world SPINDLE_CCW
      (Or.inr rfl) (Or.inl rfl) (by decide) rfl rfl).2.2.1⟩

/-- Witness of C35: the speed 3000 is accepted between 0 and 10000 and only the G-code model
records it. -/
theorem C35_set_speed_records_in_gcode_model_witness :
    sample_world.spindle.speed_min ≤ 3000 ∧ (3000 : ℚ) ≤ sample_world.spindle.speed_max ∧
    spindle_set_speed 3000 sample_world
      = (stat_t.STAT_OK, { sample_world with gm_spindle_speed := 3000 }) :=
  ⟨by norm_num [sample_world, sample_spindle], by norm_num [sample_world, sample_spindle],
    (C35_set_speed_records_in_gcode_model 3000 sample_world
      (by norm_num [sample_world, sample_spindle])
      (by norm_num [sample_world, sample_spindle])).1⟩

/-- Witness of C36: stopped with ramp step 0 and target 3000, the CW control
requests no dwell; running CW with ramp step 0 the speed is applied without a dwell. -/
theorem C36_zero_step_no_dwell_witness :
    stepless_world.spindle.speed_change_per_tick = 0 ∧
    0 < stepless_world.EPSILON ∧
    rotation_coherent stepless_world ∧
    rotation_coherent rotating_stepless_world ∧
    (∀ e ∈ (_exec_spindle_control SPINDLE_CW stepless_world).log,
      e.isDwell = true → e ∈ stepless_world.log) ∧
    (∀ e ∈ (_actually_set_spindle_speed rotating_stepless_world).log,
      e.isDwell = true → e ∈ rotating_stepless_world.log) :=
  ⟨rfl, by norm_num [stepless_world, sample_world], by decide, fun _ => rfl,
    (C36_zero_step_no_dwell stepless_world rfl (by norm_num [stepless_world, sample_world])
      (by decide)).2.2.2 SPINDLE_CW (Or.inl rfl) (by decide) (by decide),
    (C36_zero_step_no_dwell rotating_stepless_world rfl
      (by norm_num [rotating_stepless_world, sample_world]) (fun _ => rfl)).2.1⟩

/-- Witness of C37 on a world running CW with stored direction CW: the predicate holds after
the CCW control and after a tick. -/
theorem C37_direction_agrees_with_rotation_witness :
    rotation_coherent rotating_world ∧
    rotation_coherent (_exec_spindle_control SPINDLE_CCW rotating_world) ∧
    rotation_coherent (do_spindle_speed_ramp_from_systick rotating_world).2 ∧
    rotation_coherent
      (run_calls [Call.control SPINDLE_PAUSE, Call.tick, Call.control SPINDLE_RESUME]
        rotating_world) :=
  ⟨fun _ => rfl,
    (C37_direction_agrees_with_rotation rotating_world (fun _ => rfl)).1 SPINDLE_CCW,
    (C37_direction_agrees_with_rotation rotating_world (fun _ => rfl)).2.2.1,
    ((C37_direction_agrees_with_rotation rotating_world (fun _ => rfl)).2.2.2.1
      [Call.control SPINDLE_PAUSE, Call.tick, Call.control SPINDLE_RESUME]).1⟩

/-- Witness of C38 on a paused world: after RESUME, and after the out-of-range control 7, the
logical state is not RESUME, NOP or REVERSE. -/
theorem C38_state_stays_valid_witness :
    paused_world.spindle.state < SPINDLE_ACTION_MAX ∧
    (_exec_spindle_control SPINDLE_RESUME paused_world).spindle.state ≠ SPINDLE_RESUME ∧
    _exec_spindle_control 7 paused_world = paused_world :=
  ⟨by decide,
    (C38_state_stays_valid paused_world SPINDLE_RESUME (by decide)).2.2.1.1,
    (C38_state_stays_valid paused_world 7 (by decide)).2.2.2.2 (by decide)⟩

/-! ## Entering the logical state PAUSE -/

/-- A control that leaves the logical state PAUSE, when it was not PAUSE before, is the PAUSE
control in a rotating state. -/
theorem exec_enters_pause (w : World) (control : Nat)
    (hp : (_exec_spindle_control control w).spindle.state = SPINDLE_PAUSE)
    (hn : w.spindle.state ≠ SPINDLE_PAUSE) :
    control = SPINDLE_PAUSE ∧ (w.spindle.state = SPINDLE_CW ∨ w.spindle.state = SPINDLE_CCW) := by
  by_cases hg : control > SPINDLE_ACTION_MAX ∨ w.spindle.state ≥ SPINDLE_ACTION_MAX
  · rw [exec_guarded_eq w control hg] at hp
    exact absurd hp hn
  · have hc : ¬ control > SPINDLE_ACTION_MAX := fun h => hg (Or.inl h)
    have hs : ¬ w.spindle.state ≥ SPINDLE_ACTION_MAX := fun h => hg (Or.inr h)
    have hs4 : w.spindle.state < SPINDLE_ACTION_MAX := not_le.mp hs
    have hcs : control = SPINDLE_OFF ∨ control = SPINDLE_CW ∨ control = SPINDLE_CCW ∨
        control = SPINDLE_PAUSE ∨ control = SPINDLE_RESUME := by
      simp only [SPINDLE_ACTION_MAX, SPINDLE_RESUME, SPINDLE_OFF, SPINDLE_CW, SPINDLE_CCW,
        SPINDLE_PAUSE] at *
      omega
    have hnop : ∀ c, ¬ c > SPINDLE_ACTION_MAX →
        matrix_lookup w.spindle.state c = some SPINDLE_NOP →
        (_exec_spindle_control c w).spindle.state ≠ SPINDLE_PAUSE := by
      intro c hc1 hl
      rw [exec_nop_eq w c hc1 hs hl, (direction_assert_view w).1]
      exact hn
    have hrot : ∀ R, R = SPINDLE_CW ∨ R = SPINDLE_CCW →
        (_exec_spindle_control R w).spindle.state ≠ SPINDLE_PAUSE := by
      intro R hR
      by_cases hst : w.spindle.state = R
      · rw [exec_same_rotation_eq w R hR hst, (direction_assert_view w).1]
        exact hn
      · rw [exec_rotation_eq w R hs4 hR hst, (apply_bits_view _ _ _).1]
        show R ≠ SPINDLE_PAUSE
        rcases hR with rfl | rfl <;> decide
    rcases hcs with rfl | rfl | rfl | rfl | rfl
    · rw [exec_off_eq w hs4, (apply_bits_view _ _ _).1] at hp
      have hp' : SPINDLE_OFF = SPINDLE_PAUSE := hp
      exact absurd hp' (by decide)
    · exact absurd hp (hrot _ (Or.inl rfl))
    · exact absurd hp (hrot _ (Or.inr rfl))
    · rcases state_cases _ hs4 with h | h | h | h
      · exact absurd hp (hnop _ hc (by rw [h]; rfl))
      · exact ⟨rfl, Or.inl h⟩
      · exact ⟨rfl, Or.inr h⟩
      · exact absurd h hn
    · rcases state_cases _ hs4 with h | h | h | h
      · exact absurd hp (hnop _ hc (by rw [h]; rfl))
      · exact absurd hp (hnop _ hc (by rw [h]; rfl))
      · exact absurd hp (hnop _ hc (by rw [h]; rfl))
      · exact absurd h hn

/-- C23 (amended): for every execution of `_exec_spindle_control` with any control and of
`_exec_spindle_speed`, and for every tick with the safety gate safe (or not compiled in), if
the logical state is PAUSE after the step and was not PAUSE before it, then the state before
was CW or CCW and the stored direction equals that rotation, before and after (the speed
command and the safe tick never change the logical state).  A tick with the safety gate
tripped sets the logical state PAUSE from every prior state, OFF included, and leaves the
stored direction as it was. -/
theorem C23_pause_entered_from_rotation (w : World) (hco : rotation_coherent w) :
    (∀ control, (_exec_spindle_control control w).spindle.state = SPINDLE_PAUSE →
      w.spindle.state ≠ SPINDLE_PAUSE →
      (w.spindle.state = SPINDLE_CW ∨ w.spindle.state = SPINDLE_CCW) ∧
      w.spindle.direction = w.spindle.state ∧
      (_exec_spindle_control control w).spindle.direction = w.spindle.state) ∧
    (∀ v, (_exec_spindle_speed v w).spindle.state = w.spindle.state) ∧
    (w.ENABLE_INTERLOCK_AND_ESTOP = false ∨ (w.estop_state = 0 ∧ w.safety_state = 0) →
      (do_spindle_speed_ramp_from_systick w).2.spindle.state = w.spindle.state) ∧
    (w.ENABLE_INTERLOCK_AND_ESTOP = true → w.estop_state ≠ 0 ∨ w.safety_state ≠ 0 →
      (do_spindle_speed_ramp_from_systick w).2.spindle.state = SPINDLE_PAUSE ∧
      (do_spindle_speed_ramp_from_systick w).2.spindle.direction = w.spindle.direction) := by
  refine ⟨?_, fun v => (exec_speed_state v w).1, ?_, ?_⟩
  · intro control hp hn
    obtain ⟨rfl, hrot⟩ := exec_enters_pause w control hp hn
    refine ⟨hrot, hco hrot, ?_⟩
    rw [exec_pause_closed w hrot]
    show (SPINDLE_DIRECTION_ASSERT w).spindle.direction = w.spindle.state
    rw [direction_assert_of_valid w (by rw [hco hrot]; exact hrot)]
    exact hco hrot
  · intro hsafe
    unfold do_spindle_speed_ramp_from_systick
    rcases hsafe with hf | ⟨he, hs⟩
    · simp [hf]
    · simp only [he, hs, and_self, if_true]
      split_ifs <;> first | rfl | exact (set_duty_state _).1
  · intro hf hu
    rw [tick_gate_tripped w hf hu]
    exact ⟨rfl, rfl⟩

/-- Witness of C23 (amended): running CW with stored direction CW, the PAUSE control leaves
the state PAUSE with the stored direction CW. -/
theorem C23_pause_entered_from_rotation_witness :
    rotation_coherent rotating_world ∧
    (_exec_spindle_control SPINDLE_PAUSE rotating_world).spindle.state = SPINDLE_PAUSE ∧
    rotating_world.spindle.state ≠ SPINDLE_PAUSE ∧
    (_exec_spindle_control SPINDLE_PAUSE rotating_world).spindle.direction
      = rotating_world.spindle.state :=
  ⟨fun _ => rfl,
    by rw [exec_pause_closed rotating_world (Or.inl rfl)],
    by decide,
    ((C23_pause_entered_from_rotation rotating_world (fun _ => rfl)).1 SPINDLE_PAUSE
      (by rw [exec_pause_closed rotating_world (Or.inl rfl)]) (by decide)).2.2⟩

/-! ## Rounding to binary32 -/

/-- Rounding to an integer lands on the floor or one above it. -/
theorem round_half_even_bounds (x : ℚ) :
    ⌊x⌋ ≤ round_half_even x ∧ round_half_even x ≤ ⌊x⌋ + 1 := by
  unfold round_half_even
  split_ifs <;> constructor <;> omega

/-- An integer rounds to itself. -/
theorem round_half_even_int (n : ℤ) : round_half_even (n : ℚ) = n := by
  unfold round_half_even
  simp

/-- Rounding to an integer is monotone. -/
theorem round_half_even_mono {x y : ℚ} (h : x ≤ y) :
    round_half_even x ≤ round_half_even y := by
  have hf := Int.floor_mono h
  rcases lt_or_eq_of_le hf with hlt | heq
  · have h1 := (round_half_even_bounds x).2
    have h2 := (round_half_even_bounds y).1
    omega
  · unfold round_half_even
    rw [← heq]
    split_ifs <;> first | omega | (exfalso; linarith)

/-- Rounding to an integer, with the floor given. -/
theorem round_half_even_eval (x : ℚ) (f : ℤ) (h1 : (f : ℚ) ≤ x) (h2 : x < f + 1) :
    round_half_even x =
      if x - f < 1 / 2 then f else if 1 / 2 < x - f then f + 1
      else if f % 2 = 0 then f else f + 1 := by
  have hf : ⌊x⌋ = f := Int.floor_eq_iff.mpr ⟨h1, h2⟩
  unfold round_half_even
  rw [hf]

/-- The binary logarithm of a positive rational, given the binade. -/
theorem log2_eq (x : ℚ) (k : ℤ) (h1 : (2 : ℚ) ^ k ≤ x) (h2 : x < 2 ^ (k + 1)) :
    Int.log 2 x = k := by
  have hx : 0 < x := lt_of_lt_of_le (zpow_pos (by norm_num) k) h1
  have hb : 1 < 2 := by norm_num
  apply le_antisymm
  · have := (Int.lt_zpow_iff_log_lt hb hx).mp (by simpa using h2)
    omega
  · exact (Int.zpow_le_iff_le_log hb hx).mp (by simpa using h1)

/-- A positive rational lies in the binade of its binary logarithm. -/
theorem log2_bounds (x : ℚ) (hx : 0 < x) :
    (2 : ℚ) ^ Int.log 2 x ≤ x ∧ x < 2 ^ (Int.log 2 x + 1) := by
  have hb : 1 < 2 := by norm_num
  have h1 := Int.zpow_log_le_self hb hx
  have h2 := Int.lt_zpow_succ_log_self hb x
  simp only [Nat.cast_ofNat] at h1 h2
  exact ⟨h1, h2⟩

/-- The rounded value of a positive rational stays in the closed binade of the rational. -/
theorem binary32_pos_bounds (x : ℚ) (hx : 0 < x) :
    (2 : ℚ) ^ Int.log 2 x ≤ binary32_pos x ∧ binary32_pos x ≤ 2 ^ (Int.log 2 x + 1) := by
  obtain ⟨h1, h2⟩ := log2_bounds x hx
  unfold binary32_pos
  generalize Int.log 2 x = L at *
  have hu : (0 : ℚ) < 2 ^ (L - 23) := zpow_pos (by norm_num) _
  have e1 : (2 : ℚ) ^ L = 8388608 * 2 ^ (L - 23) := by
    have h23 : (8388608 : ℚ) = 2 ^ (23 : ℤ) := by norm_num
    rw [h23, ← zpow_add₀ (by norm_num : (2 : ℚ) ≠ 0)]
    congr 1
    omega
  have e2 : (2 : ℚ) ^ (L + 1) = 16777216 * 2 ^ (L - 23) := by
    have h24 : (16777216 : ℚ) = 2 ^ (24 : ℤ) := by norm_num
    rw [h24, ← zpow_add₀ (by norm_num : (2 : ℚ) ≠ 0)]
    congr 1
    omega
  have q1 : ((8388608 : ℤ) : ℚ) ≤ x / 2 ^ (L - 23) := by
    rw [le_div_iff₀ hu]
    push_cast
    rw [← e1]
    exact h1
  have q2 : x / 2 ^ (L - 23) ≤ ((16777216 : ℤ) : ℚ) := by
    rw [div_le_iff₀ hu]
    push_cast
    rw [← e2]
    exact le_of_lt h2
  have r1 := round_half_even_mono q1
  have r2 := round_half_even_mono q2
  rw [round_half_even_int] at r1 r2
  have c1 : ((8388608 : ℤ) : ℚ) ≤ (round_half_even (x / 2 ^ (L - 23)) : ℚ) :=
    Int.cast_le.mpr r1
  have c2 : (round_half_even (x / 2 ^ (L - 23)) : ℚ) ≤ ((16777216 : ℤ) : ℚ) :=
    Int.cast_le.mpr r2
  push_cast at c1 c2
  rw [e1, e2]
  exact ⟨mul_le_mul_of_nonneg_right c1 (le_of_lt hu), mul_le_mul_of_nonneg_right c2 (le_of_lt hu)⟩

/-- The rounded value of a positive rational is positive. -/
theorem binary32_pos_pos (x : ℚ) (hx : 0 < x) : 0 < binary32_pos x :=
  lt_of_lt_of_le (zpow_pos (by norm_num) _) (binary32_pos_bounds x hx).1

/-- Rounding positive rationals to binary32 is monotone. -/
theorem binary32_pos_mono {x y : ℚ} (hx : 0 < x) (h : x ≤ y) :
    binary32_pos x ≤ binary32_pos y := by
  have hy : 0 < y := lt_of_lt_of_le hx h
  have hL := Int.log_mono_right (b := 2) hx h
  rcases lt_or_eq_of_le hL with hlt | heq
  · calc binary32_pos x ≤ 2 ^ (Int.log 2 x + 1) := (binary32_pos_bounds x hx).2
      _ ≤ 2 ^ Int.log 2 y := zpow_le_zpow_right₀ (by norm_num) (by omega)
      _ ≤ binary32_pos y := (binary32_pos_bounds y hy).1
  · unfold binary32_pos
    rw [← heq]
    have hu : (0 : ℚ) < 2 ^ (Int.log 2 x - 23) := zpow_pos (by norm_num) _
    apply mul_le_mul_of_nonneg_right _ (le_of_lt hu)
    exact Int.cast_le.mpr (round_half_even_mono (div_le_div_of_nonneg_right h (le_of_lt hu)))

/-- Zero is a binary32 value. -/
theorem binary32_zero : binary32 0 = 0 := by
  unfold binary32
  simp

/-- The rounded value of a positive rational. -/
theorem binary32_of_pos (x : ℚ) (hx : 0 < x) : binary32 x = binary32_pos x := by
  unfold binary32
  rw [if_neg (ne_of_gt hx), if_pos hx]

/-- The rounded value of a negative rational. -/
theorem binary32_of_neg (x : ℚ) (hx : x < 0) : binary32 x = - binary32_pos (-x) := by
  unfold binary32
  rw [if_neg (ne_of_lt hx), if_neg (not_lt.mpr (le_of_lt hx))]

/-- Rounding to binary32 is monotone. -/
theorem binary32_monotone : Monotone binary32 := by
  intro x y h
  rcases lt_trichotomy x 0 with hx | hx | hx <;> rcases lt_trichotomy y 0 with hy | hy | hy
  · rw [binary32_of_neg x hx, binary32_of_neg y hy]
    exact neg_le_neg (binary32_pos_mono (neg_pos.mpr hy) (neg_le_neg h))
  · rw [binary32_of_neg x hx, hy, binary32_zero]
    exact le_of_lt (neg_lt_zero.mpr (binary32_pos_pos _ (neg_pos.mpr hx)))
  · rw [binary32_of_neg x hx, binary32_of_pos y hy]
    exact le_of_lt (lt_trans (neg_lt_zero.mpr (binary32_pos_pos _ (neg_pos.mpr hx)))
      (binary32_pos_pos _ hy))
  · exact absurd h (not_le.mpr (by rw [hx]; exact hy))
  · rw [hx, hy]
  · rw [hx, binary32_zero, binary32_of_pos y hy]
    exact le_of_lt (binary32_pos_pos _ hy)
  · exact absurd h (not_le.mpr (lt_trans hy hx))
  · exact absurd h (not_le.mpr (by rw [hy]; exact hx))
  · rw [binary32_of_pos x hx, binary32_of_pos y hy]
    exact binary32_pos_mono hx h

/-- The rounded value of a positive rational, with its binade and the floor of its scaled
value given. -/
theorem binary32_pos_eval (x : ℚ) (k f : ℤ) (hk1 : (2 : ℚ) ^ k ≤ x) (hk2 : x < 2 ^ (k + 1))
    (hf1 : (f : ℚ) ≤ x / 2 ^ (k - 23)) (hf2 : x / 2 ^ (k - 23) < f + 1) :
    binary32_pos x =
      ((if x / 2 ^ (k - 23) - f < 1 / 2 then f else if 1 / 2 < x / 2 ^ (k - 23) - f then f + 1
        else if f % 2 = 0 then f else f + 1 : ℤ) : ℚ) * 2 ^ (k - 23) := by
  unfold binary32_pos
  rw [log2_eq x k hk1 hk2, round_half_even_eval _ f hf1 hf2]

/-- The rounded value of a positive rational, with its binade and the floor of its scaled
value given. -/
theorem binary32_eval (x : ℚ) (k f : ℤ) (hk1 : (2 : ℚ) ^ k ≤ x) (hk2 : x < 2 ^ (k + 1))
    (hf1 : (f : ℚ) ≤ x / 2 ^ (k - 23)) (hf2 : x / 2 ^ (k - 23) < f + 1) :
    binary32 x =
      ((if x / 2 ^ (k - 23) - f < 1 / 2 then f else if 1 / 2 < x / 2 ^ (k - 23) - f then f + 1
        else if f % 2 = 0 then f else f + 1 : ℤ) : ℚ) * 2 ^ (k - 23) := by
  rw [binary32_of_pos x (lt_of_lt_of_le (zpow_pos (by norm_num) k) hk1),
    binary32_pos_eval x k f hk1 hk2 hf1 hf2]

/-- The rounded value of a negative rational, with the binade of its magnitude and the floor
of the scaled magnitude given. -/
theorem binary32_eval_neg (x : ℚ) (k f : ℤ) (hk1 : (2 : ℚ) ^ k ≤ -x) (hk2 : -x < 2 ^ (k + 1))
    (hf1 : (f : ℚ) ≤ -x / 2 ^ (k - 23)) (hf2 : -x / 2 ^ (k - 23) < f + 1) :
    binary32 x =
      -(((if -x / 2 ^ (k - 23) - f < 1 / 2 then f else if 1 / 2 < -x / 2 ^ (k - 23) - f then f + 1
        else if f % 2 = 0 then f else f + 1 : ℤ) : ℚ) * 2 ^ (k - 23)) := by
  have hx : x < 0 := neg_pos.mp (lt_of_lt_of_le (zpow_pos (by norm_num) k) hk1)
  rw [binary32_of_neg x hx, binary32_pos_eval (-x) k f hk1 hk2 hf1 hf2]

/-- One is a `float`. -/
theorem binary32_one : binary32 1 = 1 := by
  rw [binary32_eval 1 0 8388608 (by norm_num) (by norm_num) (by norm_num) (by norm_num)]
  norm_num

/-! ## The duty mapper with rounded arithmetic -/

/-- With no rounding the rounded duty mapper is the exact duty mapper. -/
theorem get_pwm_rounded_id (s : spSpindle_t) (p : pwmChannel) :
    _get_spindle_pwm_rounded id s p = _get_spindle_pwm s p := by
  unfold _get_spindle_pwm_rounded _get_spindle_pwm
  simp only [id, Option.map_map]
  split_ifs <;> rfl

/-- Rounding does not bear on the record the duty mapper hands back. -/
theorem get_pwm_rounded_record (fl : ℚ → ℚ) (s : spSpindle_t) (p : pwmChannel) :
    (_get_spindle_pwm_rounded fl s p).2 = (_get_spindle_pwm s p).2 := by
  unfold _get_spindle_pwm_rounded _get_spindle_pwm
  simp only
  split_ifs <;> rfl

/-- The phase the rounded duty mapper returns in a rotating state, on a curve whose rounded
speed range is not zero. -/
theorem get_pwm_rounded_value (fl : ℚ → ℚ) (s : spSpindle_t) (p : pwmChannel)
    (h : s.state = SPINDLE_CW ∨ s.state = SPINDLE_CCW)
    (hne : fl (curve_speed_hi s.direction p - curve_speed_lo s.direction p) ≠ 0) :
    (_get_spindle_pwm_rounded fl s p).1 =
      some (fl (fl (fl (max 0 (fl (min s.speed_actual (curve_speed_hi s.direction p)
                - curve_speed_lo s.direction p))
              / fl (curve_speed_hi s.direction p - curve_speed_lo s.direction p))
            * fl (curve_phase_hi s.direction p - curve_phase_lo s.direction p))
          + curve_phase_lo s.direction p)) := by
  have hmin : (if s.speed_actual > curve_speed_hi s.direction p
      then curve_speed_hi s.direction p else s.speed_actual)
      = min s.speed_actual (curve_speed_hi s.direction p) := by
    rw [min_def]
    split_ifs <;> first | rfl | (exfalso; linarith)
  rw [← hmin]
  unfold _get_spindle_pwm_rounded curve_speed_lo curve_speed_hi curve_phase_lo curve_phase_hi at *
  simp only [if_pos h]
  split_ifs at hne ⊢ <;> simp [fdiv, hne]

/-- C12 (amended): for a fixed direction, a rotating state and a calibration curve with
`speed_lo < speed_hi` whose values are `float` numbers, the duty mapper, each of its `float`
operations rounded by `fl`, returns exactly `phase_lo` at actual speed `speed_lo`, and at
actual speed `speed_hi` it returns the rounded sum `fl(fl(phase_hi - phase_lo) + phase_lo)`:
this is `phase_hi` in exact arithmetic and can miss `phase_hi` by a rounding error in
`float` arithmetic. -/
theorem C12_duty_at_curve_ends (fl : ℚ → ℚ) (s : spSpindle_t) (p : pwmChannel)
    (h : s.state = SPINDLE_CW ∨ s.state = SPINDLE_CCW)
    (hlt : curve_speed_lo s.direction p < curve_speed_hi s.direction p)
    (h0 : fl 0 = 0) (h1 : fl 1 = 1)
    (hpos : 0 < fl (curve_speed_hi s.direction p - curve_speed_lo s.direction p))
    (hd : fl (fl (curve_phase_hi s.direction p - curve_phase_lo s.direction p))
      = fl (curve_phase_hi s.direction p - curve_phase_lo s.direction p))
    (hplo : fl (curve_phase_lo s.direction p) = curve_phase_lo s.direction p) :
    (_get_spindle_pwm_rounded fl { s with speed_actual := curve_speed_lo s.direction p } p).1
      = some (curve_phase_lo s.direction p) ∧
    (_get_spindle_pwm_rounded fl { s with speed_actual := curve_speed_hi s.direction p } p).1
      = some (fl (fl (curve_phase_hi s.direction p - curve_phase_lo s.direction p)
          + curve_phase_lo s.direction p)) ∧
    (_get_spindle_pwm_rounded id { s with speed_actual := curve_speed_hi s.direction p } p).1
      = some (curve_phase_hi s.direction p) := by
  have hne := ne_of_gt hpos
  have e1 := get_pwm_rounded_value fl { s with speed_actual := curve_speed_lo s.direction p } p h
    hne
  have e2 := get_pwm_rounded_value fl { s with speed_actual := curve_speed_hi s.direction p } p h
    hne
  have e3 := get_pwm_rounded_value id { s with speed_actual := curve_speed_hi s.direction p } p h
    (by simp only [id]; exact sub_ne_zero.mpr (ne_of_gt hlt))
  simp only at e1 e2 e3
  have hdiv : curve_speed_hi s.direction p - curve_speed_lo s.direction p ≠ 0 :=
    sub_ne_zero.mpr (ne_of_gt hlt)
  refine ⟨?_, ?_, ?_⟩
  · rw [e1, min_eq_left (le_of_lt hlt), sub_self, h0, max_self, zero_div, h0, zero_mul, h0,
      zero_add, hplo]
  · rw [e2, min_self, max_eq_right (le_of_lt hpos), div_self hne, h1, one_mul, hd]
  · rw [e3, min_self]
    simp only [id]
    rw [max_eq_right (sub_nonneg.mpr (le_of_lt hlt)), div_self hdiv, one_mul, sub_add_cancel]

/-- C39 (amended): for a rotating state and a calibration curve with `speed_lo < speed_hi` and
`phase_lo <= phase_hi` whose values are `float` numbers, for every actual speed (below
`speed_lo`, above `speed_hi` and negative speeds included) the duty mapper, each of its
`float` operations rounded by a monotone rounding `fl`, returns a phase that is at least
`phase_lo` and at most `fl(fl(phase_hi - phase_lo) + phase_lo)`, the phase it returns at
`speed_hi`; in exact arithmetic this upper end is `phase_hi`, in `float` arithmetic it can
exceed `phase_hi` by a rounding error. -/
theorem C39_duty_within_phase_range (fl : ℚ → ℚ) (s : spSpindle_t) (p : pwmChannel) (a : ℚ)
    (h : s.state = SPINDLE_CW ∨ s.state = SPINDLE_CCW)
    (hlt : curve_speed_lo s.direction p < curve_speed_hi s.direction p)
    (hph : curve_phase_lo s.direction p ≤ curve_phase_hi s.direction p)
    (hmono : Monotone fl) (h0 : fl 0 = 0) (h1 : fl 1 = 1)
    (hpos : 0 < fl (curve_speed_hi s.direction p - curve_speed_lo s.direction p))
    (hd : fl (fl (curve_phase_hi s.direction p - curve_phase_lo s.direction p))
      = fl (curve_phase_hi s.direction p - curve_phase_lo s.direction p))
    (hplo : fl (curve_phase_lo s.direction p) = curve_phase_lo s.direction p) :
    (∃ d, (_get_spindle_pwm_rounded fl { s with speed_actual := a } p).1 = some d ∧
      curve_phase_lo s.direction p ≤ d ∧
      d ≤ fl (fl (curve_phase_hi s.direction p - curve_phase_lo s.direction p)
        + curve_phase_lo s.direction p)) ∧
    (∃ d, (_get_spindle_pwm_rounded id { s with speed_actual := a } p).1 = some d ∧
      curve_phase_lo s.direction p ≤ d ∧ d ≤ curve_phase_hi s.direction p) := by
  have key : ∀ g : ℚ → ℚ, Monotone g → g 0 = 0 → g 1 = 1 →
      0 < g (curve_speed_hi s.direction p - curve_speed_lo s.direction p) →
      g (g (curve_phase_hi s.direction p - curve_phase_lo s.direction p))
        = g (curve_phase_hi s.direction p - curve_phase_lo s.direction p) →
      g (curve_phase_lo s.direction p) = curve_phase_lo s.direction p →
      ∃ d, (_get_spindle_pwm_rounded g { s with speed_actual := a } p).1 = some d ∧
        curve_phase_lo s.direction p ≤ d ∧
        d ≤ g (g (curve_phase_hi s.direction p - curve_phase_lo s.direction p)
          + curve_phase_lo s.direction p) := by
    intro g gmono g0 g1 gpos gd gplo
    refine ⟨_, get_pwm_rounded_value g { s with speed_actual := a } p h (ne_of_gt gpos), ?_⟩
    simp only
    generalize curve_speed_lo s.direction p = lo at *
    generalize curve_speed_hi s.direction p = hi at *
    generalize curve_phase_lo s.direction p = plo at *
    generalize curve_phase_hi s.direction p = phi at *
    have t1 : g (min a hi - lo) ≤ g (hi - lo) :=
      gmono (sub_le_sub_right (min_le_right a hi) lo)
    have q0 : 0 ≤ max 0 (g (min a hi - lo)) / g (hi - lo) :=
      div_nonneg (le_max_left _ _) (le_of_lt gpos)
    have q1 : max 0 (g (min a hi - lo)) / g (hi - lo) ≤ 1 := by
      rw [div_le_one gpos]
      exact max_le (le_of_lt gpos) t1
    have n0 : 0 ≤ g (max 0 (g (min a hi - lo)) / g (hi - lo)) := by
      have := gmono q0
      rwa [g0] at this
    have n1 : g (max 0 (g (min a hi - lo)) / g (hi - lo)) ≤ 1 := by
      have := gmono q1
      rwa [g1] at this
    have d0 : 0 ≤ g (phi - plo) := by
      have := gmono (sub_nonneg.mpr hph)
      rwa [g0] at this
    have m0 : 0 ≤ g (g (max 0 (g (min a hi - lo)) / g (hi - lo)) * g (phi - plo)) := by
      have := gmono (mul_nonneg n0 d0)
      rwa [g0] at this
    have m1 : g (g (max 0 (g (min a hi - lo)) / g (hi - lo)) * g (phi - plo)) ≤ g (phi - plo) := by
      have := gmono (mul_le_of_le_one_left d0 n1)
      rwa [gd] at this
    constructor
    · have := gmono (le_add_of_nonneg_left (a := plo) m0)
      rwa [gplo] at this
    · exact gmono (add_le_add_right m1 plo)
  refine ⟨key fl hmono h0 h1 hpos hd hplo, ?_⟩
  have hid := key id monotone_id rfl rfl (by simp only [id]; exact sub_pos.mpr hlt) rfl rfl
  simp only [id, sub_add_cancel] at hid
  exact hid

/-! ## The duty mapper in single precision, evaluated -/

/-- The `float` values met when the duty mapper runs at the top of the CW curve of
`float_pwm`: the speed range 9000, the phases nearest to 0.09 and 0.7, the rounded phase
range and the rounded sum. -/
theorem float_pwm_roundings :
    binary32 9000 = 9000 ∧
    binary32 (3019899 / 33554432) = 3019899 / 33554432 ∧
    binary32 (11744051 / 16777216) = 11744051 / 16777216 ∧
    binary32 (11744051 / 16777216 - 3019899 / 33554432) = 5117051 / 8388608 ∧
    binary32 (5117051 / 8388608) = 5117051 / 8388608 ∧
    binary32 (5117051 / 8388608 + 3019899 / 33554432) = 2936013 / 4194304 := by
  refine ⟨?_, ?_, ?_, ?_, ?_, ?_⟩
  · rw [binary32_eval 9000 13 9216000 (by norm_num) (by norm_num) (by norm_num) (by norm_num)]
    norm_num
  · rw [binary32_eval _ (-4) 12079596 (by norm_num) (by norm_num) (by norm_num) (by norm_num)]
    norm_num
  · rw [binary32_eval _ (-1) 11744051 (by norm_num) (by norm_num) (by norm_num) (by norm_num)]
    norm_num
  · rw [binary32_eval _ (-1) 10234101 (by norm_num) (by norm_num) (by norm_num) (by norm_num)]
    norm_num
  · rw [binary32_eval _ (-1) 10234102 (by norm_num) (by norm_num) (by norm_num) (by norm_num)]
    norm_num
  · rw [binary32_eval _ (-1) 11744051 (by norm_num) (by norm_num) (by norm_num) (by norm_num)]
    norm_num

/-- Running CW on `float_pwm` at or above the upper speed 10000 of the CW curve, the duty
mapper in single precision returns 0.7000000476837158, one unit in the last place above
`phase_hi`. -/
theorem float_pwm_top_duty (a : ℚ) (ha : 10000 ≤ a) :
    (_get_spindle_pwm_rounded binary32 { fast_spindle with speed_actual := a } float_pwm).1
      = some (2936013 / 4194304) := by
  obtain ⟨r1, r2, r3, r4, r5, r6⟩ := float_pwm_roundings
  have hlo : curve_speed_lo SPINDLE_CW float_pwm = 1000 := by
    norm_num [curve_speed_lo, float_pwm, sample_pwm]
  have hhi : curve_speed_hi SPINDLE_CW float_pwm = 10000 := by
    norm_num [curve_speed_hi, float_pwm, sample_pwm]
  have hplo : curve_phase_lo SPINDLE_CW float_pwm = 3019899 / 33554432 := by
    norm_num [curve_phase_lo, float_pwm, sample_pwm]
  have hphi : curve_phase_hi SPINDLE_CW float_pwm = 11744051 / 16777216 := by
    norm_num [curve_phase_hi, float_pwm, sample_pwm]
  have hrange : binary32 (10000 - 1000) = 9000 := by
    have e : (10000 : ℚ) - 1000 = 9000 := by norm_num
    rw [e, r1]
  have hv := get_pwm_rounded_value binary32 { fast_spindle with speed_actual := a } float_pwm
    (Or.inl rfl)
    (by
      show binary32 (curve_speed_hi SPINDLE_CW float_pwm - curve_speed_lo SPINDLE_CW float_pwm) ≠ 0
      rw [hhi, hlo, hrange]
      norm_num)
  rw [hv]
  show some (binary32 (binary32 (binary32 (max 0 (binary32 (min a
      (curve_speed_hi SPINDLE_CW float_pwm) - curve_speed_lo SPINDLE_CW float_pwm))
      / binary32 (curve_speed_hi SPINDLE_CW float_pwm - curve_speed_lo SPINDLE_CW float_pwm))
      * binary32 (curve_phase_hi SPINDLE_CW float_pwm - curve_phase_lo SPINDLE_CW float_pwm))
      + curve_phase_lo SPINDLE_CW float_pwm)) = _
  rw [hhi, hlo, hplo, hphi, min_eq_right ha, hrange, r4]
  have e1 : max (0 : ℚ) 9000 / 9000 = 1 := by norm_num
  rw [e1, binary32_one, one_mul, r5, r6]

/-- Counterexample to C12 as stated: running CW at actual speed 10000, the upper speed of the
CW curve whose phases are the `float` values nearest to 0.09 and 0.7, the duty mapper in
single precision returns 0.7000000476837158, not `phase_hi` = 0.699999988079071. -/
theorem C12_counterexample :
    (fast_spindle.state = SPINDLE_CW ∨ fast_spindle.state = SPINDLE_CCW) ∧
    curve_speed_lo fast_spindle.direction float_pwm
      < curve_speed_hi fast_spindle.direction float_pwm ∧
    fast_spindle.speed_actual = curve_speed_hi fast_spindle.direction float_pwm ∧
    binary32 (curve_phase_lo fast_spindle.direction float_pwm)
      = curve_phase_lo fast_spindle.direction float_pwm ∧
    binary32 (curve_phase_hi fast_spindle.direction float_pwm)
      = curve_phase_hi fast_spindle.direction float_pwm ∧
    (_get_spindle_pwm_rounded binary32 fast_spindle float_pwm).1 = some (2936013 / 4194304) ∧
    (_get_spindle_pwm_rounded binary32 fast_spindle float_pwm).1
      ≠ some (curve_phase_hi fast_spindle.direction float_pwm) := by
  obtain ⟨r1, r2, r3, r4, r5, r6⟩ := float_pwm_roundings
  have hplo : curve_phase_lo fast_spindle.direction float_pwm = 3019899 / 33554432 := by
    norm_num [curve_phase_lo, float_pwm, sample_pwm, fast_spindle, sample_spindle]
  have hphi : curve_phase_hi fast_spindle.direction float_pwm = 11744051 / 16777216 := by
    norm_num [curve_phase_hi, float_pwm, sample_pwm, fast_spindle, sample_spindle]
  have hv := float_pwm_top_duty 10000 (le_refl _)
  have hself : ({ fast_spindle with speed_actual := 10000 } : spSpindle_t) = fast_spindle := rfl
  rw [hself] at hv
  refine ⟨Or.inl rfl, ?_, ?_, ?_, ?_, hv, ?_⟩
  · norm_num [curve_speed_lo, curve_speed_hi, float_pwm, sample_pwm, fast_spindle, sample_spindle]
  · norm_num [curve_speed_hi, float_pwm, sample_pwm, fast_spindle, sample_spindle]
  · rw [hplo, r2]
  · rw [hphi, r3]
  · rw [hv, hphi]
    norm_num

/-- Counterexample to C39 as stated: running CW at actual speed 20000, above the CW curve
whose phases are the `float` values nearest to 0.09 and 0.7, the duty mapper in single
precision returns 0.7000000476837158, above `phase_hi` = 0.699999988079071. -/
theorem C39_counterexample :
    curve_speed_lo fast_spindle.direction float_pwm
      < curve_speed_hi fast_spindle.direction float_pwm ∧
    curve_phase_lo fast_spindle.direction float_pwm
      ≤ curve_phase_hi fast_spindle.direction float_pwm ∧
    (_get_spindle_pwm_rounded binary32 { fast_spindle with speed_actual := 20000 } float_pwm).1
      = some (2936013 / 4194304) ∧
    curve_phase_hi fast_spindle.direction float_pwm < 2936013 / 4194304 := by
  refine ⟨?_, ?_, float_pwm_top_duty 20000 (by norm_num), ?_⟩
  · norm_num [curve_speed_lo, curve_speed_hi, float_pwm, sample_pwm, fast_spindle, sample_spindle]
  · norm_num [curve_phase_lo, curve_phase_hi, float_pwm, sample_pwm, fast_spindle,
      sample_spindle]
  · norm_num [curve_phase_hi, float_pwm, sample_pwm, fast_spindle, sample_spindle]

/-- The hypotheses on the rounding that the properties of the duty mapper take hold of
single precision on the CW curve of `float_pwm`. -/
theorem float_pwm_hypotheses :
    0 < binary32 (curve_speed_hi fast_spindle.direction float_pwm
      - curve_speed_lo fast_spindle.direction float_pwm) ∧
    binary32 (binary32 (curve_phase_hi fast_spindle.direction float_pwm
        - curve_phase_lo fast_spindle.direction float_pwm))
      = binary32 (curve_phase_hi fast_spindle.direction float_pwm
        - curve_phase_lo fast_spindle.direction float_pwm) ∧
    binary32 (curve_phase_lo fast_spindle.direction float_pwm)
      = curve_phase_lo fast_spindle.direction float_pwm := by
  obtain ⟨r1, r2, r3, r4, r5, r6⟩ := float_pwm_roundings
  have hlo : curve_speed_lo fast_spindle.direction float_pwm = 1000 := by
    norm_num [curve_speed_lo, float_pwm, sample_pwm, fast_spindle, sample_spindle]
  have hhi : curve_speed_hi fast_spindle.direction float_pwm = 10000 := by
    norm_num [curve_speed_hi, float_pwm, sample_pwm, fast_spindle, sample_spindle]
  have hplo : curve_phase_lo fast_spindle.direction float_pwm = 3019899 / 33554432 := by
    norm_num [curve_phase_lo, float_pwm, sample_pwm, fast_spindle, sample_spindle]
  have hphi : curve_phase_hi fast_spindle.direction float_pwm = 11744051 / 16777216 := by
    norm_num [curve_phase_hi, float_pwm, sample_pwm, fast_spindle, sample_spindle]
  have e : (10000 : ℚ) - 1000 = 9000 := by norm_num
  rw [hlo, hhi, hplo, hphi, e, r1, r4, r5, r2]
  exact ⟨by norm_num, rfl, rfl⟩

/-- Witness of C12 (amended) in single precision on the CW curve of `float_pwm`: exactly
`phase_lo` at the lower speed. -/
theorem C12_duty_at_curve_ends_witness :
    (fast_spindle.state = SPINDLE_CW ∨ fast_spindle.state = SPINDLE_CCW) ∧
    curve_speed_lo fast_spindle.direction float_pwm
      < curve_speed_hi fast_spindle.direction float_pwm ∧
    binary32 0 = 0 ∧ binary32 1 = 1 ∧
    (_get_spindle_pwm_rounded binary32
        { fast_spindle with speed_actual := curve_speed_lo fast_spindle.direction float_pwm }
        float_pwm).1
      = some (curve_phase_lo fast_spindle.direction float_pwm) :=
  ⟨Or.inl rfl,
    by norm_num [curve_speed_lo, curve_speed_hi, float_pwm, sample_pwm, fast_spindle,
      sample_spindle],
    binary32_zero, binary32_one,
    (C12_duty_at_curve_ends binary32 fast_spindle float_pwm (Or.inl rfl)
      (by norm_num [curve_speed_lo, curve_speed_hi, float_pwm, sample_pwm, fast_spindle,
        sample_spindle])
      binary32_zero binary32_one float_pwm_hypotheses.1 float_pwm_hypotheses.2.1
      float_pwm_hypotheses.2.2).1⟩

/-- Witness of C39 (amended) in single precision on the CW curve of `float_pwm`, at the
negative actual speed -500. -/
theorem C39_duty_within_phase_range_witness :
    (fast_spindle.state = SPINDLE_CW ∨ fast_spindle.state = SPINDLE_CCW) ∧
    Monotone binary32 ∧
    ∃ d, (_get_spindle_pwm_rounded binary32 { fast_spindle with speed_actual := -500 }
        float_pwm).1 = some d ∧
      curve_phase_lo fast_spindle.direction float_pwm ≤ d ∧
      d ≤ binary32 (binary32 (curve_phase_hi fast_spindle.direction float_pwm
          - curve_phase_lo fast_spindle.direction float_pwm)
        + curve_phase_lo fast_spindle.direction float_pwm) :=
  ⟨Or.inl rfl, binary32_monotone,
    (C39_duty_within_phase_range binary32 fast_spindle float_pwm (-500) (Or.inl rfl)
      (by norm_num [curve_speed_lo, curve_speed_hi, float_pwm, sample_pwm, fast_spindle,
        sample_spindle])
      (by norm_num [curve_phase_lo, curve_phase_hi, float_pwm, sample_pwm, fast_spindle,
        sample_spindle])
      binary32_monotone binary32_zero binary32_one float_pwm_hypotheses.1
      float_pwm_hypotheses.2.1 float_pwm_hypotheses.2.2).1⟩

/-! ## The ramp tick with rounded arithmetic -/

/-- Rounding to binary32 commutes with the change of sign. -/
theorem binary32_neg (x : ℚ) : binary32 (-x) = - binary32 x := by
  rcases lt_trichotomy x 0 with hx | hx | hx
  · rw [binary32_of_neg x hx, binary32_of_pos (-x) (neg_pos.mpr hx), neg_neg]
  · rw [hx, neg_zero, binary32_zero, neg_zero]
  · rw [binary32_of_pos x hx, binary32_of_neg (-x) (neg_lt_zero.mpr hx), neg_neg]

/-- Sending the duty with rounded arithmetic: the record is the one the duty mapper hands
back and the rounded phase is appended to the log. -/
theorem set_duty_rounded_eq (fl : ℚ → ℚ) (w : World) :
    set_duty_from_spindle_rounded fl w =
      { w with
        spindle := (_get_spindle_pwm w.spindle w.pwm).2
        log := w.log ++ [Event.pwm_set_duty (_get_spindle_pwm_rounded fl w.spindle w.pwm).1] } := by
  unfold set_duty_from_spindle_rounded pwm_set_duty
  simp only [get_pwm_rounded_record]

/-- With no rounding the rounded comparison is the exact comparison. -/
theorem fp_EQ_rounded_id (eps a b : ℚ) : fp_EQ_rounded id eps a b = fp_EQ eps a b := rfl

/-- With no rounding, sending the duty with rounded arithmetic is sending the duty. -/
theorem set_duty_rounded_id (w : World) :
    set_duty_from_spindle_rounded id w = set_duty_from_spindle w := by
  unfold set_duty_from_spindle_rounded set_duty_from_spindle
  rw [get_pwm_rounded_id]

/-- With no rounding the rounded tick is the exact tick. -/
theorem tick_rounded_id (w : World) :
    do_spindle_speed_ramp_from_systick_rounded id w = do_spindle_speed_ramp_from_systick w := by
  unfold do_spindle_speed_ramp_from_systick_rounded do_spindle_speed_ramp_from_systick
  simp only [fp_EQ_rounded_id, set_duty_rounded_id, id]

/-- A rounded tick with the gate compiled in and safe, when the actual speed is within
epsilon of the target: done, nothing changes. -/
theorem tick_rounded_safe_equal (fl : ℚ → ℚ) (w : World)
    (hf : w.ENABLE_INTERLOCK_AND_ESTOP = true)
    (he : w.estop_state = 0) (hs : w.safety_state = 0)
    (heq : fp_EQ_rounded fl w.EPSILON w.spindle.speed_actual w.spindle.speed = true) :
    do_spindle_speed_ramp_from_systick_rounded fl w = (true, w) := by
  simp [do_spindle_speed_ramp_from_systick_rounded, hf, he, hs, heq]

/-- A rounded tick with the gate compiled in and safe, when the actual speed is not within
epsilon of the target: one rounded step toward the target, then the duty is sent. -/
theorem tick_rounded_safe_step (fl : ℚ → ℚ) (w : World)
    (hf : w.ENABLE_INTERLOCK_AND_ESTOP = true)
    (he : w.estop_state = 0) (hs : w.safety_state = 0)
    (hne : fp_EQ_rounded fl w.EPSILON w.spindle.speed_actual w.spindle.speed = false) :
    (do_spindle_speed_ramp_from_systick_rounded fl w).2 =
      set_duty_from_spindle_rounded fl { w with spindle := { w.spindle with
        speed_actual := ramp_step_rounded fl w.spindle.speed_actual w.spindle.speed
          w.spindle.speed_change_per_tick } } := by
  unfold do_spindle_speed_ramp_from_systick_rounded ramp_step_rounded
  simp only [hf, he, hs, hne, if_true, and_self]
  split_ifs <;> simp_all

/-- The actual speed after a stepping rounded tick: the rounded step, lowered by the duty
mapper to the upper speed of the selected curve when the state is rotating and the step
exceeds it. -/
theorem tick_rounded_step_actual (fl : ℚ → ℚ) (w : World)
    (hf : w.ENABLE_INTERLOCK_AND_ESTOP = true)
    (he : w.estop_state = 0) (hs : w.safety_state = 0)
    (hne : fp_EQ_rounded fl w.EPSILON w.spindle.speed_actual w.spindle.speed = false) :
    (do_spindle_speed_ramp_from_systick_rounded fl w).2.spindle.speed_actual =
      if (w.spindle.state = SPINDLE_CW ∨ w.spindle.state = SPINDLE_CCW) ∧
          ramp_step_rounded fl w.spindle.speed_actual w.spindle.speed
            w.spindle.speed_change_per_tick > curve_speed_hi w.spindle.direction w.pwm
      then curve_speed_hi w.spindle.direction w.pwm
      else ramp_step_rounded fl w.spindle.speed_actual w.spindle.speed
        w.spindle.speed_change_per_tick := by
  rw [tick_rounded_safe_step fl w hf he hs hne, set_duty_rounded_eq]
  simp only
  rw [get_pwm_record]

/-- One rounded step that does not move away from the target: it stays between the old speed
and the target and moves by at most the rounded step. -/
theorem ramp_step_rounded_bounds (fl : ℚ → ℚ) (a t r : ℚ)
    (hup : a ≤ fl (a + r)) (hdn : fl (a - r) ≤ a) :
    |ramp_step_rounded fl a t r - a| ≤ max (fl (a + r) - a) (a - fl (a - r)) ∧
    min a t ≤ ramp_step_rounded fl a t r ∧ ramp_step_rounded fl a t r ≤ max a t := by
  unfold ramp_step_rounded
  split_ifs with h1 h2 h3
  · refine ⟨?_, min_le_right _ _, le_max_right _ _⟩
    rw [abs_of_nonneg (by linarith)]
    exact le_trans (by linarith) (le_max_left _ _)
  · refine ⟨?_, le_trans (min_le_left _ _) hup, le_trans (not_lt.mp h2) (le_max_right _ _)⟩
    rw [abs_of_nonneg (by linarith)]
    exact le_max_left _ _
  · refine ⟨?_, min_le_right _ _, le_trans (not_lt.mp h1) (le_max_left _ _)⟩
    rw [abs_of_nonpos (by linarith)]
    exact le_trans (by linarith) (le_max_right _ _)
  · refine ⟨?_, le_trans (min_le_right _ _) (not_lt.mp h3), le_trans hdn (le_max_left _ _)⟩
    rw [abs_of_nonpos (by linarith)]
    exact le_trans (by linarith) (le_max_right _ _)

/-- C15 (amended): with the safety gate safe and ramp step r > 0, for every actuator state
whose actual speed is a `float` number and does not exceed `speed_hi` of the curve selected
by the direction when the logical state is rotating, one tick, its `float` operations rounded
by a monotone rounding `fl`, leaves the new actual speed between the old actual speed and the
target speed inclusive, and changes it by at most the rounded step, `fl(a + r) - a` upward
and `a - fl(a - r)` downward: by at most r when the step is computed exactly, by more than r
when the sum is rounded upward. -/
theorem C15_tick_step_bounded (fl : ℚ → ℚ) (w : World) (hmono : Monotone fl)
    (ha : fl w.spindle.speed_actual = w.spindle.speed_actual)
    (he : w.estop_state = 0) (hs : w.safety_state = 0)
    (hr : 0 < w.spindle.speed_change_per_tick)
    (hhi : w.spindle.state = SPINDLE_CW ∨ w.spindle.state = SPINDLE_CCW →
      w.spindle.speed_actual ≤ curve_speed_hi w.spindle.direction w.pwm) :
    |(do_spindle_speed_ramp_from_systick_rounded fl w).2.spindle.speed_actual
        - w.spindle.speed_actual|
      ≤ max (fl (w.spindle.speed_actual + w.spindle.speed_change_per_tick)
            - w.spindle.speed_actual)
          (w.spindle.speed_actual
            - fl (w.spindle.speed_actual - w.spindle.speed_change_per_tick)) ∧
    min w.spindle.speed_actual w.spindle.speed
      ≤ (do_spindle_speed_ramp_from_systick_rounded fl w).2.spindle.speed_actual ∧
    (do_spindle_speed_ramp_from_systick_rounded fl w).2.spindle.speed_actual
      ≤ max w.spindle.speed_actual w.spindle.speed ∧
    (fl (w.spindle.speed_actual + w.spindle.speed_change_per_tick)
        = w.spindle.speed_actual + w.spindle.speed_change_per_tick →
      fl (w.spindle.speed_actual - w.spindle.speed_change_per_tick)
        = w.spindle.speed_actual - w.spindle.speed_change_per_tick →
      |(do_spindle_speed_ramp_from_systick_rounded fl w).2.spindle.speed_actual
          - w.spindle.speed_actual| ≤ w.spindle.speed_change_per_tick) := by
  have hup : w.spindle.speed_actual
      ≤ fl (w.spindle.speed_actual + w.spindle.speed_change_per_tick) := by
    have := hmono (le_add_of_nonneg_right (a := w.spindle.speed_actual) (le_of_lt hr))
    rwa [ha] at this
  have hdn : fl (w.spindle.speed_actual - w.spindle.speed_change_per_tick)
      ≤ w.spindle.speed_actual := by
    have := hmono (sub_le_self w.spindle.speed_actual (le_of_lt hr))
    rwa [ha] at this
  have main : |(do_spindle_speed_ramp_from_systick_rounded fl w).2.spindle.speed_actual
        - w.spindle.speed_actual|
      ≤ max (fl (w.spindle.speed_actual + w.spindle.speed_change_per_tick)
            - w.spindle.speed_actual)
          (w.spindle.speed_actual
            - fl (w.spindle.speed_actual - w.spindle.speed_change_per_tick)) ∧
    min w.spindle.speed_actual w.spindle.speed
      ≤ (do_spindle_speed_ramp_from_systick_rounded fl w).2.spindle.speed_actual ∧
    (do_spindle_speed_ramp_from_systick_rounded fl w).2.spindle.speed_actual
      ≤ max w.spindle.speed_actual w.spindle.speed := by
    have hsame : (do_spindle_speed_ramp_from_systick_rounded fl w).2 = w →
        |(do_spindle_speed_ramp_from_systick_rounded fl w).2.spindle.speed_actual
            - w.spindle.speed_actual|
          ≤ max (fl (w.spindle.speed_actual + w.spindle.speed_change_per_tick)
                - w.spindle.speed_actual)
              (w.spindle.speed_actual
                - fl (w.spindle.speed_actual - w.spindle.speed_change_per_tick)) ∧
        min w.spindle.speed_actual w.spindle.speed
          ≤ (do_spindle_speed_ramp_from_systick_rounded fl w).2.spindle.speed_actual ∧
        (do_spindle_speed_ramp_from_systick_rounded fl w).2.spindle.speed_actual
          ≤ max w.spindle.speed_actual w.spindle.speed := by
      intro hw
      rw [hw, sub_self, abs_zero]
      exact ⟨le_trans (sub_nonneg.mpr hup) (le_max_left _ _), min_le_left _ _, le_max_left _ _⟩
    by_cases hf : w.ENABLE_INTERLOCK_AND_ESTOP = true
    · cases hq : fp_EQ_rounded fl w.EPSILON w.spindle.speed_actual w.spindle.speed with
      | true => exact hsame (by rw [tick_rounded_safe_equal fl w hf he hs hq])
      | false =>
        rw [tick_rounded_step_actual fl w hf he hs hq]
        obtain ⟨b1, b2, b3⟩ := ramp_step_rounded_bounds fl w.spindle.speed_actual w.spindle.speed
          w.spindle.speed_change_per_tick hup hdn
        generalize ramp_step_rounded fl w.spindle.speed_actual w.spindle.speed
          w.spindle.speed_change_per_tick = st at b1 b2 b3 ⊢
        split_ifs with hc
        · have h1 := hhi hc.1
          have h2 := hc.2
          have h3 := (abs_le.mp b1).2
          refine ⟨?_, le_trans (min_le_left _ _) h1, le_trans (le_of_lt h2) b3⟩
          rw [abs_of_nonneg (sub_nonneg.mpr h1)]
          linarith
        · exact ⟨b1, b2, b3⟩
    · exact hsame (by simp [do_spindle_speed_ramp_from_systick_rounded, hf])
  refine ⟨main.1, main.2.1, main.2.2, ?_⟩
  intro e1 e2
  refine le_trans main.1 ?_
  rw [e1, e2]
  apply max_le <;> linarith

/-- One upward rounded step from below the target, when the sum is computed exactly, is the
smaller of the stepped speed and the target. -/
theorem ramp_step_rounded_up (fl : ℚ → ℚ) (a t r : ℚ) (h : a < t) (hex : fl (a + r) = a + r) :
    ramp_step_rounded fl a t r = min (a + r) t := by
  unfold ramp_step_rounded
  rw [if_pos h, hex, min_def]
  split_ifs <;> first | rfl | (exfalso; linarith)

/-- One rounded tick below the target with the gate safe, from a world that differs from `w`
in the actual speed `x` and the log only: when `x` is not within epsilon of the target, the
sum `x + r` is computed exactly and the step stays within the curve, the actual speed
becomes the smaller of `x + r` and the target. -/
theorem tick_rounded_up_frame (fl : ℚ → ℚ) (w : World) (x : ℚ) (lg : List Event)
    (hf : w.ENABLE_INTERLOCK_AND_ESTOP = true)
    (he : w.estop_state = 0) (hs : w.safety_state = 0)
    (hx : x < w.spindle.speed)
    (hne : fp_EQ_rounded fl w.EPSILON x w.spindle.speed = false)
    (hex : fl (x + w.spindle.speed_change_per_tick) = x + w.spindle.speed_change_per_tick)
    (hstep : min (x + w.spindle.speed_change_per_tick) w.spindle.speed
      ≤ curve_speed_hi w.spindle.direction w.pwm) :
    ∃ lg1, (do_spindle_speed_ramp_from_systick_rounded fl
        { w with spindle := { w.spindle with speed_actual := x }, log := lg }).2 =
      { w with
        spindle := { w.spindle with
          speed_actual := min (x + w.spindle.speed_change_per_tick) w.spindle.speed }
        log := lg1 } := by
  have hrec := get_pwm_record_same
    { w.spindle with
      speed_actual := min (x + w.spindle.speed_change_per_tick) w.spindle.speed } w.pwm hstep
  refine ⟨lg ++ [Event.pwm_set_duty (_get_spindle_pwm_rounded fl { w.spindle with
      speed_actual := min (x + w.spindle.speed_change_per_tick) w.spindle.speed } w.pwm).1], ?_⟩
  rw [tick_rounded_safe_step fl
    { w with spindle := { w.spindle with speed_actual := x }, log := lg } hf he hs hne,
    set_duty_rounded_eq]
  simp only
  rw [ramp_step_rounded_up fl _ _ _ hx hex, hrec]

/-- The rounded ramp from actual speed 0 in closed form: while every step is computed exactly
and none lands within epsilon of the target, after `k` ticks (up to the number of ticks the
ramp needs) the actual speed is the smaller of `k` steps and the target, and nothing but the
actual speed and the log has changed. -/
theorem ramp_rounded_closed_form (fl : ℚ → ℚ) (w : World)
    (hf : w.ENABLE_INTERLOCK_AND_ESTOP = true)
    (he : w.estop_state = 0) (hs : w.safety_state = 0)
    (hr : 0 < w.spindle.speed_change_per_tick) (hT : 0 < w.spindle.speed)
    (hThi : w.spindle.speed ≤ curve_speed_hi w.spindle.direction w.pwm)
    (h0 : w.spindle.speed_actual = 0)
    (hexact : ∀ k : ℕ, k < ⌈w.spindle.speed / w.spindle.speed_change_per_tick⌉₊ →
      fl ((k : ℚ) * w.spindle.speed_change_per_tick + w.spindle.speed_change_per_tick)
        = (k : ℚ) * w.spindle.speed_change_per_tick + w.spindle.speed_change_per_tick)
    (hfar : ∀ k : ℕ, k < ⌈w.spindle.speed / w.spindle.speed_change_per_tick⌉₊ →
      fp_EQ_rounded fl w.EPSILON ((k : ℚ) * w.spindle.speed_change_per_tick) w.spindle.speed
        = false)
    (k : Nat) (hk : k ≤ ⌈w.spindle.speed / w.spindle.speed_change_per_tick⌉₊) :
    ∃ lg, ticks_rounded fl k w =
      { w with
        spindle := { w.spindle with
          speed_actual := min ((k : ℚ) * w.spindle.speed_change_per_tick) w.spindle.speed }
        log := lg } := by
  induction k with
  | zero =>
    refine ⟨w.log, ?_⟩
    have hmin : min (((0 : ℕ) : ℚ) * w.spindle.speed_change_per_tick) w.spindle.speed
        = w.spindle.speed_actual := by
      rw [h0, Nat.cast_zero, zero_mul, min_eq_left (le_of_lt hT)]
    rw [hmin]
    rfl
  | succ k ih =>
    obtain ⟨lg, hk1⟩ := ih (Nat.le_of_succ_le hk)
    have hklt : (k : ℚ) < w.spindle.speed / w.spindle.speed_change_per_tick :=
      Nat.lt_ceil.mp (Nat.lt_of_succ_le hk)
    have hkr : (k : ℚ) * w.spindle.speed_change_per_tick < w.spindle.speed :=
      (lt_div_iff₀ hr).mp hklt
    have hcast : (k : ℚ) * w.spindle.speed_change_per_tick + w.spindle.speed_change_per_tick
        = ((k + 1 : ℕ) : ℚ) * w.spindle.speed_change_per_tick := by
      push_cast; ring
    obtain ⟨lg1, h1⟩ := tick_rounded_up_frame fl w ((k : ℚ) * w.spindle.speed_change_per_tick)
      lg hf he hs hkr (hfar k (Nat.lt_of_succ_le hk)) (hexact k (Nat.lt_of_succ_le hk))
      (le_trans (min_le_right _ _) hThi)
    refine ⟨lg1, ?_⟩
    show (do_spindle_speed_ramp_from_systick_rounded fl (ticks_rounded fl k w)).2 = _
    rw [hk1, min_eq_left (le_of_lt hkr), h1, hcast]

/-- C16 (amended): with the safety gate safe, ramp step r > 0, target speed T > 0 not above
`speed_hi` of the selected curve and actual speed starting at 0, the `float` operations of
the tick rounded by `fl`, provided every step `k·r + r` (k < ceil(T/r)) is computed exactly
and no step before the last lands within epsilon of T by the driver's test `fp_EQ`: the
actual speed equals T after exactly `ceil(T / r)` ticks and not before (after
`k < ceil(T/r)` ticks it is `k·r`, below T and not within epsilon of it); across those ticks
it is monotonically non-decreasing and never exceeds T.  This holds in every logical state,
a rotating one in particular. -/
theorem C16_ramp_converges (fl : ℚ → ℚ) (w : World)
    (hf : w.ENABLE_INTERLOCK_AND_ESTOP = true)
    (he : w.estop_state = 0) (hs : w.safety_state = 0)
    (hr : 0 < w.spindle.speed_change_per_tick) (hT : 0 < w.spindle.speed)
    (hThi : w.spindle.speed ≤ curve_speed_hi w.spindle.direction w.pwm)
    (h0 : w.spindle.speed_actual = 0) (hfl0 : fl 0 = 0)
    (hexact : ∀ k : ℕ, k < ⌈w.spindle.speed / w.spindle.speed_change_per_tick⌉₊ →
      fl ((k : ℚ) * w.spindle.speed_change_per_tick + w.spindle.speed_change_per_tick)
        = (k : ℚ) * w.spindle.speed_change_per_tick + w.spindle.speed_change_per_tick)
    (hfar : ∀ k : ℕ, k < ⌈w.spindle.speed / w.spindle.speed_change_per_tick⌉₊ →
      fp_EQ_rounded fl w.EPSILON ((k : ℚ) * w.spindle.speed_change_per_tick) w.spindle.speed
        = false) :
    (ticks_rounded fl ⌈w.spindle.speed / w.spindle.speed_change_per_tick⌉₊ w).spindle.speed_actual
      = w.spindle.speed ∧
    (∀ k, k < ⌈w.spindle.speed / w.spindle.speed_change_per_tick⌉₊ →
      (ticks_rounded fl k w).spindle.speed_actual
        = (k : ℚ) * w.spindle.speed_change_per_tick ∧
      (ticks_rounded fl k w).spindle.speed_actual < w.spindle.speed ∧
      fp_EQ_rounded fl w.EPSILON (ticks_rounded fl k w).spindle.speed_actual w.spindle.speed
        = false) ∧
    (∀ k, k < ⌈w.spindle.speed / w.spindle.speed_change_per_tick⌉₊ →
      (ticks_rounded fl k w).spindle.speed_actual
        ≤ (ticks_rounded fl (k + 1) w).spindle.speed_actual) ∧
    (∀ k, k ≤ ⌈w.spindle.speed / w.spindle.speed_change_per_tick⌉₊ →
      (ticks_rounded fl k w).spindle.speed_actual ≤ w.spindle.speed) ∧
    (0 < w.EPSILON →
      fp_EQ_rounded fl w.EPSILON
        (ticks_rounded fl
          ⌈w.spindle.speed / w.spindle.speed_change_per_tick⌉₊ w).spindle.speed_actual
        w.spindle.speed = true) := by
  have cf : ∀ k, k ≤ ⌈w.spindle.speed / w.spindle.speed_change_per_tick⌉₊ →
      (ticks_rounded fl k w).spindle.speed_actual
        = min ((k : ℚ) * w.spindle.speed_change_per_tick) w.spindle.speed := by
    intro k hk
    obtain ⟨lg, h⟩ := ramp_rounded_closed_form fl w hf he hs hr hT hThi h0 hexact hfar k hk
    rw [h]
  have below : ∀ k, k < ⌈w.spindle.speed / w.spindle.speed_change_per_tick⌉₊ →
      (k : ℚ) * w.spindle.speed_change_per_tick < w.spindle.speed :=
    fun k hk => (lt_div_iff₀ hr).mp (Nat.lt_ceil.mp hk)
  have hlast : (ticks_rounded fl
      ⌈w.spindle.speed / w.spindle.speed_change_per_tick⌉₊ w).spindle.speed_actual
      = w.spindle.speed := by
    rw [cf _ (le_refl _)]
    exact min_eq_right ((div_le_iff₀ hr).mp (Nat.le_ceil _))
  refine ⟨hlast, ?_, ?_, ?_, ?_⟩
  · intro k hk
    have hk' := below k hk
    rw [cf k (le_of_lt hk), min_eq_left (le_of_lt hk')]
    exact ⟨rfl, hk', hfar k hk⟩
  · intro k hk
    rw [cf k (le_of_lt hk), cf (k + 1) hk]
    refine min_le_min ?_ (le_refl _)
    push_cast
    nlinarith
  · intro k hk
    rw [cf k hk]
    exact min_le_right _ _
  · intro hpos
    rw [hlast]
    simp [fp_EQ_rounded, hfl0, hpos]

/-! ## The ramp tick in single precision, evaluated -/

/-- The speeds met in the examples of the ramp are `float` numbers, and 2048 plus the `float`
value nearest to 0.1 rounds to 2048.10009765625. -/
theorem ramp_roundings :
    binary32 1000 = 1000 ∧ binary32 2000 = 2000 ∧ binary32 3000 = 3000 ∧
    binary32 8000 = 8000 ∧ binary32 13000 = 13000 ∧ binary32 952 = 952 ∧
    binary32 (1048577 / 1048576) = 1048577 / 1048576 ∧
    binary32 (1 / 1048576) = 1 / 1048576 ∧
    binary32 (2048 + 13421773 / 134217728) = 4194509 / 2048 := by
  refine ⟨?_, ?_, ?_, ?_, ?_, ?_, ?_, ?_, ?_⟩
  · rw [binary32_eval 1000 9 16384000 (by norm_num) (by norm_num) (by norm_num) (by norm_num)]
    norm_num
  · rw [binary32_eval 2000 10 16384000 (by norm_num) (by norm_num) (by norm_num) (by norm_num)]
    norm_num
  · rw [binary32_eval 3000 11 12288000 (by norm_num) (by norm_num) (by norm_num) (by norm_num)]
    norm_num
  · rw [binary32_eval 8000 12 16384000 (by norm_num) (by norm_num) (by norm_num) (by norm_num)]
    norm_num
  · rw [binary32_eval 13000 13 13312000 (by norm_num) (by norm_num) (by norm_num) (by norm_num)]
    norm_num
  · rw [binary32_eval 952 9 15597568 (by norm_num) (by norm_num) (by norm_num) (by norm_num)]
    norm_num
  · rw [binary32_eval _ 0 8388616 (by norm_num) (by norm_num) (by norm_num) (by norm_num)]
    norm_num
  · rw [binary32_eval _ (-20) 8388608 (by norm_num) (by norm_num) (by norm_num) (by norm_num)]
    norm_num
  · rw [binary32_eval _ 11 8389017 (by norm_num) (by norm_num) (by norm_num) (by norm_num)]
    norm_num

/-- Counterexample to C15 as stated, in single precision.  First, running CW at actual speed
12000 toward the target 20000 with ramp step 1000 on a CW curve that ends at 10000, one tick
leaves the actual speed 10000: a change of 2000, below both the old speed and the target.
Second, running CW at actual speed 2048 toward 3000 with the ramp step 0.100000001490116
(the `float` nearest to 0.1), one tick leaves 2048.10009765625: a change of 0.10009765625,
more than the ramp step. -/
theorem C15_counterexample :
    hot_world.ENABLE_INTERLOCK_AND_ESTOP = true ∧
    hot_world.estop_state = 0 ∧ hot_world.safety_state = 0 ∧
    hot_world.spindle.speed_change_per_tick = 1000 ∧
    hot_world.spindle.speed_actual = 12000 ∧ hot_world.spindle.speed = 20000 ∧
    (do_spindle_speed_ramp_from_systick_rounded binary32 hot_world).2.spindle.speed_actual
      = 10000 ∧
    ¬ (|(do_spindle_speed_ramp_from_systick_rounded binary32 hot_world).2.spindle.speed_actual
        - hot_world.spindle.speed_actual| ≤ hot_world.spindle.speed_change_per_tick) ∧
    ¬ (min hot_world.spindle.speed_actual hot_world.spindle.speed
        ≤ (do_spindle_speed_ramp_from_systick_rounded binary32
            hot_world).2.spindle.speed_actual) ∧
    fine_step_world.ENABLE_INTERLOCK_AND_ESTOP = true ∧
    fine_step_world.estop_state = 0 ∧ fine_step_world.safety_state = 0 ∧
    fine_step_world.spindle.speed_change_per_tick = 13421773 / 134217728 ∧
    fine_step_world.spindle.speed_actual = 2048 ∧ fine_step_world.spindle.speed = 3000 ∧
    fine_step_world.spindle.speed_actual
      ≤ curve_speed_hi fine_step_world.spindle.direction fine_step_world.pwm ∧
    (do_spindle_speed_ramp_from_systick_rounded binary32
        fine_step_world).2.spindle.speed_actual = 4194509 / 2048 ∧
    ¬ (|(do_spindle_speed_ramp_from_systick_rounded binary32
          fine_step_world).2.spindle.speed_actual
        - fine_step_world.spindle.speed_actual|
      ≤ fine_step_world.spindle.speed_change_per_tick) := by
  obtain ⟨r1, r2, r3, r4, r5, r6, r7, r8, r9⟩ := ramp_roundings
  have hne1 : fp_EQ_rounded binary32 hot_world.EPSILON hot_world.spindle.speed_actual
      hot_world.spindle.speed = false := by
    show decide (|binary32 (12000 - 20000)| < 1 / 100000) = false
    have e : (12000 : ℚ) - 20000 = -8000 := by norm_num
    rw [e, binary32_neg, r4]
    norm_num
  have hst1 : ramp_step_rounded binary32 hot_world.spindle.speed_actual hot_world.spindle.speed
      hot_world.spindle.speed_change_per_tick = 13000 := by
    show ramp_step_rounded binary32 12000 20000 1000 = 13000
    have e : (12000 : ℚ) + 1000 = 13000 := by norm_num
    unfold ramp_step_rounded
    rw [e, r5]
    norm_num
  have h1 : (do_spindle_speed_ramp_from_systick_rounded binary32
      hot_world).2.spindle.speed_actual = 10000 := by
    rw [tick_rounded_step_actual binary32 hot_world rfl rfl rfl hne1, hst1]
    norm_num [curve_speed_hi, hot_world, hot_spindle, sample_world, sample_spindle, sample_pwm,
      SPINDLE_CW, SPINDLE_CCW]
  have hne2 : fp_EQ_rounded binary32 fine_step_world.EPSILON
      fine_step_world.spindle.speed_actual fine_step_world.spindle.speed = false := by
    show decide (|binary32 (2048 - 3000)| < 1 / 100000) = false
    have e : (2048 : ℚ) - 3000 = -952 := by norm_num
    rw [e, binary32_neg, r6]
    norm_num
  have hst2 : ramp_step_rounded binary32 fine_step_world.spindle.speed_actual
      fine_step_world.spindle.speed fine_step_world.spindle.speed_change_per_tick
      = 4194509 / 2048 := by
    show ramp_step_rounded binary32 2048 3000 (13421773 / 134217728) = 4194509 / 2048
    unfold ramp_step_rounded
    rw [r9]
    norm_num
  have h2 : (do_spindle_speed_ramp_from_systick_rounded binary32
      fine_step_world).2.spindle.speed_actual = 4194509 / 2048 := by
    rw [tick_rounded_step_actual binary32 fine_step_world rfl rfl rfl hne2, hst2]
    norm_num [curve_speed_hi, fine_step_world, sample_world, sample_spindle, sample_pwm,
      SPINDLE_CW, SPINDLE_CCW]
  rw [h1, h2]
  refine ⟨rfl, rfl, rfl, rfl, rfl, rfl, rfl, ?_, ?_, rfl, rfl, rfl, rfl, rfl, rfl, ?_, rfl, ?_⟩
  · norm_num [hot_world, hot_spindle, sample_world, sample_spindle, abs_of_neg]
  · norm_num [hot_world, hot_spindle, sample_world, sample_spindle]
  · norm_num [curve_speed_hi, fine_step_world, sample_world, sample_spindle, sample_pwm,
      SPINDLE_CW]
  · norm_num [fine_step_world, sample_world, sample_spindle, abs_of_pos]

/-- Witness of C15 (amended) in single precision: just switched to CW at actual speed 0,
target 3000 and ramp step 1000, one tick stays between 0 and 3000 and moves by at most
1000. -/
theorem C15_tick_step_bounded_witness :
    Monotone binary32 ∧
    binary32 spinup_world.spindle.speed_actual = spinup_world.spindle.speed_actual ∧
    spinup_world.estop_state = 0 ∧ spinup_world.safety_state = 0 ∧
    0 < spinup_world.spindle.speed_change_per_tick ∧
    min spinup_world.spindle.speed_actual spinup_world.spindle.speed
      ≤ (do_spindle_speed_ramp_from_systick_rounded binary32
          spinup_world).2.spindle.speed_actual ∧
    (do_spindle_speed_ramp_from_systick_rounded binary32 spinup_world).2.spindle.speed_actual
      ≤ max spinup_world.spindle.speed_actual spinup_world.spindle.speed :=
  ⟨binary32_monotone, binary32_zero, rfl, rfl,
    by norm_num [spinup_world, sample_world, sample_spindle],
    (C15_tick_step_bounded binary32 spinup_world binary32_monotone binary32_zero rfl rfl
      (by norm_num [spinup_world, sample_world, sample_spindle])
      (fun _ => by
        norm_num [curve_speed_hi, spinup_world, sample_world, sample_spindle, sample_pwm,
          SPINDLE_CW])).2.1,
    (C15_tick_step_bounded binary32 spinup_world binary32_monotone binary32_zero rfl rfl
      (by norm_num [spinup_world, sample_world, sample_spindle])
      (fun _ => by
        norm_num [curve_speed_hi, spinup_world, sample_world, sample_spindle, sample_pwm,
          SPINDLE_CW])).2.2.1⟩

/-- The rounded ticks, one more tick. -/
theorem ticks_rounded_succ (fl : ℚ → ℚ) (n : Nat) (w : World) :
    ticks_rounded fl (n + 1) w
      = (do_spindle_speed_ramp_from_systick_rounded fl (ticks_rounded fl n w)).2 := rfl

/-- The rounded ticks, no tick. -/
theorem ticks_rounded_zero (fl : ℚ → ℚ) (w : World) : ticks_rounded fl 0 w = w := rfl

/-- Counterexample to C16 as stated, in single precision: running CW from actual speed 0
toward the target 1 + 2^-20 with ramp step 1 and epsilon 0.00001, ceil(T/r) is 2, but after
one tick the actual speed 1 is within epsilon of the target, and the second tick (like every
later one) returns at once and leaves it at 1, not at the target. -/
theorem C16_counterexample :
    near_world.ENABLE_INTERLOCK_AND_ESTOP = true ∧
    near_world.estop_state = 0 ∧ near_world.safety_state = 0 ∧
    near_world.spindle.state = SPINDLE_CW ∧
    near_world.spindle.speed_change_per_tick = 1 ∧
    near_world.spindle.speed = 1 + 1 / 1048576 ∧
    near_world.spindle.speed_actual = 0 ∧
    curve_speed_lo near_world.spindle.direction near_world.pwm = 0 ∧
    curve_speed_hi near_world.spindle.direction near_world.pwm = 10000 ∧
    ⌈near_world.spindle.speed / near_world.spindle.speed_change_per_tick⌉₊ = 2 ∧
    (ticks_rounded binary32 1 near_world).spindle.speed_actual = 1 ∧
    fp_EQ_rounded binary32 near_world.EPSILON
      (ticks_rounded binary32 1 near_world).spindle.speed_actual near_world.spindle.speed
      = true ∧
    (ticks_rounded binary32 2 near_world).spindle.speed_actual = 1 ∧
    (ticks_rounded binary32 2 near_world).spindle.speed_actual ≠ near_world.spindle.speed := by
  obtain ⟨r1, r2, r3, r4, r5, r6, r7, r8, r9⟩ := ramp_roundings
  have hT : near_world.spindle.speed = 1048577 / 1048576 := by
    norm_num [near_world, sample_world, sample_spindle]
  have hceil : ⌈near_world.spindle.speed / near_world.spindle.speed_change_per_tick⌉₊ = 2 := by
    rw [Nat.ceil_eq_iff (by norm_num)]
    norm_num [near_world, sample_world, sample_spindle]
  have hne : fp_EQ_rounded binary32 near_world.EPSILON 0 near_world.spindle.speed = false := by
    unfold fp_EQ_rounded
    rw [hT, zero_sub, binary32_neg, r7]
    norm_num [near_world, sample_world, abs_of_pos]
  have hex : binary32 (0 + near_world.spindle.speed_change_per_tick)
      = 0 + near_world.spindle.speed_change_per_tick := by
    show binary32 (0 + 1) = 0 + 1
    rw [zero_add, binary32_one]
  obtain ⟨lg1, h1⟩ := tick_rounded_up_frame binary32 near_world 0 near_world.log rfl rfl rfl
    (by rw [hT]; norm_num) hne hex
    (by norm_num [curve_speed_hi, near_world, sample_world, sample_spindle, sample_pwm,
      SPINDLE_CW])
  have hmin : min (0 + near_world.spindle.speed_change_per_tick) near_world.spindle.speed
      = 1 := by
    rw [hT]
    norm_num [near_world, sample_world, sample_spindle]
  rw [hmin] at h1
  have ht1 : ticks_rounded binary32 1 near_world =
      { near_world with
        spindle := { near_world.spindle with speed_actual := 1 }
        log := lg1 } := by
    rw [ticks_rounded_succ binary32 0 near_world, ticks_rounded_zero]
    exact h1
  have heq : fp_EQ_rounded binary32 near_world.EPSILON 1 near_world.spindle.speed = true := by
    unfold fp_EQ_rounded
    have e : (1 : ℚ) - 1048577 / 1048576 = -(1 / 1048576) := by norm_num
    rw [hT, e, binary32_neg, r8]
    norm_num [near_world, sample_world, abs_of_pos]
  have ht2 : ticks_rounded binary32 2 near_world = ticks_rounded binary32 1 near_world := by
    rw [ticks_rounded_succ binary32 1 near_world, ht1]
    exact congrArg Prod.snd (tick_rounded_safe_equal binary32
      { near_world with
        spindle := { near_world.spindle with speed_actual := 1 }
        log := lg1 } rfl rfl rfl heq)
  have a1 : (ticks_rounded binary32 1 near_world).spindle.speed_actual = 1 := by rw [ht1]
  have a2 : (ticks_rounded binary32 2 near_world).spindle.speed_actual = 1 := by rw [ht2, a1]
  rw [a1, a2]
  refine ⟨rfl, rfl, rfl, rfl, rfl, rfl, rfl, ?_, ?_, hceil, rfl, heq, rfl, ?_⟩
  · norm_num [curve_speed_lo, near_world, sample_world, sample_spindle, sample_pwm, SPINDLE_CW]
  · norm_num [curve_speed_hi, near_world, sample_world, sample_spindle, sample_pwm, SPINDLE_CW]
  · rw [hT]
    norm_num

/-- Witness of C16 (amended) in single precision: just switched to CW at actual speed 0,
target 3000 and ramp step 1000, the steps 1000, 2000 and 3000 are computed exactly and the
actual speed equals the target after ceil(3000/1000) = 3 ticks. -/
theorem C16_ramp_converges_witness :
    spinup_world.ENABLE_INTERLOCK_AND_ESTOP = true ∧
    0 < spinup_world.spindle.speed_change_per_tick ∧
    spinup_world.spindle.speed_actual = 0 ∧
    ⌈spinup_world.spindle.speed / spinup_world.spindle.speed_change_per_tick⌉₊ = 3 ∧
    (ticks_rounded binary32
      ⌈spinup_world.spindle.speed / spinup_world.spindle.speed_change_per_tick⌉₊
      spinup_world).spindle.speed_actual = spinup_world.spindle.speed := by
  obtain ⟨r1, r2, r3, r4, r5, r6, r7, r8, r9⟩ := ramp_roundings
  have hceil : ⌈spinup_world.spindle.speed / spinup_world.spindle.speed_change_per_tick⌉₊ = 3 := by
    rw [Nat.ceil_eq_iff (by norm_num)]
    norm_num [spinup_world, sample_world, sample_spindle]
  have hk3 : ∀ k : ℕ,
      k < ⌈spinup_world.spindle.speed / spinup_world.spindle.speed_change_per_tick⌉₊ →
      k = 0 ∨ k = 1 ∨ k = 2 := by
    intro k hk
    rw [hceil] at hk
    omega
  exact ⟨rfl, by norm_num [spinup_world, sample_world, sample_spindle], rfl, hceil,
    (C16_ramp_converges binary32 spinup_world rfl rfl rfl
      (by norm_num [spinup_world, sample_world, sample_spindle])
      (by norm_num [spinup_world, sample_world, sample_spindle])
      (by norm_num [curve_speed_hi, spinup_world, sample_world, sample_spindle, sample_pwm,
        SPINDLE_CW])
      rfl binary32_zero
      (by
        intro k hk
        show binary32 ((k : ℚ) * 1000 + 1000) = (k : ℚ) * 1000 + 1000
        rcases hk3 k hk with rfl | rfl | rfl
        · norm_num; exact r1
        · norm_num; exact r2
        · norm_num; exact r3)
      (by
        intro k hk
        show decide (|binary32 ((k : ℚ) * 1000 - 3000)| < 1 / 100000) = false
        rcases hk3 k hk with rfl | rfl | rfl
        · have e : ((0 : ℕ) : ℚ) * 1000 - 3000 = -3000 := by norm_num
          rw [e, binary32_neg, r3]; norm_num
        · have e : ((1 : ℕ) : ℚ) * 1000 - 3000 = -2000 := by norm_num
          rw [e, binary32_neg, r2]; norm_num
        · have e : ((2 : ℕ) : ℚ) * 1000 - 3000 = -1000 := by norm_num
          rw [e, binary32_neg, r1]; norm_num)).1⟩

/-! ## Arguments the admission checks let through -/

/-- Counterexample to C6 as stated: the speed NaN is not within `speed_min..speed_max` of
`sample_world` (every comparison with NaN is false), yet `spindle_set_speed` returns
`STAT_OK` and records NaN in the G-code model. -/
theorem C6_counterexample :
    ¬ ((sample_world.spindle.speed_min : float) ≤ float.nan ∧
        float.nan ≤ (sample_world.spindle.speed_max : float)) ∧
    (spindle_set_speed float.nan sample_world).1 = stat_t.STAT_OK ∧
    (spindle_set_speed float.nan sample_world).2.gm_spindle_speed = float.nan := by
  refine ⟨fun h => float.not_le_nan _ h.1, ?_, ?_⟩
  · unfold spindle_set_speed
    rw [casey_jones_nan]
    rfl
  · unfold spindle_set_speed
    rw [casey_jones_nan]
    rfl

/-- Counterexample to C7 as stated: with the override enabled, a P word 0.000001 is present,
not zero and below 0.05, yet `spindle_override_control` returns `STAT_OK`, not
`STAT_INPUT_LESS_THAN_MIN_VALUE`, and clears the override enable: the zero test `fp_ZERO`
takes every magnitude below epsilon (here 0.00001) for zero. -/
theorem C7_counterexample :
    (1 / 1000000 : ℚ) ≠ 0 ∧ (1 / 1000000 : ℚ) < 5 / 100 ∧
    override_on_world.spindle.override_enable = true ∧
    (spindle_override_control ((1 / 1000000 : ℚ) : float) true override_on_world).1
      = stat_t.STAT_OK ∧
    (spindle_override_control ((1 / 1000000 : ℚ) : float) true
      override_on_world).2.spindle.override_enable = false := by
  have hz : fp_ZERO_arg override_on_world.EPSILON ((1 / 1000000 : ℚ) : float) = true := by
    rw [fp_ZERO_arg_num]
    norm_num [fp_ZERO, override_on_world, sample_world, abs_of_pos]
  refine ⟨by norm_num, by norm_num, rfl, ?_, ?_⟩
  · unfold spindle_override_control
    rw [if_pos rfl, if_pos hz]
    rfl
  · unfold spindle_override_control
    rw [if_pos rfl, if_pos hz]
    rfl

/-- Counterexample to C8 as stated: the override factor of `sample_world` is 1, within the
bound; a P word NaN fails the zero test and both range tests, so `spindle_override_control`
returns `STAT_OK` and stores NaN as the override factor, which is not within the bound. -/
theorem C8_counterexample :
    ((SPINDLE_OVERRIDE_MIN : float) ≤ sample_world.spindle.override_factor ∧
      sample_world.spindle.override_factor ≤ (SPINDLE_OVERRIDE_MAX : float)) ∧
    (spindle_override_control float.nan true sample_world).1 = stat_t.STAT_OK ∧
    (spindle_override_control float.nan true sample_world).2.spindle.override_factor
      = float.nan ∧
    ¬ ((SPINDLE_OVERRIDE_MIN : float)
        ≤ (spindle_override_control float.nan true sample_world).2.spindle.override_factor ∧
      (spindle_override_control float.nan true sample_world).2.spindle.override_factor
        ≤ (SPINDLE_OVERRIDE_MAX : float)) := by
  have hrun : spindle_override_control float.nan true sample_world
      = override_commit true true
          { sample_world with
            spindle := { sample_world.spindle with override_factor := float.nan } } := by
    unfold spindle_override_control
    rw [if_pos rfl, if_neg (by simp [fp_ZERO_arg]), if_neg (float.not_nan_lt _),
      if_neg (float.not_lt_nan _)]
  have hfac : (spindle_override_control float.nan true sample_world).2.spindle.override_factor
      = float.nan := by
    rw [hrun, override_commit_factor]
  refine ⟨?_, ?_, hfac, ?_⟩
  · constructor
    · show float.num SPINDLE_OVERRIDE_MIN ≤ float.num 1
      rw [float.num_le_num]
      norm_num [SPINDLE_OVERRIDE_MIN]
    · show float.num 1 ≤ float.num SPINDLE_OVERRIDE_MAX
      rw [float.num_le_num]
      norm_num [SPINDLE_OVERRIDE_MAX]
  · rw [hrun]
    rfl
  · rw [hfac]
    exact fun h => float.not_le_nan _ h.1

end EscSpindle
